import Mathlib

/-!
# wmbusmeters: the telegram parser of `wmbus.cc`

A shallow embedding of the layer parsers of `src/wmbus.cc` and of the tables they use.

* A byte (`uchar`) is a `Fin 256`; the frame is a list of bytes and the parse cursor
  (`vector<uchar>::iterator pos`) is the offset of the iterator from `frame.begin()`.
* A member function `bool Telegram::f(iterator &pos)` becomes
  `f : Telegram → Nat → Option (Bool × Telegram × Nat)`: the returned flag, the telegram
  after the call and the cursor after the call. The result is `none` exactly when the C++
  code dereferences an iterator outside the frame (undefined behaviour).
* `int` members only ever hold values assembled from one or two bytes, they are `Nat`.
* AES-CMAC and the two AES-CBC decryption routines are not part of `wmbus.cc`; they are
  fields of the structure `Crypto`, over which the parsers are parameterised. The CRC and the
  AES-CTR decryption of the extended link layer (`LinkOps`), the list of the AFL authentication
  types (`AFLAuthTypes`) and `parseDV` (`DVOps`) are parameters in the same way.
* The format signature cache is a global of `dvparser.cc`; the parsers that call `parseDV`
  receive it as an argument and return it with their result.
* `canSetLinkModes` of `src/wmbus_amb8465.cc` is modelled with the link mode functions of
  `wmbus.cc` it calls.
-/

namespace Wmbus

/-! ## Bytes and text formatting -/

/-- The C++ type `uchar`. -/
abbrev uchar := Fin 256

/-- A C array `uchar x[4]`. -/
structure Bytes4 where
  b0 : uchar := 0
  b1 : uchar := 0
  b2 : uchar := 0
  b3 : uchar := 0
deriving DecidableEq, Repr

/-- The four bytes of the array in index order, as `insert(end, x, x+4)` copies them. -/
def Bytes4.toList (b : Bytes4) : List uchar := [b.b0, b.b1, b.b2, b.b3]

/-- The printf conversion `%02x`: lowercase hexadecimal, zero padded to two digits. -/
def fmt02x (v : Nat) : String :=
  let ds := Nat.toDigits 16 v
  String.mk (List.replicate (2 - ds.length) '0' ++ ds)

/-- The printf conversion `%d` of a non-negative value. -/
def fmtd (v : Nat) : String := toString v

/-- The effect of `vsnprintf(buf, 1023, fmt, args)` on the formatted text: the size 1023 counts
the terminating NUL, so at most 1022 characters are kept (all texts are ASCII apart from the
degree sign of two media names). -/
def vsnprintf1023 (text : String) : String := String.mk (text.data.take 1022)

/-! ## Tables -/

/-- Source: `manufacturerFlag`. The three letters of a manufacturer code; `/` and `%` are the
truncating C operators and the results are converted to `char`. -/
def manufacturerFlag (m_field : Int) : String :=
  let a : Int := Int.tmod (Int.tdiv m_field 1024) 32 + 64
  let b : Int := Int.tmod (Int.tdiv m_field 32) 32 + 64
  let c : Int := Int.tmod m_field 32 + 64
  String.mk [Char.ofNat a.toNat, Char.ofNat b.toNat, Char.ofNat c.toNat]

/-- The `case` labels of `mediaType` with the text each returns. -/
def mediaTypeTable : List (Nat × String) :=
  [(0, "Other"), (1, "Oil meter"),
   (2, "Electricity meter"), (3, "Gas meter"),
   (4, "Heat meter"), (5, "Steam meter"),
   (6, "Warm Water (30°C-90°C) meter"), (7, "Water meter"),
   (8, "Heat Cost Allocator"), (9, "Compressed air meter"),
   (0x0a, "Cooling load volume at outlet meter"), (0x0b, "Cooling load volume at inlet meter"),
   (0x0c, "Heat volume at inlet meter"), (0x0d, "Heat/Cooling load meter"),
   (0x0e, "Bus/System component"), (0x0f, "Unknown"),
   (0x15, "Hot water (>=90°C) meter"), (0x16, "Cold water meter"),
   (0x17, "Hot/Cold water meter"), (0x18, "Pressure meter"),
   (0x19, "A/D converter"), (0x1A, "Smoke detector"),
   (0x1B, "Room sensor (eg temperature or humidity)"), (0x1C, "Gas detector"),
   (0x1D, "Reserved for sensors"), (0x1F, "Reserved for sensors"),
   (0x20, "Breaker (electricity)"), (0x21, "Valve (gas or water)"),
   (0x22, "Reserved for switching devices"), (0x23, "Reserved for switching devices"),
   (0x24, "Reserved for switching devices"), (0x25, "Customer unit (display device)"),
   (0x26, "Reserved for customer units"), (0x27, "Reserved for customer units"),
   (0x28, "Waste water"), (0x29, "Garbage"),
   (0x2A, "Reserved for Carbon dioxide"), (0x2B, "Reserved for environmental meter"),
   (0x2C, "Reserved for environmental meter"), (0x2D, "Reserved for environmental meter"),
   (0x2E, "Reserved for environmental meter"), (0x2F, "Reserved for environmental meter"),
   (0x30, "Reserved for system devices"), (0x31, "Reserved for communication controller"),
   (0x32, "Reserved for unidirectional repeater"), (0x33, "Reserved for bidirectional repeater"),
   (0x34, "Reserved for system devices"), (0x35, "Reserved for system devices"),
   (0x36, "Radio converter (system side)"), (0x37, "Radio converter (meter side)"),
   (0x38, "Reserved for system devices"), (0x39, "Reserved for system devices"),
   (0x3A, "Reserved for system devices"), (0x3B, "Reserved for system devices"),
   (0x3C, "Reserved for system devices"), (0x3D, "Reserved for system devices"),
   (0x3E, "Reserved for system devices"), (0x3F, "Reserved for system devices"),
   (0x62, "Warm water"), (0x72, "Cold water"),
   (0x80, "Heat Cost Allocator"), (0xC3, "Heat meter")]

/-- Source: `mediaType`. The `switch` over the device type, `"Unknown"` when no label matches. -/
def mediaType (a_field_device_type : Nat) : String :=
  (mediaTypeTable.lookup a_field_device_type).getD "Unknown"

/-- Source: `cType`. The description of the C field. -/
def cType (c_field : Nat) : String :=
  let s := if c_field &&& 0x80 ≠ 0 then "relayed " else ""
  let s := if c_field &&& 0x40 ≠ 0 then s ++ "from meter " else s ++ "to meter "
  let code := c_field &&& 0x0f
  if code = 0x0 then s ++ "SND_NKE"
  else if code = 0x3 then s ++ "SND_UD2"
  else if code = 0x4 then s ++ "SND_NR"
  else if code = 0x5 then s ++ "SND_UD3"
  else if code = 0x6 then s ++ "SND_IR"
  else if code = 0x7 then s ++ "ACC_NR"
  else if code = 0x8 then s ++ "ACC_DMD"
  else if code = 0xa then s ++ "REQ_UD1"
  else if code = 0xb then s ++ "REQ_UD2"
  else s

/-- Source: `difLenBytes`. The number of data bytes a DIF announces; -1 is the variable
length code and -2 marks the special function codes. -/
def difLenBytes (dif : Int) : Int :=
  let t := Int.land dif 0x0f
  if t = 0x0 then 0
  else if t = 0x1 then 1
  else if t = 0x2 then 2
  else if t = 0x3 then 3
  else if t = 0x4 then 4
  else if t = 0x5 then 4
  else if t = 0x6 then 6
  else if t = 0x7 then 8
  else if t = 0x8 then 0
  else if t = 0x9 then 1
  else if t = 0xA then 2
  else if t = 0xB then 3
  else if t = 0xC then 4
  else if t = 0xD then -1
  else if t = 0xE then 6
  else if t = 0xF then (if dif = 0x2f then 1 else -2)
  else -2

/-- Modelled from the spec: `bin2hex` is defined in `util.cc`, which is not among the sources.
The spec (4.A, 6) describes the hex codec; its output is the uppercase hex of the bytes, two
digits per byte with the high nibble first. `hexChar` is the digit table it indexes. -/
def hexChar (n : Nat) : Char := "0123456789ABCDEF".data.getD n '0'

/-- Modelled from the spec: the two hex digits `bin2hex` appends for one byte (see `hexChar`). -/
def hexPair (ch : uchar) : List Char :=
  [hexChar ((ch.val &&& 0xF0) >>> 4), hexChar (ch.val &&& 0xF)]

/-- Modelled from the spec: `bin2hex` (see `hexChar`), the concatenation of the digit pairs. -/
def bin2hex (target : List uchar) : String := String.mk (target.flatMap hexPair)

/-- Modelled from the spec: the enum `TPLSecurityMode` is generated from the list macro
`LIST_OF_TPL_SECURITY_MODES` of `wmbus.h`, which is not among the sources. The spec (3, TPL)
describes a 5-bit security mode with 0 = none, 5 = CBC with IV and 7 = CBC without IV; `wmbus.cc`
names `AES_CBC_IV`, `AES_CBC_NO_IV` and the fallback `SPECIFIC_16_31` with number 16. The model has
one enumerator for each code 0..15 and the fallback. -/
inductive TPLSecurityMode
  | NoSecurity | MFCT_SPECIFIC | DES_NO_IV_DEPRECATED | DES_IV_DEPRECATED | SPECIFIC_4
  | AES_CBC_IV | RESERVED_6 | AES_CBC_NO_IV | AES_CTR_CMAC | AES_CGM | AES_CCM
  | RESERVED_11 | RESERVED_12 | SPECIFIC_13 | RESERVED_14 | SPECIFIC_15 | SPECIFIC_16_31
deriving DecidableEq, Repr

/-- The enumerators of `TPLSecurityMode` in the order of their numbers 0..16. -/
def TPLSecurityMode.all : List TPLSecurityMode :=
  [.NoSecurity, .MFCT_SPECIFIC, .DES_NO_IV_DEPRECATED, .DES_IV_DEPRECATED, .SPECIFIC_4,
   .AES_CBC_IV, .RESERVED_6, .AES_CBC_NO_IV, .AES_CTR_CMAC, .AES_CGM, .AES_CCM,
   .RESERVED_11, .RESERVED_12, .SPECIFIC_13, .RESERVED_14, .SPECIFIC_15, .SPECIFIC_16_31]

/-- Source: `fromIntToTPLSecurityMode`. A `switch` with one `case nr` per enumerator and the
default `SPECIFIC_16_31`. -/
def fromIntToTPLSecurityMode (i : Nat) : TPLSecurityMode :=
  TPLSecurityMode.all.getD i .SPECIFIC_16_31

/-- Source: `toString(TPLSecurityMode)`. The name of the enumerator. -/
def TPLSecurityMode.toString : TPLSecurityMode → String
  | .NoSecurity => "NoSecurity" | .MFCT_SPECIFIC => "MFCT_SPECIFIC"
  | .DES_NO_IV_DEPRECATED => "DES_NO_IV_DEPRECATED" | .DES_IV_DEPRECATED => "DES_IV_DEPRECATED"
  | .SPECIFIC_4 => "SPECIFIC_4" | .AES_CBC_IV => "AES_CBC_IV" | .RESERVED_6 => "RESERVED_6"
  | .AES_CBC_NO_IV => "AES_CBC_NO_IV" | .AES_CTR_CMAC => "AES_CTR_CMAC" | .AES_CGM => "AES_CGM"
  | .AES_CCM => "AES_CCM" | .RESERVED_11 => "RESERVED_11" | .RESERVED_12 => "RESERVED_12"
  | .SPECIFIC_13 => "SPECIFIC_13" | .RESERVED_14 => "RESERVED_14" | .SPECIFIC_15 => "SPECIFIC_15"
  | .SPECIFIC_16_31 => "SPECIFIC_16_31"

/-- The C++ idiom `if (info.length() > 0) info.pop_back();`. -/
def popBackIfNonempty (info : String) : String := String.mk info.data.dropLast

/-- Source: `Telegram::toStringFromTPLConfig`. -/
def toStringFromTPLConfig (cfg : Nat) : String :=
  let info := if cfg &&& 0x1f00 ≠ 0
    then (fromIntToTPLSecurityMode ((cfg >>> 8) &&& 0x1f)).toString ++ " " else ""
  let info := if cfg &&& 0x80 ≠ 0 then info ++ "bidirectional " else info
  let info := if cfg &&& 0x40 ≠ 0 then info ++ "accessibility " else info
  let info := if cfg &&& 0x20 ≠ 0 then info ++ "synchronous " else info
  popBackIfNonempty info

/-! ## The telegram -/

/-- Modelled from the spec: `struct MeterKeys` is declared in `wmbus.h`, which is not among the
sources. The spec (6) gives it an optional confidentiality key and the simulation flag;
`wmbus.cc` reads `confidentiality_key.size()`, so the key is a byte vector that is empty when no
key was given. -/
structure MeterKeys where
  confidentiality_key : List uchar := []
  simulation : Bool := false
deriving DecidableEq, Repr

/-- Modelled from the spec: `MeterKeys::hasConfidentialityKey` (declared in `wmbus.h`); a key is
present when the key vector is not empty. -/
def MeterKeys.hasConfidentialityKey (mk : MeterKeys) : Bool := decide (mk.confidentiality_key.length > 0)

/-- Modelled from the spec: `MeterKeys::isSimulation` (declared in `wmbus.h`). -/
def MeterKeys.isSimulation (mk : MeterKeys) : Bool := mk.simulation

/-- Modelled from the spec: the enum `ELLSecurityMode` is generated from the list macro
`LIST_OF_ELL_SECURITY_MODES` of `wmbus.h`, which is not among the sources. The spec (3, ELL) gives
the session number a 3 bit security mode; `wmbus.cc` names `AES_CTR` and the fallback `RESERVED`
with number 2. The model has the enumerators no security (0), AES-CTR (1) and the fallback. -/
inductive ELLSecurityMode
  | NoSecurity | AES_CTR | RESERVED
deriving DecidableEq, Repr

/-- The members of `class Telegram` that the layer parsers read and write. The class is
declared in `wmbus.h`; the members are listed as `wmbus.cc` uses them and a freshly constructed
telegram holds the value-initialised members given as defaults. `tpl_start` is the offset of
the iterator of that name. The map `values` is kept as the list of its records: the key, the
offset and the hex text of the value. -/
structure Telegram where
  frame : List uchar := []
  parsed : List uchar := []
  explanations : List (Nat × String) := []
  meter_keys : MeterKeys := {}
  parser_warns_ : Bool := true
  id : String := ""
  dll_len : Nat := 0
  dll_c : Nat := 0
  dll_mfct_b : uchar × uchar := (0, 0)
  dll_mfct : Nat := 0
  dll_a : List uchar := []
  dll_id_b : Bytes4 := {}
  dll_id : List uchar := []
  dll_version : uchar := 0
  dll_type : uchar := 0
  afl_mcl : uchar := 0
  afl_counter_b : Bytes4 := {}
  afl_mac_b : List uchar := []
  tpl_start : Nat := 0
  tpl_id_found : Bool := false
  tpl_id_b : Bytes4 := {}
  tpl_cfg : Nat := 0
  tpl_sec_mode : TPLSecurityMode := .NoSecurity
  tpl_num_encr_blocks : Nat := 0
  tpl_cfg_ext : Nat := 0
  tpl_kdf_selection : Nat := 0
  tpl_generated_key : List uchar := []
  tpl_generated_mac_key : List uchar := []
  ell_ci : Int := 0
  ell_cc : Nat := 0
  ell_acc : Nat := 0
  ell_mfct_b : uchar × uchar := (0, 0)
  ell_mfct : Nat := 0
  ell_id_found : Bool := false
  ell_id_b : Bytes4 := {}
  ell_version : uchar := 0
  ell_type : uchar := 0
  ell_sn_b : Bytes4 := {}
  ell_sn : Int := 0
  ell_sn_session : Int := 0
  ell_sn_time : Int := 0
  ell_sn_sec : Int := 0
  ell_sec_mode : ELLSecurityMode := .NoSecurity
  ell_pl_crc_b : uchar × uchar := (0, 0)
  ell_pl_crc : Nat := 0
  afl_ci : Int := 0
  afl_len : Nat := 0
  afl_fc_b : uchar × uchar := (0, 0)
  afl_fc : Nat := 0
  afl_ki_b : uchar × uchar := (0, 0)
  afl_ki : Nat := 0
  afl_counter : Nat := 0
  must_check_mac : Bool := false
  tpl_ci : Int := 0
  tpl_acc : Nat := 0
  tpl_sts : Nat := 0
  tpl_mfct_b : uchar × uchar := (0, 0)
  tpl_mfct : Nat := 0
  tpl_version : uchar := 0
  tpl_type : uchar := 0
  format_signature : Nat := 0
  header_size : Nat := 0
  suffix_size : Nat := 0
  values : List (String × Nat × String) := []
deriving DecidableEq, Repr

/-- The cryptographic routines called by `wmbus.cc` and defined elsewhere (`aescmac.c`,
`wmbus_utils.cc`), kept opaque. `AES_CMAC key input` is the 16 byte MAC written to the output
buffer. The two decryption routines receive the telegram (which holds the frame), the cursor
and the key; they return their success flag and the frame as it is after the in-place
decryption. -/
structure Crypto where
  AES_CMAC : List uchar → List uchar → { mac : List uchar // mac.length = 16 }
  decrypt_TPL_AES_CBC_IV : Telegram → Nat → List uchar → Bool × List uchar
  decrypt_TPL_AES_CBC_NO_IV : Telegram → Nat → List uchar → Bool × List uchar

/-- Source: `expectedMore`. Logs that the parser expected more data and returns false. -/
def expectedMore : Bool := false

/-- Modelled from the spec: the macro `CHECK(n)` is defined in a header that is not among the
sources; it returns `expectedMore` from the calling parser unless `hasBytes n pos frame`, that is
unless at least `n` bytes remain from the cursor to the end of the frame (7: Truncated). -/
def hasBytes (n : Nat) (pos : Nat) (frame : List uchar) : Bool :=
  decide ((n : Int) ≤ (frame.length : Int) - (pos : Int))

/-- Source: `Telegram::addExplanationAndIncrementPos`. Appends the explanation at the offset
`parsed.size()`, appends the `len` bytes at the cursor to `parsed` and advances the cursor.
Copying bytes from beyond the end of the frame is outside the frame (`none`). -/
def addExplanationAndIncrementPos (t : Telegram) (pos : Nat) (len : Nat) (text : String) :
    Option (Telegram × Nat) :=
  if pos + len ≤ t.frame.length then
    some ({ t with explanations := t.explanations ++ [(t.parsed.length, vsnprintf1023 text)],
                   parsed := t.parsed ++ (t.frame.drop pos).take len }, pos + len)
  else none

/-! ## The data link layer -/

/-- Source: `Telegram::parseDLL`. -/
def parseDLL (t : Telegram) (pos : Nat) : Option (Bool × Telegram × Nat) :=
  let remaining : Int := (t.frame.length : Int) - (pos : Int)
  if remaining = 0 then some (expectedMore, t, pos) else
  match t.frame[pos]? with
  | none => none
  | some len =>
  let t := { t with dll_len := len.val }
  if remaining < (t.dll_len : Int) then some (expectedMore, t, pos) else
  match addExplanationAndIncrementPos t pos 1
    (fmt02x t.dll_len ++ " length (" ++ fmtd t.dll_len ++ " bytes)") with
  | none => none
  | some (t, pos) =>
  match t.frame[pos]? with
  | none => none
  | some c =>
  let t := { t with dll_c := c.val }
  match addExplanationAndIncrementPos t pos 1
    (fmt02x t.dll_c ++ " dll-c (" ++ cType t.dll_c ++ ")") with
  | none => none
  | some (t, pos) =>
  match t.frame[pos + 0]? with
  | none => none
  | some m0 =>
  match t.frame[pos + 1]? with
  | none => none
  | some m1 =>
  let t := { t with dll_mfct_b := (m0, m1), dll_mfct := ((m1.val <<< 8) ||| m0.val) }
  let man := manufacturerFlag t.dll_mfct
  match addExplanationAndIncrementPos t pos 2
    (fmt02x m0.val ++ fmt02x m1.val ++ " dll-mfct (" ++ man ++ ")") with
  | none => none
  | some (t, pos) =>
  match t.frame[pos + 0]? with
  | none => none
  | some a0 =>
  match t.frame[pos + 1]? with
  | none => none
  | some a1 =>
  match t.frame[pos + 2]? with
  | none => none
  | some a2 =>
  match t.frame[pos + 3]? with
  | none => none
  | some a3 =>
  match t.frame[pos + 4]? with
  | none => none
  | some a4 =>
  match t.frame[pos + 5]? with
  | none => none
  | some a5 =>
  let t := { t with dll_a := [a0, a1, a2, a3, a4, a5],
                    dll_id_b := { b0 := a0, b1 := a1, b2 := a2, b3 := a3 },
                    dll_id := [a3, a2, a1, a0] }
  let t := { t with id := fmt02x a3.val ++ fmt02x a2.val ++ fmt02x a1.val ++ fmt02x a0.val }
  match addExplanationAndIncrementPos t pos 4
    (fmt02x a0.val ++ fmt02x a1.val ++ fmt02x a2.val ++ fmt02x a3.val
      ++ " dll-id (" ++ t.id ++ ")") with
  | none => none
  | some (t, pos) =>
  match t.frame[pos + 0]? with
  | none => none
  | some v =>
  match t.frame[pos + 1]? with
  | none => none
  | some ty =>
  let t := { t with dll_version := v, dll_type := ty }
  match addExplanationAndIncrementPos t pos 1 (fmt02x v.val ++ " dll-version") with
  | none => none
  | some (t, pos) =>
  match addExplanationAndIncrementPos t pos 1
    (fmt02x ty.val ++ " dll-type (" ++ mediaType ty.val ++ ")") with
  | none => none
  | some (t, pos) => some (true, t, pos)

/-! ## The transport layer: configuration word, MAC check and decryption -/

/-- Source: `Telegram::parseTPLConfig`. -/
def parseTPLConfig (cr : Crypto) (t : Telegram) (pos : Nat) : Option (Bool × Telegram × Nat) :=
  if ¬ hasBytes 2 pos t.frame then some (expectedMore, t, pos) else
  match t.frame[pos + 0]? with
  | none => none
  | some cfg1 =>
  match t.frame[pos + 1]? with
  | none => none
  | some cfg2 =>
  let t := { t with tpl_cfg := ((cfg2.val <<< 8) ||| cfg1.val) }
  let t := if t.tpl_cfg &&& 0x1f00 ≠ 0
    then { t with tpl_sec_mode := fromIntToTPLSecurityMode ((t.tpl_cfg >>> 8) &&& 0x1f) } else t
  let info := toStringFromTPLConfig t.tpl_cfg ++ " "
  let has_cfg_ext : Bool := decide (t.tpl_sec_mode = .AES_CBC_NO_IV)
  let t := if has_cfg_ext then { t with tpl_num_encr_blocks := (t.tpl_cfg >>> 4) &&& 0x0f } else t
  let info := if has_cfg_ext then info ++ "NEB=" ++ fmtd t.tpl_num_encr_blocks ++ " " else info
  match addExplanationAndIncrementPos t pos 2
    (fmt02x cfg1.val ++ fmt02x cfg2.val ++ " tpl-cfg (" ++ info ++ ")") with
  | none => none
  | some (t, pos) =>
  if ¬ has_cfg_ext then some (true, t, pos) else
  if ¬ hasBytes 1 pos t.frame then some (expectedMore, t, pos) else
  match t.frame[pos + 0]? with
  | none => none
  | some ext =>
  let t := { t with tpl_cfg_ext := ext.val, tpl_kdf_selection := (ext.val >>> 4) &&& 3 }
  match addExplanationAndIncrementPos t pos 1
    (fmt02x t.tpl_cfg_ext ++ " tpl-cfg-ext (KDFS=" ++ fmtd t.tpl_kdf_selection ++ ")") with
  | none => none
  | some (t, pos) =>
  if t.tpl_kdf_selection ≠ 1 then some (true, t, pos) else
  let input : List uchar := [0x00]
  let input := input ++ t.afl_counter_b.toList
  let input := if t.tpl_id_found then input ++ t.tpl_id_b.toList else input ++ t.dll_id_b.toList
  let input := input ++ List.replicate 7 0x07
  if t.meter_keys.confidentiality_key.length ≠ 16 then
    (if t.meter_keys.isSimulation then some (true, t, pos) else some (false, t, pos))
  else
  let mac := (cr.AES_CMAC t.meter_keys.confidentiality_key (input.take 16)).val
  let t := { t with tpl_generated_key := mac }
  let input := input.set 0 0x01
  let mac := (cr.AES_CMAC t.meter_keys.confidentiality_key (input.take 16)).val
  let t := { t with tpl_generated_mac_key := mac }
  some (true, t, pos)

/-- Source: `Telegram::checkMAC`. The arguments `from_` and `to_` are the offsets of the
iterators `from` and `to` into `frame`; `explainParse`, called on a mismatch, only writes to the debug log. -/
def checkMAC (cr : Crypto) (t : Telegram) (frame : List uchar) (from_ to_ : Nat)
    (inmac mackey : List uchar) : Bool :=
  if mackey.length ≠ 16 then false else
  if inmac.length = 0 then false else
  let input : List uchar := [t.afl_mcl]
  let input := input ++ t.afl_counter_b.toList
  let input := input ++ (frame.take to_).drop from_
  let mac := (cr.AES_CMAC mackey input).val
  let calculated := bin2hex mac
  let received := bin2hex inmac
  let truncated := String.mk (calculated.data.take received.length)
  let ok : Bool := decide (truncated = received)
  ok

/-- Source: `Telegram::potentiallyDecrypt`. -/
def potentiallyDecrypt (cr : Crypto) (t : Telegram) (pos : Nat) : Option (Bool × Telegram × Nat) :=
  if t.tpl_sec_mode = .AES_CBC_IV then
    let r := cr.decrypt_TPL_AES_CBC_IV t pos t.meter_keys.confidentiality_key
    let t := { t with frame := r.2 }
    if !r.1 then some (false, t, pos) else
    if ¬ hasBytes 2 pos t.frame then some (expectedMore, t, pos) else
    match t.frame[pos + 0]? with
    | none => none
    | some c0 =>
    match t.frame[pos + 1]? with
    | none => none
    | some c1 =>
    if c0 ≠ 0x2f ∨ c1 ≠ 0x2f then some (false, t, pos) else
    match addExplanationAndIncrementPos t pos 2
      (fmt02x c0.val ++ fmt02x c1.val ++ " decrypt check bytes") with
    | none => none
    | some (t, pos) => some (true, t, pos)
  else if t.tpl_sec_mode = .AES_CBC_NO_IV then
    if ¬ t.meter_keys.hasConfidentialityKey ∧ t.meter_keys.isSimulation then
      if ¬ hasBytes 2 pos t.frame then some (expectedMore, t, pos) else
      match t.frame[pos + 0]? with
      | none => none
      | some c0 =>
      match t.frame[pos + 1]? with
      | none => none
      | some c1 =>
      match addExplanationAndIncrementPos t pos 2
        (fmt02x c0.val ++ fmt02x c1.val ++ " (already) decrypted check bytes") with
      | none => none
      | some (t, pos) => some (true, t, pos)
    else
    let mac_ok : Bool := checkMAC cr t t.frame t.tpl_start t.frame.length t.afl_mac_b t.tpl_generated_mac_key
    if !mac_ok then some (false, t, pos) else
    let r := cr.decrypt_TPL_AES_CBC_NO_IV t pos t.tpl_generated_key
    let t := { t with frame := r.2 }
    if !r.1 then some (false, t, pos) else
    if ¬ hasBytes 2 pos t.frame then some (expectedMore, t, pos) else
    match t.frame[pos + 0]? with
    | none => none
    | some c0 =>
    match t.frame[pos + 1]? with
    | none => none
    | some c1 =>
    if c0 ≠ 0x2f ∨ c1 ≠ 0x2f then some (false, t, pos) else
    match addExplanationAndIncrementPos t pos 2
      (fmt02x c0.val ++ fmt02x c1.val ++ " decrypt check bytes") with
    | none => none
    | some (t, pos) => some (true, t, pos)
  else some (true, t, pos)

/-! ## The VIF tables -/

/-- A C `switch` whose `case` labels are grouped by the statement they fall through to: the value
of the first group that lists `t`, and `dflt` (the `default:` branch) when no label matches. -/
def switchLookup {α : Type} (groups : List (List Nat × α)) (t : Nat) (dflt : α) : α :=
  match groups.find? (fun g => g.1.contains t) with
  | some g => g.2
  | none => dflt

/-- The `case` labels of `vifScale` with the value each returns. The `double` literals are read
as the exact decimal numbers they denote, a `double` is modelled by a rational number. The
labels 0x78, 0x79, 0x80, 0x7C, 0x7E and 0x7F fall through to the `default:` branch. -/
def vifScaleTable : List (Nat × ℚ) :=
  [
   (0x00, 1000000.0), (0x01, 100000.0), (0x02, 10000.0), (0x03, 1000.0),
   (0x04, 100.0), (0x05, 10.0), (0x06, 1.0), (0x07, 0.1),
   (0x08, 1000000.0), (0x09, 100000.0), (0x0A, 10000.0), (0x0B, 1000.0),
   (0x0C, 100.0), (0x0D, 10.0), (0x0E, 1.0), (0x0F, 0.1),
   (0x10, 1000000.0), (0x11, 100000.0), (0x12, 10000.0), (0x13, 1000.0),
   (0x14, 100.0), (0x15, 10.0), (0x16, 1.0), (0x17, 0.1),
   (0x18, 1000.0), (0x19, 100.0), (0x1A, 10.0), (0x1B, 1.0),
   (0x1C, 0.1), (0x1D, 0.01), (0x1E, 0.001), (0x1F, 0.0001),
   (0x20, 3600.0), (0x21, 60.0), (0x22, 1.0), (0x23, (1.0/24.0)),
   (0x24, 3600.0), (0x25, 60.0), (0x26, 1.0), (0x27, (1.0/24.0)),
   (0x28, 1000000.0), (0x29, 100000.0), (0x2A, 10000.0), (0x2B, 1000.0),
   (0x2C, 100.0), (0x2D, 10.0), (0x2E, 1.0), (0x2F, 0.1),
   (0x30, 1000000.0), (0x31, 100000.0), (0x32, 10000.0), (0x33, 1000.0),
   (0x34, 100.0), (0x35, 10.0), (0x36, 1.0), (0x37, 0.1),
   (0x38, 1000000.0), (0x39, 100000.0), (0x3A, 10000.0), (0x3B, 1000.0),
   (0x3C, 100.0), (0x3D, 10.0), (0x3E, 1.0), (0x3F, 0.1),
   (0x40, 600000000.0), (0x41, 60000000.0), (0x42, 6000000.0), (0x43, 600000.0),
   (0x44, 60000.0), (0x45, 6000.0), (0x46, 600.0), (0x47, 60.0),
   (0x48, 1000000000.0*3600), (0x49, 100000000.0*3600), (0x4A, 10000000.0*3600), (0x4B, 1000000.0*3600),
   (0x4C, 100000.0*3600), (0x4D, 10000.0*3600), (0x4E, 1000.0*3600), (0x4F, 100.0*3600),
   (0x50, 1000.0), (0x51, 100.0), (0x52, 10.0), (0x53, 1.0),
   (0x54, 0.1), (0x55, 0.01), (0x56, 0.001), (0x57, 0.0001),
   (0x58, 1000.0), (0x59, 100.0), (0x5A, 10.0), (0x5B, 1.0),
   (0x5C, 1000.0), (0x5D, 100.0), (0x5E, 10.0), (0x5F, 1.0),
   (0x60, 1000.0), (0x61, 100.0), (0x62, 10.0), (0x63, 1.0),
   (0x64, 1000.0), (0x65, 100.0), (0x66, 10.0), (0x67, 1.0),
   (0x68, 1000.0), (0x69, 100.0), (0x6A, 10.0), (0x6B, 1.0),
   (0x6C, -1.0), (0x6E, 1.0), (0x6F, -1.0), (0x70, 3600.0),
   (0x71, 60.0), (0x72, 1.0), (0x73, (1.0/24.0)), (0x74, 3600.0),
   (0x75, 60.0), (0x76, 1.0), (0x77, (1.0/24.0)), (0x78, -1),
   (0x79, -1), (0x80, -1), (0x7C, -1), (0x7E, -1),
   (0x7F, -1)]

/-- Source: `vifScale`. The factor between the raw value of a VIF and the unit wmbusmeters
reports; -1 when the VIF cannot be scaled (the `default:` branch). -/
def vifScale (vif : Int) : ℚ :=
  let t := Int.land vif 0x7f
  (vifScaleTable.lookup t.toNat).getD (-1)

/-- The `case` labels of `vifKey`, grouped by the `return` they fall through to. -/
def vifKeyTable : List (List Nat × String) :=
  [
   ([0x00, 0x01, 0x02, 0x03, 0x04, 0x05, 0x06, 0x07], "energy"),
   ([0x08, 0x09, 0x0A, 0x0B, 0x0C, 0x0D, 0x0E, 0x0F], "energy"),
   ([0x10, 0x11, 0x12, 0x13, 0x14, 0x15, 0x16, 0x17], "volume"),
   ([0x18, 0x19, 0x1A, 0x1B, 0x1C, 0x1D, 0x1E, 0x1F], "mass"),
   ([0x20, 0x21, 0x22, 0x23], "on_time"),
   ([0x24, 0x25, 0x26, 0x27], "operating_time"),
   ([0x28, 0x29, 0x2A, 0x2B, 0x2C, 0x2D, 0x2E, 0x2F], "power"),
   ([0x30, 0x31, 0x32, 0x33, 0x34, 0x35, 0x36, 0x37], "power"),
   ([0x38, 0x39, 0x3A, 0x3B, 0x3C, 0x3D, 0x3E, 0x3F], "volume_flow"),
   ([0x40, 0x41, 0x42, 0x43, 0x44, 0x45, 0x46, 0x47], "volume_flow_ext"),
   ([0x48, 0x49, 0x4A, 0x4B, 0x4C, 0x4D, 0x4E, 0x4F], "volume_flow_ext"),
   ([0x50, 0x51, 0x52, 0x53, 0x54, 0x55, 0x56, 0x57], "mass_flow"),
   ([0x58, 0x59, 0x5A, 0x5B], "flow_temperature"),
   ([0x5C, 0x5D, 0x5E, 0x5F], "return_temperature"),
   ([0x60, 0x61, 0x62, 0x63], "temperature_difference"),
   ([0x64, 0x65, 0x66, 0x67], "external_temperature"),
   ([0x68, 0x69, 0x6A, 0x6B], "pressure"),
   ([0x6C], "date"),
   ([0x6E], "hca"),
   ([0x6F], "reserved"),
   ([0x70, 0x71, 0x72, 0x73], "average_duration"),
   ([0x74, 0x75, 0x76, 0x77], "actual_duration"),
   ([0x78], "fabrication_no"),
   ([0x79], "enhanced_identification"),
   ([0x7C, 0x7E, 0x7F], "unknown")]

/-- Source: `vifKey`. -/
def vifKey (vif : Int) : String :=
  let t := Int.land vif 0x7f
  switchLookup vifKeyTable t.toNat "unknown"

/-- The `case` labels of `vifUnit`, grouped by the `return` they fall through to. -/
def vifUnitTable : List (List Nat × String) :=
  [
   ([0x00, 0x01, 0x02, 0x03, 0x04, 0x05, 0x06, 0x07], "kwh"),
   ([0x08, 0x09, 0x0A, 0x0B, 0x0C, 0x0D, 0x0E, 0x0F], "MJ"),
   ([0x10, 0x11, 0x12, 0x13, 0x14, 0x15, 0x16, 0x17], "m3"),
   ([0x18, 0x19, 0x1A, 0x1B, 0x1C, 0x1D, 0x1E, 0x1F], "kg"),
   ([0x20, 0x21, 0x22, 0x23, 0x24, 0x25, 0x26, 0x27], "h"),
   ([0x28, 0x29, 0x2A, 0x2B, 0x2C, 0x2D, 0x2E, 0x2F], "kw"),
   ([0x30, 0x31, 0x32, 0x33, 0x34, 0x35, 0x36, 0x37], "MJ"),
   ([0x38, 0x39, 0x3A, 0x3B, 0x3C, 0x3D, 0x3E, 0x3F], "m3/h"),
   ([0x40, 0x41, 0x42, 0x43, 0x44, 0x45, 0x46, 0x47], "m3/h"),
   ([0x48, 0x49, 0x4A, 0x4B, 0x4C, 0x4D, 0x4E, 0x4F], "m3/h"),
   ([0x50, 0x51, 0x52, 0x53, 0x54, 0x55, 0x56, 0x57], "kg/h"),
   ([0x58, 0x59, 0x5A, 0x5B], "c"),
   ([0x5C, 0x5D, 0x5E, 0x5F], "c"),
   ([0x60, 0x61, 0x62, 0x63], "k"),
   ([0x64, 0x65, 0x66, 0x67], "c"),
   ([0x68, 0x69, 0x6A, 0x6B], "bar"),
   ([0x6C], ""),
   ([0x6D], ""),
   ([0x6E], ""),
   ([0x6F], ""),
   ([0x70, 0x71, 0x72, 0x73], "h"),
   ([0x74, 0x75, 0x76, 0x77], "h"),
   ([0x78], ""),
   ([0x79], ""),
   ([0x7C, 0x7E, 0x7F], "unknown")]

/-- Source: `vifUnit`. -/
def vifUnit (vif : Int) : String :=
  let t := Int.land vif 0x7f
  switchLookup vifUnitTable t.toNat "unknown"

/-- The `case` labels of the second `switch` of `vifType` with the text each returns. -/
def vifTypeTable : List (Nat × String) :=
  [(0x00, "Energy mWh"), (0x01, "Energy 10⁻² Wh"), (0x02, "Energy 10⁻¹ Wh"),
   (0x03, "Energy Wh"), (0x04, "Energy 10¹ Wh"), (0x05, "Energy 10² Wh"),
   (0x06, "Energy kWh"), (0x07, "Energy 10⁴ Wh"), (0x08, "Energy J"), (0x09, "Energy 10¹ J"),
   (0x0A, "Energy 10² J"), (0x0B, "Energy kJ"), (0x0C, "Energy 10⁴ J"),
   (0x0D, "Energy 10⁵ J"), (0x0E, "Energy MJ"), (0x0F, "Energy 10⁷ J"), (0x10, "Volume cm³"),
   (0x11, "Volume 10⁻⁵ m³"), (0x12, "Volume 10⁻⁴ m³"), (0x13, "Volume l"),
   (0x14, "Volume 10⁻² m³"), (0x15, "Volume 10⁻¹ m³"), (0x16, "Volume m³"),
   (0x17, "Volume 10¹ m³"), (0x18, "Mass g"), (0x19, "Mass 10⁻² kg"), (0x1A, "Mass 10⁻¹ kg"),
   (0x1B, "Mass kg"), (0x1C, "Mass 10¹ kg"), (0x1D, "Mass 10² kg"), (0x1E, "Mass t"),
   (0x1F, "Mass 10⁴ kg"), (0x20, "On time seconds"), (0x21, "On time minutes"),
   (0x22, "On time hours"), (0x23, "On time days"), (0x24, "Operating time seconds"),
   (0x25, "Operating time minutes"), (0x26, "Operating time hours"),
   (0x27, "Operating time days"), (0x28, "Power mW"), (0x29, "Power 10⁻² W"),
   (0x2A, "Power 10⁻¹ W"), (0x2B, "Power W"), (0x2C, "Power 10¹ W"), (0x2D, "Power 10² W"),
   (0x2E, "Power kW"), (0x2F, "Power 10⁴ W"), (0x30, "Power J/h"), (0x31, "Power 10¹ J/h"),
   (0x32, "Power 10² J/h"), (0x33, "Power kJ/h"), (0x34, "Power 10⁴ J/h"),
   (0x35, "Power 10⁵ J/h"), (0x36, "Power MJ/h"), (0x37, "Power 10⁷ J/h"),
   (0x38, "Volume flow cm³/h"), (0x39, "Volume flow 10⁻⁵ m³/h"),
   (0x3A, "Volume flow 10⁻⁴ m³/h"), (0x3B, "Volume flow l/h"),
   (0x3C, "Volume flow 10⁻² m³/h"), (0x3D, "Volume flow 10⁻¹ m³/h"),
   (0x3E, "Volume flow m³/h"), (0x3F, "Volume flow 10¹ m³/h"),
   (0x40, "Volume flow ext. 10⁻⁷ m³/min"), (0x41, "Volume flow ext. cm³/min"),
   (0x42, "Volume flow ext. 10⁻⁵ m³/min"), (0x43, "Volume flow ext. 10⁻⁴ m³/min"),
   (0x44, "Volume flow ext. l/min"), (0x45, "Volume flow ext. 10⁻² m³/min"),
   (0x46, "Volume flow ext. 10⁻¹ m³/min"), (0x47, "Volume flow ext. m³/min"),
   (0x48, "Volume flow ext. mm³/s"), (0x49, "Volume flow ext. 10⁻⁸ m³/s"),
   (0x4A, "Volume flow ext. 10⁻⁷ m³/s"), (0x4B, "Volume flow ext. cm³/s"),
   (0x4C, "Volume flow ext. 10⁻⁵ m³/s"), (0x4D, "Volume flow ext. 10⁻⁴ m³/s"),
   (0x4E, "Volume flow ext. l/s"), (0x4F, "Volume flow ext. 10⁻² m³/s"), (0x50, "Mass g/h"),
   (0x51, "Mass 10⁻² kg/h"), (0x52, "Mass 10⁻¹ kg/h"), (0x53, "Mass kg/h"),
   (0x54, "Mass 10¹ kg/h"), (0x55, "Mass 10² kg/h"), (0x56, "Mass t/h"),
   (0x57, "Mass 10⁴ kg/h"), (0x58, "Flow temperature 10⁻³ °C"),
   (0x59, "Flow temperature 10⁻² °C"), (0x5A, "Flow temperature 10⁻¹ °C"),
   (0x5B, "Flow temperature °C"), (0x5C, "Return temperature 10⁻³ °C"),
   (0x5D, "Return temperature 10⁻² °C"), (0x5E, "Return temperature 10⁻¹ °C"),
   (0x5F, "Return temperature °C"), (0x60, "Temperature difference mK"),
   (0x61, "Temperature difference 10⁻² K"), (0x62, "Temperature difference 10⁻¹ K"),
   (0x63, "Temperature difference K"), (0x64, "External temperature 10⁻³ °C"),
   (0x65, "External temperature 10⁻² °C"), (0x66, "External temperature 10⁻¹ °C"),
   (0x67, "External temperature °C"), (0x68, "Pressure mbar"), (0x69, "Pressure 10⁻² bar"),
   (0x6A, "Pressure 10⁻1 bar"), (0x6B, "Pressure bar"), (0x6C, "Date type G"),
   (0x6D, "Date and time type"), (0x6E, "Units for H.C.A."), (0x6F, "Reserved"),
   (0x70, "Averaging duration seconds"), (0x71, "Averaging duration minutes"),
   (0x72, "Averaging duration hours"), (0x73, "Averaging duration days"),
   (0x74, "Actuality duration seconds"), (0x75, "Actuality duration minutes"),
   (0x76, "Actuality duration hours"), (0x77, "Actuality duration days"),
   (0x78, "Fabrication no"), (0x79, "Enhanced identification"),
   (0x7C, "VIF in following string (length in first byte)"), (0x7E, "Any VIF"),
   (0x7F, "Manufacturer specific")]

/-- Source: `vifType`. With the extension bit set the four extension markers are looked up
first; every other value is described by its low seven bits, the default text is `?`. -/
def vifType (vif : Int) : String :=
  let extension := Int.land vif 0x80
  let t := Int.land vif 0x7f
  if extension ≠ 0 ∧ vif = 0xfb then "First extension of VIF-codes"
  else if extension ≠ 0 ∧ vif = 0xfd then "Second extension of VIF-codes"
  else if extension ≠ 0 ∧ vif = 0xef then "Reserved extension"
  else if extension ≠ 0 ∧ vif = 0xff then "Vendor extension"
  else (vifTypeTable.lookup t.toNat).getD "?"

/-! ## The data decoders -/

/-- The body of the loop of `toDoubleFromBytes` for the index `i`: `d += x*(256^i)`. In C, `256^i`
is the exclusive-or of the integers 256 and `i`. The accumulator is `none` once `bytes[i]` was
read beyond the end of the vector. -/
def toDoubleFromBytesStep (bytes : List uchar) (acc : Option ℚ) (i : Nat) : Option ℚ :=
  match acc, bytes[i]? with
  | some d, some b =>
    let x : ℚ := (b.val : ℚ)
    some (d + x * ((256 ^^^ i : Nat) : ℚ))
  | _, _ => none

/-- Source: `toDoubleFromBytes`. The loop runs for `i = 0 .. len-1`; every value computed is a
small integer, which a `double` holds exactly, so the `double` is modelled by a rational
number. -/
def toDoubleFromBytes (bytes : List uchar) (len : Int) : Option ℚ :=
  (List.range len.toNat).foldl (toDoubleFromBytesStep bytes) (some 0)

/-- The body of the loop of `toDoubleFromBCD` for the index `i`: `d += x*(10^(i*2))` for the low
nibble and `d += xx*(10^(1+i*2))` for the high nibble, `^` being the C exclusive-or. -/
def toDoubleFromBCDStep (bytes : List uchar) (acc : Option ℚ) (i : Nat) : Option ℚ :=
  match acc, bytes[i]? with
  | some d, some b =>
    let x : ℚ := ((b.val &&& 0xf : Nat) : ℚ)
    let d := d + x * ((10 ^^^ (i * 2) : Nat) : ℚ)
    let xx : ℚ := ((b.val >>> 4 : Nat) : ℚ)
    some (d + xx * ((10 ^^^ (1 + i * 2) : Nat) : ℚ))
  | _, _ => none

/-- Source: `toDoubleFromBCD`. -/
def toDoubleFromBCD (bytes : List uchar) (len : Int) : Option ℚ :=
  (List.range len.toNat).foldl (toDoubleFromBCDStep bytes) (some 0)

/-- Source: `dataAsDouble`. The argument `bytes` is the vector that `hex2bin` (defined in
`util.cc`) decodes from the hex string `data`; `vif` and `vife` are not used by the function. -/
def dataAsDouble (dif _vif _vife : Int) (bytes : List uchar) : Option ℚ :=
  let t := Int.land dif 0x0f
  if t = 0x0 then some 0.0
  else if t = 0x1 then toDoubleFromBytes bytes 1
  else if t = 0x2 then toDoubleFromBytes bytes 2
  else if t = 0x3 then toDoubleFromBytes bytes 3
  else if t = 0x4 then toDoubleFromBytes bytes 4
  else if t = 0x5 then some (-1)
  else if t = 0x6 then toDoubleFromBytes bytes 6
  else if t = 0x7 then toDoubleFromBytes bytes 8
  else if t = 0x8 then some (-1)
  else if t = 0x9 then toDoubleFromBCD bytes 1
  else if t = 0xA then toDoubleFromBCD bytes 2
  else if t = 0xB then toDoubleFromBCD bytes 3
  else if t = 0xC then toDoubleFromBCD bytes 4
  else if t = 0xD then some (-1)
  else if t = 0xE then toDoubleFromBCD bytes 6
  else if t = 0xF then some (-1)
  else some (-1)

/-! ## The CI field catalogue and the extended link layer -/

/-- Modelled from the spec: `enum class CI_TYPE` is declared in `wmbus.h`, which is not among the
sources. `wmbus.cc` uses the types `ELL`, `AFL` and `TPL`; the spec (4.E) lists the layers
DLL, ELL, NWL, AFL and TPL. -/
inductive CI_TYPE
  | ELL | NWL | AFL | TPL
deriving DecidableEq, Repr

/-- Source: the list macro `LIST_OF_CI_FIELDS`; each entry is the value of the CI field, the
length of its header and its type (the names and texts of the entries are not used here). -/
def LIST_OF_CI_FIELDS : List (Int × Int × CI_TYPE) :=
  [(0x51, 0, .TPL), (0x72, 0, .TPL), (0x78, 0, .TPL), (0x79, 0, .TPL), (0x7A, 0, .TPL),
   (0x8C, 2, .ELL), (0x8D, 8, .ELL), (0x8E, 10, .ELL), (0x8F, 16, .ELL), (0x86, -1, .ELL),
   (0x90, 10, .AFL), (0xA2, 0, .TPL)]

/-- Source: `isCiFieldOfType`. One test `ci_field == val && type == citype` per list entry. -/
def isCiFieldOfType (ci_field : Int) (type : CI_TYPE) : Bool :=
  LIST_OF_CI_FIELDS.any fun e => decide (ci_field = e.1 ∧ type = e.2.2)

/-- Source: `ciFieldLength`. The length of the first list entry with the value `ci_field`, and
-2 when there is none. -/
def ciFieldLength (ci_field : Int) : Int :=
  match LIST_OF_CI_FIELDS.find? (fun e => decide (ci_field = e.1)) with
  | some e => e.2.1
  | none => -2

/-- The `case` labels of the `switch` of `ciType` with the text each returns. -/
def ciTypeTable : List (Nat × String) :=
  [
  (0x50, "Application reset or select to device (no tplh)"),
   (0x51, "Command to device (no tplh)"), (0x52, "Selection of device (no tplh)"),
   (0x53, "Application reset or select to device (long tplh)"),
   (0x54, "Request of selected application to device (no tplh)"),
   (0x55, "Request of selected application to device (long tplh)"), (0x56, "Reserved"),
   (0x57, "Reserved"), (0x58, "Reserved"), (0x59, "Reserved"),
   (0x5a, "Command to device (short tplh)"), (0x5b, "Command to device (long tplh)"),
   (0x5c, "Sync action (no tplh)"), (0x5d, "Reserved"), (0x5e, "Reserved"),
   (0x5f, "Specific usage"),
   (0x60, "COSEM Data sent by the Readout device to the meter (long tplh)"),
   (0x61, "COSEM Data sent by the Readout device to the meter (short tplh)"), (0x62, "?"),
   (0x63, "?"),
   (0x64, "Reserved for OBIS-based Data sent by the Readout device to the meter (long tplh)"),
   (0x65, "Reserved for OBIS-based Data sent by the Readout device to the meter (short tplh)"),
   (0x66, "Response of selected application from device (no tplh)"),
   (0x67, "Response of selected application from device (short tplh)"),
   (0x68, "Response of selected application from device (long tplh)"),
   (0x69, "EN 13757-3 Application Layer with Format frame (no tplh)"),
   (0x6A, "EN 13757-3 Application Layer with Format frame (short tplh)"),
   (0x6B, "EN 13757-3 Application Layer with Format frame (long tplh)"),
   (0x6C, "Clock synchronisation (absolute) (long tplh)"),
   (0x6D, "Clock synchronisation (relative) (long tplh)"),
   (0x6E, "Application error from device (short tplh)"),
   (0x6F, "Application error from device (long tplh)"),
   (0x70, "Application error from device without Transport Layer"),
   (0x71, "Reserved for Alarm Report"), (0x72, "EN 13757-3 Application Layer (long tplh)"),
   (0x73, "EN 13757-3 Application Layer with Compact frame and long Transport Layer"),
   (0x74, "Alarm from device (short tplh)"), (0x75, "Alarm from device (long tplh)"), (0x76, "?"),
   (0x77, "?"), (0x78, "EN 13757-3 Application Layer (no tplh)"),
   (0x79, "EN 13757-3 Application Layer with Compact frame (no tplh)"),
   (0x7A, "EN 13757-3 Application Layer (short tplh)"),
   (0x7B, "EN 13757-3 Application Layer with Compact frame (short tplh)"),
   (0x7C, "COSEM Application Layer (long tplh)"), (0x7D, "COSEM Application Layer (short tplh)"),
   (0x7E, "Reserved for OBIS-based Application Layer (long tplh)"),
   (0x7F, "Reserved for OBIS-based Application Layer (short tplh)"),
   (0x80, "EN 13757-3 Transport Layer (long tplh) from other device to the meter"),
   (0x81, "Network Layer data"), (0x82, "Network management data to device (short tplh)"),
   (0x83, "Network Management data to device (no tplh)"),
   (0x84, "Transport layer to device (compact frame) (long tplh)"),
   (0x85, "Transport layer to device (format frame) (long tplh)"),
   (0x86, "Extended Link Layer V (variable length)"),
   (0x87, "Network management data from device (long tplh)"),
   (0x88, "Network management data from device (short tplh)"),
   (0x89, "Network management data from device (no tplh)"),
   (0x8A, "EN 13757-3 Transport Layer (short tplh) from the meter to the other device"),
   (0x8B, "EN 13757-3 Transport Layer (long tplh) from the meter to the other device"),
   (0x8C, "ELL: Extended Link Layer I (2 Byte)"), (0x8D, "ELL: Extended Link Layer II (8 Byte)"),
   (0x8E, "ELL: Extended Link Layer III (10 Byte)"),
   (0x8F, "ELL: Extended Link Layer IV (16 Byte)"),
   (0x90, "AFL: Authentication and Fragmentation Sublayer"), (0x91, "Reserved"),
   (0x92, "Reserved"), (0x93, "Reserved"), (0x94, "Reserved"), (0x95, "Reserved"),
   (0x96, "Reserved"), (0x97, "Reserved"), (0x98, "?"), (0x99, "?"),
   (0xB8, "Set baud rate to 300"), (0xB9, "Set baud rate to 600"),
   (0xBA, "Set baud rate to 1200"), (0xBB, "Set baud rate to 2400"),
   (0xBC, "Set baud rate to 4800"), (0xBD, "Set baud rate to 9600"),
   (0xBE, "Set baud rate to 19200"), (0xBF, "Set baud rate to 38400"),
   (0xC0, "Image transfer to device (long tplh)"),
   (0xC1, "Image transfer from device (short tplh)"),
   (0xC2, "Image transfer from device (long tplh)"),
   (0xC3, "Security info transfer to device (long tplh)"),
   (0xC4, "Security info transfer from device (short tplh)"),
   (0xC5, "Security info transfer from device (long tplh)")]

/-- Source: `ciType`. Three range tests, then the `switch`, then `"?"`. -/
def ciType (ci_field : Nat) : String :=
  if 0xA0 ≤ ci_field ∧ ci_field ≤ 0xB7 then "Mfct specific"
  else if 0x00 ≤ ci_field ∧ ci_field ≤ 0x1f then "Reserved for DLMS"
  else if 0x20 ≤ ci_field ∧ ci_field ≤ 0x4f then "Reserved"
  else (ciTypeTable.lookup ci_field).getD "?"

/-- Modelled from the spec: the bit masks of the communication control field are macros of
`wmbus.h`, which is not among the sources; the values are the bit positions EN 13757-4 gives
the flags B, D, S, R and P of the CC field. They are used for the explanation text only. -/
def CC_B_BIDIRECTIONAL_BIT : Nat := 0x80

/-- Modelled from the spec: see `CC_B_BIDIRECTIONAL_BIT`. -/
def CC_RD_RESPONSE_DELAY_BIT : Nat := 0x40

/-- Modelled from the spec: see `CC_B_BIDIRECTIONAL_BIT`. -/
def CC_S_SYNCH_FRAME_BIT : Nat := 0x20

/-- Modelled from the spec: see `CC_B_BIDIRECTIONAL_BIT`. -/
def CC_R_RELAYED_BIT : Nat := 0x10

/-- Modelled from the spec: see `CC_B_BIDIRECTIONAL_BIT`. -/
def CC_P_HIGH_PRIO_BIT : Nat := 0x08

/-- Source: `ccType`. The description of the communication control field. -/
def ccType (cc_field : Nat) : String :=
  let s := ""
  let s := if cc_field &&& CC_B_BIDIRECTIONAL_BIT ≠ 0 then s ++ "bidir " else s
  let s := if cc_field &&& CC_RD_RESPONSE_DELAY_BIT ≠ 0 then s ++ "fast_resp "
    else s ++ "slow_resp "
  let s := if cc_field &&& CC_S_SYNCH_FRAME_BIT ≠ 0 then s ++ "sync " else s
  let s := if cc_field &&& CC_R_RELAYED_BIT ≠ 0 then s ++ "relayed " else s
  let s := if cc_field &&& CC_P_HIGH_PRIO_BIT ≠ 0 then s ++ "prio " else s
  if s.data.getLast? = some ' ' then String.mk s.data.dropLast else s

/-- Source: `toString(ELLSecurityMode)`. The name of the enumerator. -/
def ELLSecurityMode.toString : ELLSecurityMode → String
  | .NoSecurity => "NoSecurity"
  | .AES_CTR => "AES_CTR"
  | .RESERVED => "RESERVED"

/-- Source: `fromIntToELLSecurityMode`. A `switch` with one `case nr` per enumerator and the
default `RESERVED`. -/
def fromIntToELLSecurityMode (i : Int) : ELLSecurityMode :=
  if i = 0 then .NoSecurity
  else if i = 1 then .AES_CTR
  else if i = 2 then .RESERVED
  else .RESERVED

/-- The value of a 32 bit pattern read as the signed C type `int` (two's complement). -/
def toInt32 (u : Nat) : Int :=
  if u % 2 ^ 32 < 2 ^ 31 then ((u % 2 ^ 32 : Nat) : Int) else ((u % 2 ^ 32 : Nat) : Int) - 2 ^ 32

/-- The routines of the extended link layer that are called by `wmbus.cc` and defined elsewhere
(`util.cc`, `wmbus_utils.cc`), kept opaque. `crc16_EN13757 data` is the `uint16_t` checksum of
the bytes `data`. `decrypt_ELL_AES_CTR` receives the telegram (which holds the frame), the cursor
and the key; it returns its success flag and the frame as it is after the in-place
decryption. -/
structure LinkOps where
  crc16_EN13757 : List uchar → Fin 65536
  decrypt_ELL_AES_CTR : Telegram → Nat → List uchar → Bool × List uchar

/-- The block `if (has_target_mft_address)` of `Telegram::parseELL`: manufacturer, id, version
and type of the secondary address. The call that explains the type byte passes no argument for
its conversion `%02x`, what is printed for it is indeterminate; the model keeps the conversion
as it is written. -/
def parseELL_target_address (t : Telegram) (pos : Nat) : Option (Telegram × Nat) :=
  match t.frame[pos + 0]? with
  | none => none
  | some m0 =>
  match t.frame[pos + 1]? with
  | none => none
  | some m1 =>
  let t := { t with ell_mfct_b := (m0, m1), ell_mfct := ((m1.val <<< 8) ||| m0.val) }
  let man := manufacturerFlag t.ell_mfct
  match addExplanationAndIncrementPos t pos 2
    (fmt02x m0.val ++ fmt02x m1.val ++ " ell-mfct (" ++ man ++ ")") with
  | none => none
  | some (t, pos) =>
  let t := { t with ell_id_found := true }
  match t.frame[pos + 0]? with
  | none => none
  | some i0 =>
  match t.frame[pos + 1]? with
  | none => none
  | some i1 =>
  match t.frame[pos + 2]? with
  | none => none
  | some i2 =>
  match t.frame[pos + 3]? with
  | none => none
  | some i3 =>
  let t := { t with ell_id_b := { b0 := i0, b1 := i1, b2 := i2, b3 := i3 } }
  match addExplanationAndIncrementPos t pos 4
    (fmt02x i0.val ++ fmt02x i1.val ++ fmt02x i2.val ++ fmt02x i3.val ++ " ell-id") with
  | none => none
  | some (t, pos) =>
  match t.frame[pos]? with
  | none => none
  | some v =>
  let t := { t with ell_version := v }
  match addExplanationAndIncrementPos t pos 1 (fmt02x v.val ++ " ell-version") with
  | none => none
  | some (t, pos) =>
  match t.frame[pos]? with
  | none => none
  | some ty =>
  let t := { t with ell_type := ty }
  addExplanationAndIncrementPos t pos 1 "%02x ell-type"

/-- The end of the block `if (has_session_number_pl_crc)` of `Telegram::parseELL`: the payload
CRC is read, the checksum of the frame bytes after it is computed and the two are compared. The
result `(true, ..)` stands for leaving the block, after which `parseELL` returns true. -/
def parseELL_payload_crc (ops : LinkOps) (t : Telegram) (pos : Nat) :
    Option (Bool × Telegram × Nat) :=
  match t.frame[pos + 0]? with
  | none => none
  | some c0 =>
  match t.frame[pos + 1]? with
  | none => none
  | some c1 =>
  let t := { t with ell_pl_crc_b := (c0, c1), ell_pl_crc := ((c1.val <<< 8) ||| c0.val) }
  let check : Nat := (ops.crc16_EN13757 (t.frame.drop (pos + 2))).val
  match addExplanationAndIncrementPos t pos 2
    (fmt02x c0.val ++ fmt02x c1.val ++ " payload crc (calculated "
      ++ fmt02x (check &&& 0xff) ++ fmt02x (check >>> 8) ++ " "
      ++ (if t.ell_pl_crc = check then "OK" else "ERROR") ++ ")") with
  | none => none
  | some (t, pos) =>
  if t.ell_pl_crc ≠ check then some (false, t, pos) else some (true, t, pos)

/-- The middle of the block `if (has_session_number_pl_crc)` of `Telegram::parseELL`: when the
security mode is AES-CTR the frame is decrypted in place from the cursor, and a failed decryption
makes `parseELL` return false; then the payload CRC is checked. -/
def parseELL_payload (ops : LinkOps) (t : Telegram) (pos : Nat) :
    Option (Bool × Telegram × Nat) :=
  let r : Bool × List uchar :=
    if t.ell_sec_mode = .AES_CTR
    then ops.decrypt_ELL_AES_CTR t pos t.meter_keys.confidentiality_key
    else (true, t.frame)
  let t := { t with frame := r.2 }
  if !r.1 then some (false, t, pos) else parseELL_payload_crc ops t pos

/-- The start of the block `if (has_session_number_pl_crc)` of `Telegram::parseELL`: the session
number and its three fields. The shifts that assemble `ell_sn` act on the type `int`, the value
is the 32 bit pattern read as a signed number; `>>` on it is the arithmetic shift. -/
def parseELL_session_number (ops : LinkOps) (t : Telegram) (pos : Nat) :
    Option (Bool × Telegram × Nat) :=
  match t.frame[pos + 0]? with
  | none => none
  | some s0 =>
  match t.frame[pos + 1]? with
  | none => none
  | some s1 =>
  match t.frame[pos + 2]? with
  | none => none
  | some s2 =>
  match t.frame[pos + 3]? with
  | none => none
  | some s3 =>
  let t := { t with ell_sn_b := { b0 := s0, b1 := s1, b2 := s2, b3 := s3 } }
  let t := { t with
    ell_sn := toInt32 ((s3.val <<< 24) ||| (s2.val <<< 16) ||| (s1.val <<< 8) ||| s0.val) }
  let t := { t with ell_sn_session := Int.land (Int.shiftRight t.ell_sn 0) 0x0f }
  let t := { t with ell_sn_time := Int.land (Int.shiftRight t.ell_sn 4) 0x1ffffff }
  let t := { t with ell_sn_sec := Int.land (Int.shiftRight t.ell_sn 29) 0x7 }
  let t := { t with ell_sec_mode := fromIntToELLSecurityMode t.ell_sn_sec }
  let info := t.ell_sec_mode.toString
  match addExplanationAndIncrementPos t pos 4
    (fmt02x s0.val ++ fmt02x s1.val ++ fmt02x s2.val ++ fmt02x s3.val
      ++ " sn (" ++ info ++ ")") with
  | none => none
  | some (t, pos) => parseELL_payload ops t pos

/-- Source: `Telegram::parseELL`. -/
def parseELL (ops : LinkOps) (t : Telegram) (pos : Nat) : Option (Bool × Telegram × Nat) :=
  let remaining : Int := (t.frame.length : Int) - (pos : Int)
  if remaining = 0 then some (false, t, pos) else
  match t.frame[pos]? with
  | none => none
  | some ci =>
  let ci_field : Int := (ci.val : Int)
  if !isCiFieldOfType ci_field .ELL then some (true, t, pos) else
  match addExplanationAndIncrementPos t pos 1
    (fmt02x ci.val ++ " ell-ci-field (" ++ ciType ci.val ++ ")") with
  | none => none
  | some (t, pos) =>
  let t := { t with ell_ci := ci_field }
  let len := ciFieldLength t.ell_ci
  if remaining < len + 1 then some (expectedMore, t, pos) else
  match t.frame[pos]? with
  | none => none
  | some cc =>
  let t := { t with ell_cc := cc.val }
  match addExplanationAndIncrementPos t pos 1
    (fmt02x t.ell_cc ++ " ell-cc (" ++ ccType t.ell_cc ++ ")") with
  | none => none
  | some (t, pos) =>
  match t.frame[pos]? with
  | none => none
  | some acc =>
  let t := { t with ell_acc := acc.val }
  match addExplanationAndIncrementPos t pos 1 (fmt02x t.ell_acc ++ " ell-acc") with
  | none => none
  | some (t, pos) =>
  if t.ell_ci = 0x86 then some (false, t, pos) else
  let has_target_mft_address : Bool := decide (t.ell_ci = 0x8E ∨ t.ell_ci = 0x8F)
  let has_session_number_pl_crc : Bool := decide (t.ell_ci = 0x8D ∨ t.ell_ci = 0x8F)
  match (if has_target_mft_address then parseELL_target_address t pos else some (t, pos)) with
  | none => none
  | some (t, pos) =>
  if has_session_number_pl_crc then parseELL_session_number ops t pos
  else some (true, t, pos)

/-! ## The session number text, the authentication and fragmentation layer -/

/-- Source: `Telegram::toStringFromELLSN`. The three fields are cut out of `sn` as in
`parseELL`; `to_string` prints a decimal number. -/
def toStringFromELLSN (sn : Int) : String :=
  let session : Int := Int.land (Int.shiftRight sn 0) 0x0f
  let time : Int := Int.land (Int.shiftRight sn 4) 0x1ffffff
  let sec : Int := Int.land (Int.shiftRight sn 29) 0x7
  let info := ""
  let esm := fromIntToELLSecurityMode sec
  let info := info ++ esm.toString
  let info := info ++ " session="
  let info := info ++ toString session
  let info := info ++ " time="
  let info := info ++ toString time
  info

/-- One entry `X(name, nr, len)` of the list macro `LIST_OF_AFL_AUTH_TYPES`. An enumerator of
`enum class AFLAuthenticationType` is represented by its entry. -/
structure AFLAuthenticationType where
  name : String
  nr : Int
  len : Int
deriving DecidableEq, Repr

/-- Modelled from the spec: the list macro `LIST_OF_AFL_AUTH_TYPES` is defined in `wmbus.h`,
which is not among the sources. The functions generated from it are parameterised over its
entries. `wmbus.cc` names the enumerator `Reserved1`, so the list has an entry of this name;
`reserved1` is that entry. -/
structure AFLAuthTypes where
  entries : List AFLAuthenticationType
  reserved1 : AFLAuthenticationType

/-- Source: `fromIntToAFLAuthenticationType`. A `switch` with one `case nr` per list entry and
the default `Reserved1`. -/
def fromIntToAFLAuthenticationType (auth : AFLAuthTypes) (i : Int) : AFLAuthenticationType :=
  match auth.entries.find? (fun e => decide (e.nr = i)) with
  | some e => e
  | none => auth.reserved1

/-- Source: `toLen(AFLAuthenticationType)`. A `switch` with one `case` per enumerator that
returns the length of its entry. -/
def toLen (aat : AFLAuthenticationType) : Int := aat.len

/-- Source: `toString(AFLAuthenticationType)`. The name of the enumerator. -/
def AFLAuthenticationType.toString (aat : AFLAuthenticationType) : String := aat.name

/-- Source: `Telegram::toStringFromAFLFC`. The text always ends in a blank before
`pop_back`, so the last character is removed. -/
def toStringFromAFLFC (fc : Nat) : String :=
  let info := ""
  let fid := fc &&& 0x00ff
  let info := info ++ fmtd fid
  let info := info ++ " "
  let info := if fc &&& 0x0200 ≠ 0 then info ++ "KeyInfoInFragment " else info
  let info := if fc &&& 0x0400 ≠ 0 then info ++ "MACInFragment " else info
  let info := if fc &&& 0x0800 ≠ 0 then info ++ "MessCounterInFragment " else info
  let info := if fc &&& 0x1000 ≠ 0 then info ++ "MessLenInFragment " else info
  let info := if fc &&& 0x2000 ≠ 0 then info ++ "MessControlInFragment " else info
  let info := if fc &&& 0x4000 ≠ 0 then info ++ "MoreFragments " else info ++ "LastFragment "
  popBackIfNonempty info

/-- Source: `Telegram::toStringFromAFLMC`. -/
def toStringFromAFLMC (auth : AFLAuthTypes) (mc : Nat) : String :=
  let info := ""
  let at_ : Int := ((mc &&& 0x0f : Nat) : Int)
  let aat := fromIntToAFLAuthenticationType auth at_
  let info := info ++ aat.toString
  let info := info ++ " "
  let info := if mc &&& 0x10 ≠ 0 then info ++ "KeyInfo " else info
  let info := if mc &&& 0x20 ≠ 0 then info ++ "MessCounter " else info
  let info := if mc &&& 0x40 ≠ 0 then info ++ "MessLen " else info
  popBackIfNonempty info

/-- The block `if (has_control)` of `Telegram::parseAFL`: the message control field. -/
def parseAFL_control (auth : AFLAuthTypes) (t : Telegram) (pos : Nat) :
    Option (Telegram × Nat) :=
  match t.frame[pos]? with
  | none => none
  | some mcl =>
  let t := { t with afl_mcl := mcl }
  let afl_mcl_info := toStringFromAFLMC auth t.afl_mcl.val
  addExplanationAndIncrementPos t pos 1
    (fmt02x t.afl_mcl.val ++ " afl-mcl (" ++ afl_mcl_info ++ ")")

/-- The block `if (has_key_info)` of `Telegram::parseAFL`: the key information. -/
def parseAFL_key_info (t : Telegram) (pos : Nat) : Option (Telegram × Nat) :=
  match t.frame[pos + 0]? with
  | none => none
  | some k0 =>
  match t.frame[pos + 1]? with
  | none => none
  | some k1 =>
  let t := { t with afl_ki_b := (k0, k1), afl_ki := ((k1.val <<< 8) ||| k0.val) }
  let afl_ki_info := ""
  addExplanationAndIncrementPos t pos 2
    (fmt02x k0.val ++ fmt02x k1.val ++ " afl-ki (" ++ afl_ki_info ++ ")")

/-- The block `if (has_counter)` of `Telegram::parseAFL`: the message counter. The member
`afl_counter` holds the 32 bit pattern assembled from the four bytes, which `%u` prints as
an unsigned number. -/
def parseAFL_counter (t : Telegram) (pos : Nat) : Option (Telegram × Nat) :=
  match t.frame[pos + 0]? with
  | none => none
  | some c0 =>
  match t.frame[pos + 1]? with
  | none => none
  | some c1 =>
  match t.frame[pos + 2]? with
  | none => none
  | some c2 =>
  match t.frame[pos + 3]? with
  | none => none
  | some c3 =>
  let t := { t with afl_counter_b := { b0 := c0, b1 := c1, b2 := c2, b3 := c3 } }
  let t := { t with
    afl_counter := ((c3.val <<< 24) ||| (c2.val <<< 16) ||| (c1.val <<< 8) ||| c0.val) }
  addExplanationAndIncrementPos t pos 4
    (fmt02x c0.val ++ fmt02x c1.val ++ fmt02x c2.val ++ fmt02x c3.val
      ++ " afl-counter (" ++ fmtd t.afl_counter ++ ")")

/-- The loop `for (int i=0; i<len; ++i) afl_mac_b.insert(afl_mac_b.end(), *(pos+i))` of
`Telegram::parseAFL`: the bytes at the cursor are appended one by one; a read outside the
frame is `none`. -/
def parseAFL_mac_loop (frame : List uchar) (pos : Nat) (afl_mac_b : List uchar) :
    List Nat → Option (List uchar)
  | [] => some afl_mac_b
  | i :: is =>
    match frame[pos + i]? with
    | none => none
    | some b => parseAFL_mac_loop frame pos (afl_mac_b ++ [b]) is

/-- The block `if (has_mac)` of `Telegram::parseAFL`: the MAC, whose length is the length of
the authentication type in the low four bits of `afl_mcl`. The result `(true, ..)` stands for
leaving the block, after which `parseAFL` returns true. -/
def parseAFL_mac (auth : AFLAuthTypes) (t : Telegram) (pos : Nat) :
    Option (Bool × Telegram × Nat) :=
  let at_ : Int := ((t.afl_mcl.val &&& 0x0f : Nat) : Int)
  let aat := fromIntToAFLAuthenticationType auth at_
  let len : Int := toLen aat
  if len ≠ 2 ∧ len ≠ 4 ∧ len ≠ 8 ∧ len ≠ 12 ∧ len ≠ 16 then some (false, t, pos) else
  match parseAFL_mac_loop t.frame pos t.afl_mac_b (List.range len.toNat) with
  | none => none
  | some mac =>
  let t := { t with afl_mac_b := mac }
  let s := bin2hex t.afl_mac_b
  match addExplanationAndIncrementPos t pos len.toNat
    (s ++ " afl-mac " ++ toString len ++ " bytes") with
  | none => none
  | some (t, pos) =>
  let t := { t with must_check_mac := true }
  some (true, t, pos)

/-- Source: `Telegram::parseAFL`. The length compared with `remaining` is
`ciFieldLength(ell_ci)`, the length of the CI field of the extended link layer. -/
def parseAFL (auth : AFLAuthTypes) (t : Telegram) (pos : Nat) :
    Option (Bool × Telegram × Nat) :=
  let remaining : Int := (t.frame.length : Int) - (pos : Int)
  if remaining = 0 then some (false, t, pos) else
  match t.frame[pos]? with
  | none => none
  | some ci =>
  let ci_field : Int := (ci.val : Int)
  if !isCiFieldOfType ci_field .AFL then some (true, t, pos) else
  match addExplanationAndIncrementPos t pos 1
    (fmt02x ci.val ++ " afl-ci-field (" ++ ciType ci.val ++ ")") with
  | none => none
  | some (t, pos) =>
  let t := { t with afl_ci := ci_field }
  match t.frame[pos]? with
  | none => none
  | some al =>
  let t := { t with afl_len := al.val }
  match addExplanationAndIncrementPos t pos 1
    (fmt02x t.afl_len ++ " afl-len (" ++ fmtd t.afl_len ++ ")") with
  | none => none
  | some (t, pos) =>
  let len := ciFieldLength t.ell_ci
  if remaining < len then some (expectedMore, t, pos) else
  match t.frame[pos + 0]? with
  | none => none
  | some f0 =>
  match t.frame[pos + 1]? with
  | none => none
  | some f1 =>
  let t := { t with afl_fc_b := (f0, f1), afl_fc := ((f1.val <<< 8) ||| f0.val) }
  let afl_fc_info := toStringFromAFLFC t.afl_fc
  match addExplanationAndIncrementPos t pos 2
    (fmt02x f0.val ++ fmt02x f1.val ++ " afl-fc (" ++ afl_fc_info ++ ")") with
  | none => none
  | some (t, pos) =>
  let has_key_info : Bool := decide (t.afl_fc &&& 0x0200 ≠ 0)
  let has_mac : Bool := decide (t.afl_fc &&& 0x0400 ≠ 0)
  let has_counter : Bool := decide (t.afl_fc &&& 0x0800 ≠ 0)
  let has_control : Bool := decide (t.afl_fc &&& 0x2000 ≠ 0)
  match (if has_control then parseAFL_control auth t pos else some (t, pos)) with
  | none => none
  | some (t, pos) =>
  match (if has_key_info then parseAFL_key_info t pos else some (t, pos)) with
  | none => none
  | some (t, pos) =>
  match (if has_counter then parseAFL_counter t pos else some (t, pos)) with
  | none => none
  | some (t, pos) =>
  if has_mac then parseAFL_mac auth t pos else some (true, t, pos)

/-- The number of bytes of an optional AFL field: `n` when the fragment control word has the
bit `mask`, 0 otherwise. -/
def aflFieldLen (fc mask n : Nat) : Nat := if fc &&& mask ≠ 0 then n else 0

/-! ## The explanation trail -/

/-- Source: `Telegram::addMoreExplanation`. Every explanation at the offset `pos` gets the
text `"* "` in front and the formatted text appended; the test for a leading `*` and the case
that no explanation is found only write to the debug log. -/
def addMoreExplanation (t : Telegram) (pos : Int) (text : String) : Telegram :=
  let buf := vsnprintf1023 text
  { t with explanations := t.explanations.map fun p =>
      if (p.1 : Int) = pos then (p.1, "* " ++ p.2 ++ buf) else p }

/-- A sequence of calls of `addExplanationAndIncrementPos` on the same cursor: each call is
given by its length and its text. -/
def addExplanations (t : Telegram) (pos : Nat) : List (Nat × String) → Option (Telegram × Nat)
  | [] => some (t, pos)
  | c :: cs =>
    match addExplanationAndIncrementPos t pos c.1 c.2 with
    | none => none
    | some (t, pos) => addExplanations t pos cs

/-- The offsets at which consecutive ranges of the lengths `ls` start when the first one
starts at `start`: the running sums of the lengths. -/
def rangeOffsets (start : Nat) : List Nat → List Nat
  | [] => []
  | l :: ls => start :: rangeOffsets (start + l) ls

/-- The consecutive byte ranges of the lengths `ls` of `frame`, the first one starting at the
offset `pos`. -/
def consumedRanges (frame : List uchar) (pos : Nat) : List Nat → List (List uchar)
  | [] => []
  | l :: ls => (frame.drop pos).take l :: consumedRanges frame (pos + l) ls

/-! ## The transport layer parsers -/

/-- Modelled from the spec: the format signature cache is kept by `dvparser.cc`, which is not
among the sources. The spec (3) describes it as a map from the 16 bit signature to the format
bytes of a full frame seen before. -/
abbrev FormatCache := List (Nat × List uchar)

/-- Modelled from the spec: `loadFormatBytesFromSignature` is declared in `wmbus.cc` and
defined in `dvparser.cc`, which is not among the sources. It looks the signature up in the
cache (spec 3, 5: compact frames replay a cached format); `none` stands for the result false,
`some format_bytes` for the result true with the bytes stored through the pointer. -/
def loadFormatBytesFromSignature (cache : FormatCache) (format_signature : Nat) :
    Option (List uchar) :=
  cache.lookup format_signature

/-- The routine `parseDV` of `dvparser.cc`, which is not among the sources, kept opaque. It
receives the cache, the telegram (which holds the frame and the member `values`), the cursor,
the number of remaining bytes and, for a compact frame, the format bytes; the cursor is
passed by value. It returns the telegram and the cache as they are after the call; the
parsers of `wmbus.cc` ignore the flag it returns. -/
structure DVOps where
  parseDV : FormatCache → Telegram → Nat → Int → Option (List uchar) → Telegram × FormatCache

/-- Modelled from the spec: the value of one hex digit, for `hex2bin` of `util.cc`, which is
not among the sources (spec 4.A: hex to bytes). -/
def hexDigitValue (c : Char) : Nat :=
  if '0' ≤ c ∧ c ≤ '9' then c.toNat - '0'.toNat
  else if 'A' ≤ c ∧ c ≤ 'F' then c.toNat - 'A'.toNat + 10
  else if 'a' ≤ c ∧ c ≤ 'f' then c.toNat - 'a'.toNat + 10
  else 0

/-- Modelled from the spec: the bytes of a list of hex digits, two digits per byte with the
high nibble first (see `hexDigitValue`). -/
def hex2binChars : List Char → List uchar
  | hi :: lo :: rest =>
    (Fin.ofNat (hexDigitValue hi * 16 + hexDigitValue lo) : uchar) :: hex2binChars rest
  | _ => []

/-- Modelled from the spec: `hex2bin` (see `hexDigitValue`). -/
def hex2bin (src : String) : List uchar := hex2binChars src.data

/-- Source: `Telegram::findFormatBytesFromKnownMeterSignatures`. The result is `none` for
false and `some format_bytes` for true. -/
def findFormatBytesFromKnownMeterSignatures (t : Telegram) : Option (List uchar) :=
  if t.format_signature = 0xa8ed then some (hex2bin "02FF2004134413615B6167")
  else if t.format_signature = 0xc412 then some (hex2bin "02FF20041392013BA1015B8101E7FF0F")
  else if t.format_signature = 0x61eb then some (hex2bin "02FF2004134413A1015B8101E7FF0F")
  else if t.format_signature = 0xd2f7 then some (hex2bin "02FF2004134413615B5167")
  else if t.format_signature = 0xdd34 then some (hex2bin "02FF2004134413")
  else none

/-- Source: `Telegram::parseShortTPL`. -/
def parseShortTPL (cr : Crypto) (t : Telegram) (pos : Nat) : Option (Bool × Telegram × Nat) :=
  if ¬ hasBytes 1 pos t.frame then some (expectedMore, t, pos) else
  match t.frame[pos]? with
  | none => none
  | some acc =>
  let t := { t with tpl_acc := acc.val }
  match addExplanationAndIncrementPos t pos 1 (fmt02x t.tpl_acc ++ " tpl-acc-field") with
  | none => none
  | some (t, pos) =>
  if ¬ hasBytes 1 pos t.frame then some (expectedMore, t, pos) else
  match t.frame[pos]? with
  | none => none
  | some sts =>
  let t := { t with tpl_sts := sts.val }
  match addExplanationAndIncrementPos t pos 1 (fmt02x t.tpl_sts ++ " tpl-sts-field") with
  | none => none
  | some (t, pos) =>
  match parseTPLConfig cr t pos with
  | none => none
  | some (ok, t, pos) =>
  if !ok then some (false, t, pos) else some (true, t, pos)

/-- Source: `Telegram::parseLongTPL`. -/
def parseLongTPL (cr : Crypto) (t : Telegram) (pos : Nat) : Option (Bool × Telegram × Nat) :=
  if ¬ hasBytes 4 pos t.frame then some (expectedMore, t, pos) else
  let t := { t with tpl_id_found := true }
  match t.frame[pos + 0]? with
  | none => none
  | some i0 =>
  match t.frame[pos + 1]? with
  | none => none
  | some i1 =>
  match t.frame[pos + 2]? with
  | none => none
  | some i2 =>
  match t.frame[pos + 3]? with
  | none => none
  | some i3 =>
  let t := { t with tpl_id_b := { b0 := i0, b1 := i1, b2 := i2, b3 := i3 } }
  match addExplanationAndIncrementPos t pos 4
    (fmt02x i0.val ++ fmt02x i1.val ++ fmt02x i2.val ++ fmt02x i3.val ++ " tpl-id ("
      ++ fmt02x i3.val ++ fmt02x i2.val ++ fmt02x i1.val ++ fmt02x i0.val ++ ")") with
  | none => none
  | some (t, pos) =>
  if ¬ hasBytes 2 pos t.frame then some (expectedMore, t, pos) else
  match t.frame[pos + 0]? with
  | none => none
  | some m0 =>
  match t.frame[pos + 1]? with
  | none => none
  | some m1 =>
  let t := { t with tpl_mfct_b := (m0, m1), tpl_mfct := ((m1.val <<< 8) ||| m0.val) }
  let man := manufacturerFlag t.tpl_mfct
  match addExplanationAndIncrementPos t pos 2
    (fmt02x m0.val ++ fmt02x m1.val ++ " tpl-mfct (" ++ man ++ ")") with
  | none => none
  | some (t, pos) =>
  if ¬ hasBytes 1 pos t.frame then some (expectedMore, t, pos) else
  match t.frame[pos + 0]? with
  | none => none
  | some v =>
  let t := { t with tpl_version := v }
  match addExplanationAndIncrementPos t pos 1 (fmt02x v.val ++ " tpl-version") with
  | none => none
  | some (t, pos) =>
  if ¬ hasBytes 1 pos t.frame then some (expectedMore, t, pos) else
  match t.frame[pos + 0]? with
  | none => none
  | some ty =>
  let t := { t with tpl_type := ty }
  let info := mediaType ty.val
  match addExplanationAndIncrementPos t pos 1
    (fmt02x ty.val ++ " tpl-type (" ++ info ++ ")") with
  | none => none
  | some (t, pos) =>
  parseShortTPL cr t pos

/-- The end of `parse_TPL_72`, `parse_TPL_78` and `parse_TPL_7A`: the sizes are set, `parseDV`
is called on the remaining bytes without format bytes and the result is true. -/
def parseDVAndReturn (dv : DVOps) (cache : FormatCache) (t : Telegram) (pos : Nat) :
    Option (Bool × Telegram × Nat × FormatCache) :=
  let t := { t with header_size := pos }
  let remaining : Int := (t.frame.length : Int) - (pos : Int)
  let t := { t with suffix_size := 0 }
  let r := dv.parseDV cache t pos remaining none
  some (true, r.1, pos, r.2)

/-- Source: `Telegram::parse_TPL_72`. -/
def parse_TPL_72 (cr : Crypto) (dv : DVOps) (cache : FormatCache) (t : Telegram) (pos : Nat) :
    Option (Bool × Telegram × Nat × FormatCache) :=
  match parseLongTPL cr t pos with
  | none => none
  | some (ok, t, pos) =>
  if !ok then some (false, t, pos, cache) else
  match potentiallyDecrypt cr t pos with
  | none => none
  | some (ok, t, pos) =>
  if !ok then some (false, t, pos, cache) else
  parseDVAndReturn dv cache t pos

/-- Source: `Telegram::parse_TPL_78`. -/
def parse_TPL_78 (dv : DVOps) (cache : FormatCache) (t : Telegram) (pos : Nat) :
    Option (Bool × Telegram × Nat × FormatCache) :=
  parseDVAndReturn dv cache t pos

/-- Source: `Telegram::parse_TPL_79`, the compact frame. -/
def parse_TPL_79 (dv : DVOps) (cache : FormatCache) (t : Telegram) (pos : Nat) :
    Option (Bool × Telegram × Nat × FormatCache) :=
  if ¬ hasBytes 2 pos t.frame then some (expectedMore, t, pos, cache) else
  match t.frame[pos + 0]? with
  | none => none
  | some ecrc0 =>
  match t.frame[pos + 1]? with
  | none => none
  | some ecrc1 =>
  match addExplanationAndIncrementPos t pos 2
    (fmt02x ecrc0.val ++ fmt02x ecrc1.val ++ " format signature") with
  | none => none
  | some (t, pos) =>
  let t := { t with format_signature := ((ecrc1.val <<< 8) ||| ecrc0.val) }
  let found : Option (List uchar) :=
    match loadFormatBytesFromSignature cache t.format_signature with
    | some format_bytes => some format_bytes
    | none => findFormatBytesFromKnownMeterSignatures t
  match found with
  | none => some (false, t, pos, cache)
  | some format_bytes =>
  if ¬ hasBytes 2 pos t.frame then some (expectedMore, t, pos, cache) else
  match t.frame[pos + 0]? with
  | none => none
  | some ecrc2 =>
  match t.frame[pos + 1]? with
  | none => none
  | some ecrc3 =>
  match addExplanationAndIncrementPos t pos 2
    (fmt02x ecrc2.val ++ fmt02x ecrc3.val ++ " data crc") with
  | none => none
  | some (t, pos) =>
  let t := { t with header_size := pos }
  let remaining : Int := (t.frame.length : Int) - (pos : Int)
  let t := { t with suffix_size := 0 }
  let r := dv.parseDV cache t pos remaining (some format_bytes)
  some (true, r.1, pos, r.2)

/-- Source: `Telegram::parse_TPL_7A`. -/
def parse_TPL_7A (cr : Crypto) (dv : DVOps) (cache : FormatCache) (t : Telegram) (pos : Nat) :
    Option (Bool × Telegram × Nat × FormatCache) :=
  match parseShortTPL cr t pos with
  | none => none
  | some (ok, t, pos) =>
  if !ok then some (false, t, pos, cache) else
  match potentiallyDecrypt cr t pos with
  | none => none
  | some (ok, t, pos) =>
  if !ok then some (false, t, pos, cache) else
  parseDVAndReturn dv cache t pos

/-- Source: `Telegram::parseTPL`. The length compared with `remaining` is
`ciFieldLength(ell_ci)`; a CI field that is not of the type TPL gives a warning and the
result true. -/
def parseTPL (cr : Crypto) (dv : DVOps) (cache : FormatCache) (t : Telegram) (pos : Nat) :
    Option (Bool × Telegram × Nat × FormatCache) :=
  let remaining : Int := (t.frame.length : Int) - (pos : Int)
  if remaining = 0 then some (false, t, pos, cache) else
  if ¬ hasBytes 1 pos t.frame then some (expectedMore, t, pos, cache) else
  match t.frame[pos]? with
  | none => none
  | some ci =>
  let ci_field : Int := (ci.val : Int)
  if !isCiFieldOfType ci_field .TPL then some (true, t, pos, cache) else
  let t := { t with tpl_start := pos }
  match addExplanationAndIncrementPos t pos 1
    (fmt02x ci.val ++ " tpl-ci-field (" ++ ciType ci.val ++ ")") with
  | none => none
  | some (t, pos) =>
  let t := { t with tpl_ci := ci_field }
  let len := ciFieldLength t.ell_ci
  if remaining < len + 1 then some (expectedMore, t, pos, cache) else
  if t.tpl_ci = 0x72 then parse_TPL_72 cr dv cache t pos
  else if t.tpl_ci = 0x78 then parse_TPL_78 dv cache t pos
  else if t.tpl_ci = 0x79 then parse_TPL_79 dv cache t pos
  else if t.tpl_ci = 0x7A then parse_TPL_7A cr dv cache t pos
  else if t.tpl_ci = 0xA2 then
    some (true, { t with header_size := pos, suffix_size := 0 }, pos, cache)
  else
    some (false, { t with header_size := pos, suffix_size := 0 }, pos, cache)

/-- Source: `Telegram::parseNWL`. -/
def parseNWL (t : Telegram) (pos : Nat) : Option (Bool × Telegram × Nat) :=
  some (true, t, pos)

/-- Source: `Telegram::parse`. The result is the returned flag, the telegram and the format
cache after the call; the cursor is a local variable. `verboseFields` only writes to the
log. -/
def parse (cr : Crypto) (ops : LinkOps) (auth : AFLAuthTypes) (dv : DVOps) (cache : FormatCache)
    (t : Telegram) (input_frame : List uchar) (mk : MeterKeys) :
    Option (Bool × Telegram × FormatCache) :=
  let t := { t with explanations := [] }
  let t := { t with meter_keys := mk }
  let t := { t with frame := input_frame }
  let pos : Nat := 0
  let t := { t with parsed := [] }
  match parseDLL t pos with
  | none => none
  | some (ok, t, pos) =>
  if !ok then some (false, t, cache) else
  match parseELL ops t pos with
  | none => none
  | some (ok, t, pos) =>
  if !ok then some (false, t, cache) else
  match parseNWL t pos with
  | none => none
  | some (ok, t, pos) =>
  if !ok then some (false, t, cache) else
  match parseAFL auth t pos with
  | none => none
  | some (ok, t, pos) =>
  if !ok then some (false, t, cache) else
  match parseTPL cr dv cache t pos with
  | none => none
  | some (ok, t, _, cache) =>
  if !ok then some (false, t, cache) else
  some (true, t, cache)

/-! ## The link modes of the Amber dongle -/

/-- One entry of the array `link_modes_`, which is filled from the list macro
`LIST_OF_LINK_MODES`: the mode, given by its name, and its bit `val`. -/
structure LinkModeInfo where
  mode : String
  val : Nat
deriving DecidableEq, Repr

/-- Modelled from the spec: the list macro `LIST_OF_LINK_MODES` and the constants `C1_bit`,
`S1_bit`, `S1m_bit`, `T1_bit` generated from it are defined in `wmbus.h`, which is not among
the sources (spec 2.C: link-mode bitset). The functions that use them are parameterised over
the entries of the list; the constant `X_bit` is the `val` of the entry of the mode X. -/
structure LinkModes where
  link_modes_ : List LinkModeInfo
  C1_bit : Nat
  S1_bit : Nat
  S1m_bit : Nat
  T1_bit : Nat

/-- The class `LinkModeSet`: the member `set_` holds the bits of the modes in the set. -/
structure LinkModeSet where
  set_ : Nat
deriving DecidableEq, Repr

/-- Modelled from the spec: `LinkModeSet::bits` is defined in `wmbus.h`; it returns the bits
of the set. -/
def LinkModeSet.bits (s : LinkModeSet) : Nat := s.set_

/-- Source: `getLinkModeInfo`. The first entry of the mode; `none` stands for the failing
`assert(0)` when there is none. -/
def getLinkModeInfo (lm : LinkModes) (mode : String) : Option LinkModeInfo :=
  lm.link_modes_.find? (fun s => decide (s.mode = mode))

/-- Source: `LinkModeSet::supports`. True when the two sets have a mode in common. -/
def LinkModeSet.supports (s lms : LinkModeSet) : Bool := decide (s.set_ &&& lms.set_ ≠ 0)

/-- Source: `LinkModeSet::has`. -/
def LinkModeSet.has (lm : LinkModes) (s : LinkModeSet) (mode : String) : Option Bool :=
  match getLinkModeInfo lm mode with
  | none => none
  | some lmi => some (decide (s.set_ &&& lmi.val ≠ 0))

/-- Modelled from the spec: `countSetBits` is defined in `util.cc`, which is not among the
sources; it counts the one bits of an `int`, which has 32 bits (spec 2.C: link-mode bitset). -/
def countSetBits (v : Nat) : Nat := ((List.range 32).filter (fun i => v.testBit i)).length

/-- Source: `WMBusAmber::supportedLinkModes`. -/
def supportedLinkModes (lm : LinkModes) : LinkModeSet :=
  { set_ := lm.C1_bit ||| lm.S1_bit ||| lm.S1m_bit ||| lm.T1_bit }

/-- Source: `WMBusAmber::canSetLinkModes`. The operators `&&` and `||` evaluate their second
operand only when the first does not decide the result. -/
def canSetLinkModes (lm : LinkModes) (desired_modes : LinkModeSet) : Option Bool :=
  if 0 = countSetBits desired_modes.bits then some false else
  if !(supportedLinkModes lm).supports desired_modes then some false else
  if 1 = countSetBits desired_modes.bits then some true else
  if 2 ≠ countSetBits desired_modes.bits then some false else
  match desired_modes.has lm "C1" with
  | none => none
  | some hasC1 =>
  match (if hasC1 then desired_modes.has lm "T1" else some false) with
  | none => none
  | some c1_and_t1 =>
  if c1_and_t1 then some true else
  match desired_modes.has lm "S1" with
  | none => none
  | some hasS1 =>
  match (if hasS1 then some true else desired_modes.has lm "S1m") with
  | none => none
  | some s1_or_s1m =>
  if s1_or_s1m then some true else
  some false

/-! ## Instances used to evaluate the model -/

/-- A stand-in for the opaque cryptographic routines, used to run the model on concrete
frames: the CMAC of every input is sixteen zero bytes, both decryption routines report success
and leave the frame as it is. -/
def stubCrypto : Crypto where
  AES_CMAC := fun _ _ => ⟨List.replicate 16 0, by simp⟩
  decrypt_TPL_AES_CBC_IV := fun t _ _ => (true, t.frame)
  decrypt_TPL_AES_CBC_NO_IV := fun t _ _ => (true, t.frame)

/-- The byte `b` with bit `k` inverted. -/
def flipBitOfByte (b : uchar) (k : Fin 8) : uchar :=
  ⟨(b.val ^^^ (1 <<< k.val)) % 256, Nat.mod_lt _ (by decide)⟩

/-- The byte list `m` with bit `k` of the byte at index `i` inverted. -/
def flipBit (m : List uchar) (i : Nat) (k : Fin 8) : List uchar :=
  m.set i (flipBitOfByte (m.getD i 0) k)

/-- A stand-in for the opaque link layer routines, used to run the model on concrete frames:
the checksum of every input is 0 and the decryption reports success and leaves the frame as it
is. -/
def stubLinkOps : LinkOps where
  crc16_EN13757 := fun _ => 0
  decrypt_ELL_AES_CTR := fun t _ _ => (true, t.frame)

/-- An instance of the list of AFL authentication types, used to run the model on concrete
frames: the types 3 to 7 are the AES-CMAC of 2, 4, 8, 12 and 16 bytes (the MAC lengths of spec
3, AFL; the frame in the comment of `parseAFL` has the type 5 and a MAC of 8 bytes). -/
def exampleAFLAuthTypes : AFLAuthTypes where
  entries := [⟨"NoAuth", 0, 0⟩, ⟨"Reserved1", 1, 0⟩, ⟨"Reserved2", 2, 0⟩,
    ⟨"AES_CMAC_128_2", 3, 2⟩, ⟨"AES_CMAC_128_4", 4, 4⟩, ⟨"AES_CMAC_128_8", 5, 8⟩,
    ⟨"AES_CMAC_128_12", 6, 12⟩, ⟨"AES_CMAC_128_16", 7, 16⟩]
  reserved1 := ⟨"Reserved1", 1, 0⟩

/-- A stand-in for the opaque `parseDV`, used to run the model on concrete frames: it leaves
the telegram and the cache as they are. -/
def stubDVOps : DVOps where
  parseDV := fun cache t _ _ _ => (t, cache)

/-- An instance of the list of link modes, used to run the model: the four modes of the Amber
dongle have the bits 1, 2, 4 and 8, and `N1a` with the bit 16 stands for a mode the dongle
does not support. -/
def exampleLinkModes : LinkModes where
  link_modes_ := [⟨"Any", 0xffff⟩, ⟨"C1", 0x1⟩, ⟨"S1", 0x2⟩, ⟨"S1m", 0x4⟩, ⟨"T1", 0x8⟩,
    ⟨"N1a", 0x10⟩, ⟨"UNKNOWN", 0x0⟩]
  C1_bit := 0x1
  S1_bit := 0x2
  S1m_bit := 0x4
  T1_bit := 0x8

/-! ## Auxiliary facts -/

/-- Two bytes combined with shift and or are the little-endian 16 bit value. -/
theorem shl8_or (hi lo : Nat) (h : lo < 256) : (hi <<< 8) ||| lo = hi * 256 + lo := by
  have h2 : lo < 2 ^ 8 := h
  rw [Nat.shiftLeft_eq, Nat.mul_comm, ← Nat.mul_add_lt_is_or h2 hi]

/-- A list with at least ten elements starts with ten explicit elements. -/
theorem exists_ten_cons (f : List uchar) (h : 10 ≤ f.length) :
    ∃ b0 b1 b2 b3 b4 b5 b6 b7 b8 b9 rest,
      f = b0 :: b1 :: b2 :: b3 :: b4 :: b5 :: b6 :: b7 :: b8 :: b9 :: rest := by
  match f, h with
  | b0 :: b1 :: b2 :: b3 :: b4 :: b5 :: b6 :: b7 :: b8 :: b9 :: rest, _ =>
    exact ⟨b0, b1, b2, b3, b4, b5, b6, b7, b8, b9, rest, rfl⟩

/-- The run of `parseDLL` from the frame start on a frame given by its first ten bytes. -/
theorem parseDLL_cons (t : Telegram) (b0 b1 b2 b3 b4 b5 b6 b7 b8 b9 : uchar) (rest : List uchar)
    (hf : t.frame = b0 :: b1 :: b2 :: b3 :: b4 :: b5 :: b6 :: b7 :: b8 :: b9 :: rest)
    (hlen : b0.val ≤ 10 + rest.length) :
    ∃ t', parseDLL t 0 = some (true, t', 10) ∧ t'.frame = t.frame ∧
      t'.dll_len = b0.val ∧ t'.dll_c = b1.val ∧ t'.dll_mfct = b3.val * 256 + b2.val ∧
      t'.dll_a = [b4, b5, b6, b7, b8, b9] ∧ t'.dll_id = [b7, b6, b5, b4] ∧
      t'.id = fmt02x b7.val ++ fmt02x b6.val ++ fmt02x b5.val ++ fmt02x b4.val ∧
      t'.dll_version = b8 ∧ t'.dll_type = b9 := by
  have hm : (b3.val <<< 8) ||| b2.val = b3.val * 256 + b2.val := shl8_or _ _ b2.isLt
  have hl : ¬ ((10 : Int) + rest.length < b0.val) := by omega
  simp only [parseDLL, addExplanationAndIncrementPos, hf, expectedMore]
  simp
  rw [if_neg (by omega), if_neg (by omega)]
  exact ⟨_, rfl, rfl, rfl, rfl, hm, rfl, rfl, rfl, rfl, rfl⟩

/-! ## The data link layer header -/

/-- C1. For every frame of at least 10 bytes that passes the length check of `parseDLL`
(the first byte does not exceed the number of bytes of the frame), `parseDLL` started at the
frame start returns true, leaves the cursor at offset 10 and sets `dll_len = frame[0]`,
`dll_c = frame[1]`, `dll_mfct = frame[3]*256 + frame[2]`, `dll_a = frame[4..9]`,
`dll_id = [frame[7], frame[6], frame[5], frame[4]]`, the id string to the hex of these four bytes
in this order, `dll_version = frame[8]` and `dll_type = frame[9]`. -/
theorem parseDLL_decodes_header (t : Telegram) (h10 : 10 ≤ t.frame.length)
    (hcheck : (t.frame.getD 0 0).val ≤ t.frame.length) :
    ∃ t', parseDLL t 0 = some (true, t', 10) ∧ t'.frame = t.frame ∧
      t'.dll_len = (t.frame.getD 0 0).val ∧
      t'.dll_c = (t.frame.getD 1 0).val ∧
      t'.dll_mfct = (t.frame.getD 3 0).val * 256 + (t.frame.getD 2 0).val ∧
      t'.dll_a = (t.frame.drop 4).take 6 ∧
      t'.dll_id = [t.frame.getD 7 0, t.frame.getD 6 0, t.frame.getD 5 0, t.frame.getD 4 0] ∧
      t'.id = fmt02x (t.frame.getD 7 0).val ++ fmt02x (t.frame.getD 6 0).val
                ++ fmt02x (t.frame.getD 5 0).val ++ fmt02x (t.frame.getD 4 0).val ∧
      t'.dll_version = t.frame.getD 8 0 ∧ t'.dll_type = t.frame.getD 9 0 := by
  obtain ⟨b0, b1, b2, b3, b4, b5, b6, b7, b8, b9, rest, hf⟩ := exists_ten_cons t.frame h10
  have hlen : b0.val ≤ 10 + rest.length := by
    have := hcheck
    simp only [hf, List.getD_cons_zero, List.length_cons] at this
    omega
  obtain ⟨t', h1, h2, h3, h4, h5, h6, h7, h8, h9, h10'⟩ :=
    parseDLL_cons t b0 b1 b2 b3 b4 b5 b6 b7 b8 b9 rest hf hlen
  refine ⟨t', h1, h2, ?_, ?_, ?_, ?_, ?_, ?_, ?_, ?_⟩ <;> simp [hf, *]

/-- Witness for C1: the ten byte frame `0A 44 2D 2C 78 56 34 12 30 03`. -/
theorem parseDLL_decodes_header_witness :
    ∃ t', parseDLL { frame := [0x0A, 0x44, 0x2D, 0x2C, 0x78, 0x56, 0x34, 0x12, 0x30, 0x03] } 0
        = some (true, t', 10) ∧
      t'.dll_mfct = 0x2C2D ∧ t'.dll_id = [0x12, 0x34, 0x56, 0x78] ∧ t'.id = "12345678" ∧
      t'.dll_version = 0x30 ∧ t'.dll_type = 0x03 := by
  obtain ⟨t', h1, _, _, _, h5, _, h7, h8, h9, h10⟩ := parseDLL_decodes_header
    { frame := [0x0A, 0x44, 0x2D, 0x2C, 0x78, 0x56, 0x34, 0x12, 0x30, 0x03] }
    (by decide) (by decide)
  exact ⟨t', h1, h5, h7, by rw [h8]; decide, h9, h10⟩

/-- C2, the code at the failing input. The frame `0A 44 2D 2C 78 56 34 12 30 03` announces
`L = 10` bytes after the length byte and therefore needs 11 bytes, it holds only 10; `parseDLL`
compares the remaining bytes (the length byte included) with `L` and accepts it. -/
theorem parseDLL_accepts_frame_one_byte_short :
    ([0x0A, 0x44, 0x2D, 0x2C, 0x78, 0x56, 0x34, 0x12, 0x30, 0x03] : List uchar).length < 0x0A + 1 ∧
    (parseDLL { frame := [0x0A, 0x44, 0x2D, 0x2C, 0x78, 0x56, 0x34, 0x12, 0x30, 0x03] } 0).map
      (fun r => (r.1, r.2.2)) = some (true, 10) := by
  decide

/-! ## The DIF length table -/

set_option maxRecDepth 100000 in
/-- The table of `difLenBytes` over the integers 0..255. -/
theorem difLenBytes_table_nat : ∀ dif : Nat, dif < 256 →
    difLenBytes dif =
      if dif &&& 0x0f = 0x0f then (if dif = 0x2f then 1 else -2)
      else ([0, 1, 2, 3, 4, 4, 6, 8, 0, 1, 2, 3, 4, -1, 6] : List Int).getD (dif &&& 0x0f) (-2) := by
  decide

/-- C10. For every dif in 0..255, `difLenBytes dif` is given by the low nibble `dif & 0x0f`:
0->0, 1->1, 2->2, 3->3, 4->4, 5->4, 6->6, 7->8, 8->0, 9->1, A->2, B->3, C->4, D->-1, E->6; for
the low nibble F it is 1 when dif = 0x2F and -2 for every other dif, 0x0F and 0x1F included. -/
theorem difLenBytes_table (dif : uchar) :
    difLenBytes dif.val =
      (if dif.val &&& 0x0f = 0x0f then (if dif.val = 0x2f then 1 else -2)
       else ([0, 1, 2, 3, 4, 4, 6, 8, 0, 1, 2, 3, 4, -1, 6] : List Int).getD (dif.val &&& 0x0f) (-2))
    ∧ difLenBytes 0x0F = -2 ∧ difLenBytes 0x1F = -2 ∧ difLenBytes 0x2F = 1 :=
  ⟨difLenBytes_table_nat dif.val dif.isLt, by decide, by decide, by decide⟩

/-! ## The MAC check -/

set_option maxRecDepth 100000 in
/-- The hex digits of the sixteen nibbles are pairwise different. -/
theorem hexChar_injOn : ∀ a : Fin 16, ∀ b : Fin 16, hexChar a.val = hexChar b.val → a = b := by
  decide

set_option maxRecDepth 100000 in
/-- The nibbles used by `hexPair` are the quotient and remainder by 16. -/
theorem nibbles_eq : ∀ x : uchar, (x.val &&& 0xF0) >>> 4 = x.val / 16 ∧ x.val &&& 0xF = x.val % 16 := by
  decide

/-- A byte is determined by its two hex digits. -/
theorem hexPair_injective (x y : uchar) (h : hexPair x = hexPair y) : x = y := by
  simp only [hexPair, (nibbles_eq x).1, (nibbles_eq x).2, (nibbles_eq y).1, (nibbles_eq y).2,
    List.cons.injEq, and_true] at h
  have hx := x.isLt
  have hy := y.isLt
  have h1 := hexChar_injOn ⟨x.val / 16, by omega⟩ ⟨y.val / 16, by omega⟩ h.1
  have h2 := hexChar_injOn ⟨x.val % 16, by omega⟩ ⟨y.val % 16, by omega⟩ h.2
  simp only [Fin.mk.injEq] at h1 h2
  exact Fin.ext (by omega)

/-- Comparing hex strings up to the length of the second is comparing the byte lists up to the
length of the second. -/
theorem hex_take_eq_iff (b : List uchar) : ∀ a : List uchar,
    (a.flatMap hexPair).take (b.flatMap hexPair).length = b.flatMap hexPair ↔
      a.take b.length = b := by
  induction b with
  | nil => intro a; simp
  | cons y b ih =>
    intro a
    cases a with
    | nil => simp [hexPair]
    | cons x a =>
      have hlen : ((y :: b).flatMap hexPair).length = (b.flatMap hexPair).length + 2 := by
        simp [List.flatMap_cons, hexPair]
      rw [hlen]
      simp only [List.flatMap_cons, List.length_cons, List.take_succ_cons]
      have hx : hexPair x ++ a.flatMap hexPair
          = hexChar ((x.val &&& 0xF0) >>> 4) :: hexChar (x.val &&& 0xF) :: a.flatMap hexPair := rfl
      have hy : hexPair y ++ b.flatMap hexPair
          = hexChar ((y.val &&& 0xF0) >>> 4) :: hexChar (y.val &&& 0xF) :: b.flatMap hexPair := rfl
      rw [hx, hy]
      simp only [List.take_succ_cons, List.cons.injEq]
      constructor
      · rintro ⟨h1, h2, h3⟩
        exact ⟨hexPair_injective x y (by simp [hexPair, h1, h2]), (ih a).1 h3⟩
      · rintro ⟨h1, h2⟩
        subst h1
        exact ⟨rfl, rfl, (ih a).2 h2⟩

/-- The result of `checkMAC` in terms of byte lists instead of hex strings. -/
theorem checkMAC_eq_true_iff (cr : Crypto) (t : Telegram) (frame : List uchar)
    (from_ to_ : Nat) (inmac mackey : List uchar) :
    checkMAC cr t frame from_ to_ inmac mackey = true ↔
      mackey.length = 16 ∧ inmac ≠ [] ∧
      inmac = (cr.AES_CMAC mackey
        ([t.afl_mcl] ++ [t.afl_counter_b.b0, t.afl_counter_b.b1, t.afl_counter_b.b2,
          t.afl_counter_b.b3] ++ (frame.take to_).drop from_)).val.take inmac.length := by
  unfold checkMAC
  by_cases hk : mackey.length = 16
  · by_cases hi : inmac.length = 0
    · have : inmac = [] := List.length_eq_zero.mp hi
      simp [hk, hi, this]
    · have hne : inmac ≠ [] := fun h => hi (by simp [h])
      simp only [hk, hi, ne_eq, not_true_eq_false, if_false, decide_eq_true_eq, true_and,
        bin2hex, String.length, String.ext_iff, hex_take_eq_iff, hne, not_false_eq_true,
        Bytes4.toList]
      exact eq_comm
  · simp [hk]

/-- C4. With AES-CMAC an opaque function returning 16 bytes, `checkMAC` returns true if and only
if `mackey` has exactly 16 bytes, `inmac` is not empty and `inmac` equals the first `|inmac|` bytes
of `CMAC(mackey, afl_mcl || afl_counter_b[0..3] || frame[from..to))`: the stored MAC is accepted
exactly when it matches the computed CMAC up to its own length, whatever that length is. -/
theorem checkMAC_accepts_iff_truncated_cmac (cr : Crypto) (t : Telegram) (frame : List uchar)
    (from_ to_ : Nat) (inmac mackey : List uchar) :
    checkMAC cr t frame from_ to_ inmac mackey = true ↔
      mackey.length = 16 ∧ inmac ≠ [] ∧
      inmac = (cr.AES_CMAC mackey
        ([t.afl_mcl] ++ [t.afl_counter_b.b0, t.afl_counter_b.b1, t.afl_counter_b.b2,
          t.afl_counter_b.b3] ++ (frame.take to_).drop from_)).val.take inmac.length :=
  checkMAC_eq_true_iff cr t frame from_ to_ inmac mackey

/-! ## The sentinel check after decryption -/

/-- The macro `CHECK(n)` passes exactly when `n` bytes remain at the cursor. -/
theorem hasBytes_iff (n pos : Nat) (frame : List uchar) :
    hasBytes n pos frame = true ↔ pos + n ≤ frame.length := by
  simp only [hasBytes, decide_eq_true_eq]; omega

/-- The sentinel check that follows both decryption calls. -/
theorem sentinel_check (t : Telegram) (pos : Nat) (text : uchar → uchar → String) :
    ∃ ok t' pos',
      (if ¬ hasBytes 2 pos t.frame then some (expectedMore, t, pos) else
        match t.frame[pos + 0]? with
        | none => none
        | some c0 =>
        match t.frame[pos + 1]? with
        | none => none
        | some c1 =>
        if c0 ≠ 0x2f ∨ c1 ≠ 0x2f then some (false, t, pos) else
        match addExplanationAndIncrementPos t pos 2 (text c0 c1) with
        | none => none
        | some (t, pos) => some (true, t, pos)) = some (ok, t', pos') ∧
      (ok = true ↔ pos + 2 ≤ t.frame.length ∧ t.frame[pos]? = some 0x2f ∧
        t.frame[pos + 1]? = some 0x2f) ∧
      (ok = true → pos' = pos + 2) ∧ (ok = false → pos' = pos) ∧ t'.frame = t.frame := by
  by_cases hb : pos + 2 ≤ t.frame.length
  · have h0 : pos < t.frame.length := by omega
    have h1 : pos + 1 < t.frame.length := by omega
    have hb' : hasBytes 2 pos t.frame = true := (hasBytes_iff _ _ _).2 hb
    simp only [hb', not_true_eq_false, if_false, Nat.add_zero, List.getElem?_eq_getElem h0,
      List.getElem?_eq_getElem h1, addExplanationAndIncrementPos, hb, if_true]
    by_cases hc : t.frame[pos] ≠ 0x2f ∨ t.frame[pos + 1] ≠ 0x2f
    · refine ⟨false, t, pos, by simp [hc], ?_, by simp, by simp, rfl⟩
      simp only [Bool.false_eq_true, Option.some.injEq, false_iff, not_and]
      intro _ h2 h3
      rcases hc with hc | hc
      · exact hc h2
      · exact hc h3
    · refine ⟨true, { t with
          explanations := t.explanations ++
            [(t.parsed.length, vsnprintf1023 (text t.frame[pos] t.frame[pos + 1]))],
          parsed := t.parsed ++ (t.frame.drop pos).take 2 }, pos + 2, by simp [hc], ?_,
          by simp, by simp, rfl⟩
      simp only [not_or, not_not] at hc
      simp [hb, hc.1, hc.2]
  · have hb' : ¬ hasBytes 2 pos t.frame = true := fun h => hb ((hasBytes_iff _ _ _).1 h)
    refine ⟨false, t, pos, by simp [hb', expectedMore], ?_, by simp, by simp, rfl⟩
    simp [hb]

/-- C3. In TPL security mode 5 (`AES_CBC_IV`), and in mode 7 (`AES_CBC_NO_IV`) on the path that
has passed the MAC check, `potentiallyDecrypt` always returns, and it returns true if and only if
the decryption routine reported success, at least two bytes remain at the cursor and the two
bytes at the cursor of the decrypted frame are `2F 2F`. On true the cursor has advanced by
exactly 2, on false it has not moved; the frame is the one the decryption routine left. -/
theorem potentiallyDecrypt_sentinel (cr : Crypto) (t : Telegram) (pos : Nat)
    (hmode : t.tpl_sec_mode = .AES_CBC_IV ∨
      (t.tpl_sec_mode = .AES_CBC_NO_IV ∧
        ¬ (t.meter_keys.hasConfidentialityKey = false ∧ t.meter_keys.isSimulation = true) ∧
        checkMAC cr t t.frame t.tpl_start t.frame.length t.afl_mac_b t.tpl_generated_mac_key
          = true)) :
    ∃ ok t' pos', potentiallyDecrypt cr t pos = some (ok, t', pos') ∧
      (ok = true ↔
        (if t.tpl_sec_mode = .AES_CBC_IV
          then cr.decrypt_TPL_AES_CBC_IV t pos t.meter_keys.confidentiality_key
          else cr.decrypt_TPL_AES_CBC_NO_IV t pos t.tpl_generated_key).1 = true ∧
        pos + 2 ≤ t'.frame.length ∧ t'.frame[pos]? = some 0x2f ∧ t'.frame[pos + 1]? = some 0x2f) ∧
      (ok = true → pos' = pos + 2) ∧ (ok = false → pos' = pos) ∧
      t'.frame = (if t.tpl_sec_mode = .AES_CBC_IV
          then cr.decrypt_TPL_AES_CBC_IV t pos t.meter_keys.confidentiality_key
          else cr.decrypt_TPL_AES_CBC_NO_IV t pos t.tpl_generated_key).2 := by
  rcases hmode with h5 | ⟨h7, hsim, hmac⟩
  · unfold potentiallyDecrypt
    simp only [if_pos h5]
    obtain ⟨ok, t', pos', h1, h2, h3, h4, h5'⟩ := sentinel_check
      { t with frame := (cr.decrypt_TPL_AES_CBC_IV t pos t.meter_keys.confidentiality_key).2 }
      pos (fun c0 c1 => fmt02x c0.val ++ fmt02x c1.val ++ " decrypt check bytes")
    cases hr : (cr.decrypt_TPL_AES_CBC_IV t pos t.meter_keys.confidentiality_key).1
    · exact ⟨false,
        { t with frame := (cr.decrypt_TPL_AES_CBC_IV t pos t.meter_keys.confidentiality_key).2 },
        pos, by simp, by simp, by simp, by simp, rfl⟩
    · refine ⟨ok, t', pos', ?_, ?_, h3, h4, h5'⟩
      · simpa using h1
      · rw [h5']; simpa using h2
  · have h5 : ¬ t.tpl_sec_mode = .AES_CBC_IV := by rw [h7]; decide
    have hsim' : ¬ (¬ t.meter_keys.hasConfidentialityKey = true ∧ t.meter_keys.isSimulation = true) := by
      simpa using hsim
    unfold potentiallyDecrypt
    simp only [if_neg h5, if_pos h7, if_neg hsim', hmac]
    obtain ⟨ok, t', pos', h1, h2, h3, h4, h5'⟩ := sentinel_check
      { t with frame := (cr.decrypt_TPL_AES_CBC_NO_IV t pos t.tpl_generated_key).2 }
      pos (fun c0 c1 => fmt02x c0.val ++ fmt02x c1.val ++ " decrypt check bytes")
    cases hr : (cr.decrypt_TPL_AES_CBC_NO_IV t pos t.tpl_generated_key).1
    · exact ⟨false,
        { t with frame := (cr.decrypt_TPL_AES_CBC_NO_IV t pos t.tpl_generated_key).2 },
        pos, by simp, by simp, by simp, by simp, rfl⟩
    · refine ⟨ok, t', pos', ?_, ?_, h3, h4, h5'⟩
      · simpa using h1
      · rw [h5']; simpa using h2

/-- Witness for C3: mode 5, the frame `2F 2F` and a decryption that succeeds and leaves it. -/
theorem potentiallyDecrypt_sentinel_witness :
    ∃ ok t' pos',
      potentiallyDecrypt stubCrypto { frame := [0x2f, 0x2f], tpl_sec_mode := .AES_CBC_IV } 0
        = some (ok, t', pos') ∧
      (ok = true ↔ True ∧ 0 + 2 ≤ t'.frame.length ∧ t'.frame[0]? = some 0x2f ∧
        t'.frame[0 + 1]? = some 0x2f) ∧
      (ok = true → pos' = 0 + 2) ∧ (ok = false → pos' = 0) ∧ t'.frame = [0x2f, 0x2f] := by
  simpa [stubCrypto] using potentiallyDecrypt_sentinel stubCrypto
    { frame := [0x2f, 0x2f], tpl_sec_mode := .AES_CBC_IV } 0 (Or.inl rfl)

/-! ## The MAC is bit exact -/

set_option maxRecDepth 100000 in
/-- Inverting a bit changes the byte. -/
theorem flipBitOfByte_ne : ∀ b : uchar, ∀ k : Fin 8, flipBitOfByte b k ≠ b := by
  decide

/-- Inverting a bit of a byte list keeps its length. -/
theorem flipBit_length (m : List uchar) (i : Nat) (k : Fin 8) :
    (flipBit m i k).length = m.length := by
  simp [flipBit]

/-- Inverting a bit at a valid index changes the byte list. -/
theorem flipBit_ne (m : List uchar) (i : Nat) (k : Fin 8) (hi : i < m.length) :
    flipBit m i k ≠ m := by
  intro h
  have h1 : (flipBit m i k).getD i 0 = m.getD i 0 := by rw [h]
  have h2 : (flipBit m i k).getD i 0 = flipBitOfByte (m.getD i 0) k := by
    simp [flipBit, List.getD_eq_getElem?_getD, List.getElem?_set, hi]
  exact flipBitOfByte_ne _ k (h2.symm.trans h1)

/-- C5. The MAC check is bit exact in the MAC itself: whenever `checkMAC` accepts a stored MAC
`inmac` (which then has 1 to 16 bytes), it rejects, for the same key and the same covered bytes,
every `inmac` obtained by inverting one bit of one of its bytes. -/
theorem checkMAC_rejects_flipped_mac (cr : Crypto) (t : Telegram) (frame : List uchar)
    (from_ to_ : Nat) (inmac mackey : List uchar) (i : Nat) (k : Fin 8)
    (hi : i < inmac.length)
    (hok : checkMAC cr t frame from_ to_ inmac mackey = true) :
    1 ≤ inmac.length ∧ inmac.length ≤ 16 ∧
    checkMAC cr t frame from_ to_ (flipBit inmac i k) mackey = false := by
  obtain ⟨_, hne, heq⟩ := (checkMAC_eq_true_iff cr t frame from_ to_ inmac mackey).1 hok
  refine ⟨by omega, ?_, ?_⟩
  · have := congrArg List.length heq
    rw [List.length_take, (cr.AES_CMAC _ _).property] at this
    omega
  · cases hflip : checkMAC cr t frame from_ to_ (flipBit inmac i k) mackey
    · rfl
    · exfalso
      obtain ⟨_, _, heq'⟩ :=
        (checkMAC_eq_true_iff cr t frame from_ to_ (flipBit inmac i k) mackey).1 hflip
      rw [flipBit_length] at heq'
      exact flipBit_ne inmac i k hi (heq'.trans heq.symm)

/-- Witness for C5: the two byte MAC `00 00` is accepted against the all-zero CMAC, and it is
rejected once bit 3 of its second byte is inverted. -/
theorem checkMAC_rejects_flipped_mac_witness :
    checkMAC stubCrypto {} [0x72, 0x01] 0 2 [0x00, 0x00] (List.replicate 16 0) = true ∧
    checkMAC stubCrypto {} [0x72, 0x01] 0 2 (flipBit [0x00, 0x00] 1 3) (List.replicate 16 0)
      = false :=
  ⟨by decide, (checkMAC_rejects_flipped_mac stubCrypto {} [0x72, 0x01] 0 2 [0x00, 0x00]
    (List.replicate 16 0) 1 3 (by decide) (by decide)).2.2⟩

/-! ## Mode 7: MAC failure and the simulation shortcut -/

/-- C6. In TPL security mode 7 with a confidentiality key present, a failed `checkMAC` makes
`potentiallyDecrypt` return false with the telegram (frame bytes, explanation trail and every
other member) and the cursor exactly as before the call; this holds whatever the two decryption
routines are, they are not consulted. -/
theorem potentiallyDecrypt_mac_failure_leaves_state (cr : Crypto) (t : Telegram) (pos : Nat)
    (h7 : t.tpl_sec_mode = .AES_CBC_NO_IV)
    (hkey : t.meter_keys.hasConfidentialityKey = true)
    (hmac : checkMAC cr t t.frame t.tpl_start t.frame.length t.afl_mac_b
      t.tpl_generated_mac_key = false) :
    ∀ dIV dNoIV : Telegram → Nat → List uchar → Bool × List uchar,
      potentiallyDecrypt { AES_CMAC := cr.AES_CMAC, decrypt_TPL_AES_CBC_IV := dIV,
                           decrypt_TPL_AES_CBC_NO_IV := dNoIV } t pos = some (false, t, pos) := by
  intro dIV dNoIV
  have h5 : ¬ t.tpl_sec_mode = .AES_CBC_IV := by rw [h7]; decide
  have hmac' : checkMAC ⟨cr.AES_CMAC, dIV, dNoIV⟩ t t.frame t.tpl_start t.frame.length
      t.afl_mac_b t.tpl_generated_mac_key = false := hmac
  unfold potentiallyDecrypt
  simp [h5, h7, hkey, hmac']

/-- Witness for C6: a mode 7 telegram with a key and an AFL MAC `01 02` that does not match the
all-zero CMAC. -/
theorem potentiallyDecrypt_mac_failure_leaves_state_witness :
    potentiallyDecrypt stubCrypto
      { frame := [0x2f, 0x2f], tpl_sec_mode := .AES_CBC_NO_IV, afl_mac_b := [0x01, 0x02],
        tpl_generated_mac_key := List.replicate 16 0,
        meter_keys := { confidentiality_key := List.replicate 16 0 } } 0
      = some (false,
      { frame := [0x2f, 0x2f], tpl_sec_mode := .AES_CBC_NO_IV, afl_mac_b := [0x01, 0x02],
        tpl_generated_mac_key := List.replicate 16 0,
        meter_keys := { confidentiality_key := List.replicate 16 0 } }, 0) :=
  potentiallyDecrypt_mac_failure_leaves_state stubCrypto _ 0 rfl (by decide) (by decide)
    stubCrypto.decrypt_TPL_AES_CBC_IV stubCrypto.decrypt_TPL_AES_CBC_NO_IV

/-- C7. Replay-fixture mode: in TPL security mode 7, when the meter keys hold no confidentiality
key and are marked as simulation, `potentiallyDecrypt` returns true for every frame with at least
two bytes left at the cursor, whatever these bytes are; the outcome does not depend on the
cryptographic routines (no MAC check, no decryption), the frame is unchanged, the two bytes are
appended to `parsed` and the cursor advances by exactly 2. -/
theorem potentiallyDecrypt_simulation_shortcut (t : Telegram) (pos : Nat)
    (h7 : t.tpl_sec_mode = .AES_CBC_NO_IV)
    (hkey : t.meter_keys.hasConfidentialityKey = false)
    (hsim : t.meter_keys.isSimulation = true)
    (h2 : pos + 2 ≤ t.frame.length) :
    ∃ t', (∀ cr : Crypto, potentiallyDecrypt cr t pos = some (true, t', pos + 2)) ∧
      t'.frame = t.frame ∧ t'.parsed = t.parsed ++ (t.frame.drop pos).take 2 := by
  have h5 : ¬ t.tpl_sec_mode = .AES_CBC_IV := by rw [h7]; decide
  have hb : hasBytes 2 pos t.frame = true := (hasBytes_iff _ _ _).2 h2
  have h0 : pos < t.frame.length := by omega
  have h1 : pos + 1 < t.frame.length := by omega
  refine ⟨{ t with
      explanations := t.explanations ++ [(t.parsed.length, vsnprintf1023
        (fmt02x (t.frame[pos]).val ++ fmt02x (t.frame[pos + 1]).val
          ++ " (already) decrypted check bytes"))],
      parsed := t.parsed ++ (t.frame.drop pos).take 2 }, ?_, rfl, rfl⟩
  intro cr
  unfold potentiallyDecrypt
  simp [h5, h7, hkey, hsim, hb, List.getElem?_eq_getElem h0, List.getElem?_eq_getElem h1,
    addExplanationAndIncrementPos, h2]

/-- Witness for C7: a simulated meter without key and the check bytes `12 34`. -/
theorem potentiallyDecrypt_simulation_shortcut_witness :
    ∃ t', (∀ cr : Crypto, potentiallyDecrypt cr
        { frame := [0x12, 0x34], tpl_sec_mode := .AES_CBC_NO_IV,
          meter_keys := { simulation := true } } 0 = some (true, t', 0 + 2)) ∧
      t'.frame = [0x12, 0x34] ∧ t'.parsed = [0x12, 0x34] :=
  potentiallyDecrypt_simulation_shortcut
    { frame := [0x12, 0x34], tpl_sec_mode := .AES_CBC_NO_IV,
      meter_keys := { simulation := true } } 0 rfl rfl rfl (by decide)

/-! ## The TPL configuration word -/

/-- The mask `0x1f00` selects the bits that `(x >> 8) & 0x1f` reads. -/
theorem and_1f00 (x : Nat) : x &&& 0x1f00 = ((x >>> 8) &&& 0x1f) <<< 8 := by
  have h : (0x1f00 : Nat) = 0x1f <<< 8 := by decide
  rw [h]
  apply Nat.eq_of_testBit_eq
  intro i
  simp only [Nat.testBit_and, Nat.testBit_shiftLeft, Nat.testBit_shiftRight]
  by_cases hi : 8 ≤ i
  · have : 8 + (i - 8) = i := by omega
    simp [hi, this]
  · simp [hi]

/-- The test `tpl_cfg & 0x1f00` fails exactly when the mode bits are zero. -/
theorem and_1f00_eq_zero_iff (x : Nat) : x &&& 0x1f00 = 0 ↔ (x >>> 8) &&& 0x1f = 0 := by
  rw [and_1f00, Nat.shiftLeft_eq]
  constructor
  · intro h
    have := Nat.mul_eq_zero.mp h
    simpa using this
  · intro h
    rw [h]

/-- The mode bits are below 32. -/
theorem mode_bits_lt (x : Nat) : (x >>> 8) &&& 0x1f < 32 := by
  have := @Nat.and_le_right (x >>> 8) 0x1f
  omega

set_option maxRecDepth 100000 in
/-- Among the codes 0..31 only 7 is decoded to `AES_CBC_NO_IV`. -/
theorem fromInt_eq_no_iv_iff : ∀ m : Nat, m < 32 →
    (fromIntToTPLSecurityMode m = .AES_CBC_NO_IV ↔ m = 7) := by
  decide

/-- Reading a byte that is there shows that its index is inside the frame. -/
theorem lt_of_getElem?_eq_some (f : List uchar) (i : Nat) (b : uchar) (h : f[i]? = some b) :
    i < f.length := by
  by_contra hlt
  rw [List.getElem?_eq_none (by omega)] at h
  exact Option.noConfusion h

/-- C9. On a telegram whose security mode still has its initial value (no security),
`parseTPLConfig` reads the config word little-endian, `cfg = byte1*256 + byte0`, and sets the
security mode to the enumerator of `(cfg >> 8) & 0x1f` (0 being no security). When these bits
are not 7 it returns true having consumed exactly 2 bytes. When they are 7 the mode is
`AES_CBC_NO_IV`, the number of encrypted blocks is `(cfg >> 4) & 0x0f`, the extension byte is
consumed as well, the KDF selector is `(ext >> 4) & 3` and 3 bytes are consumed in all. -/
theorem parseTPLConfig_decodes_config (cr : Crypto) (t : Telegram) (pos : Nat)
    (cfg1 cfg2 : uchar)
    (hfresh : t.tpl_sec_mode = .NoSecurity)
    (h0 : t.frame[pos]? = some cfg1) (h1 : t.frame[pos + 1]? = some cfg2) :
    fromIntToTPLSecurityMode 0 = .NoSecurity ∧
    ((((cfg2.val * 256 + cfg1.val) >>> 8) &&& 0x1f) ≠ 7 →
      ∃ t', parseTPLConfig cr t pos = some (true, t', pos + 2) ∧
        t'.tpl_cfg = cfg2.val * 256 + cfg1.val ∧
        t'.tpl_sec_mode
          = fromIntToTPLSecurityMode (((cfg2.val * 256 + cfg1.val) >>> 8) &&& 0x1f)) ∧
    ((((cfg2.val * 256 + cfg1.val) >>> 8) &&& 0x1f) = 7 →
      ∀ ext : uchar, t.frame[pos + 2]? = some ext →
      ∃ ok t', parseTPLConfig cr t pos = some (ok, t', pos + 3) ∧
        t'.tpl_cfg = cfg2.val * 256 + cfg1.val ∧
        t'.tpl_sec_mode = .AES_CBC_NO_IV ∧
        t'.tpl_sec_mode
          = fromIntToTPLSecurityMode (((cfg2.val * 256 + cfg1.val) >>> 8) &&& 0x1f) ∧
        t'.tpl_num_encr_blocks = ((cfg2.val * 256 + cfg1.val) >>> 4) &&& 0x0f ∧
        t'.tpl_cfg_ext = ext.val ∧
        t'.tpl_kdf_selection = (ext.val >>> 4) &&& 3) := by
  have hcfg : (cfg2.val <<< 8) ||| cfg1.val = cfg2.val * 256 + cfg1.val := shl8_or _ _ cfg1.isLt
  have hl1 := lt_of_getElem?_eq_some _ _ _ h1
  have hb2 : hasBytes 2 pos t.frame = true := (hasBytes_iff _ _ _).2 (by omega)
  have hle2 : pos + 2 ≤ t.frame.length := by omega
  refine ⟨rfl, ?_, ?_⟩
  · intro hm
    have hmode : ¬ fromIntToTPLSecurityMode (((cfg2.val * 256 + cfg1.val) >>> 8) &&& 0x1f)
        = .AES_CBC_NO_IV := fun h => hm ((fromInt_eq_no_iv_iff _ (mode_bits_lt _)).1 h)
    by_cases hz : (cfg2.val * 256 + cfg1.val) &&& 0x1f00 = 0
    · have hz' := (and_1f00_eq_zero_iff _).1 hz
      simp [parseTPLConfig, hb2, h0, h1, hcfg, hz, hz', hfresh, addExplanationAndIncrementPos, hle2]
      rfl
    · simp [parseTPLConfig, hb2, h0, h1, hcfg, hz, hmode, addExplanationAndIncrementPos, hle2]
  · intro hm ext h2
    have hl2 := lt_of_getElem?_eq_some _ _ _ h2
    have hb1 : hasBytes 1 (pos + 2) t.frame = true := (hasBytes_iff _ _ _).2 (by omega)
    have hle3 : pos + 2 + 1 ≤ t.frame.length := by omega
    have hz : ¬ (cfg2.val * 256 + cfg1.val) &&& 0x1f00 = 0 := by
      intro h
      have := (and_1f00_eq_zero_iff _).1 h
      omega
    have hmode : fromIntToTPLSecurityMode (((cfg2.val * 256 + cfg1.val) >>> 8) &&& 0x1f)
        = .AES_CBC_NO_IV := by rw [hm]; rfl
    simp only [parseTPLConfig, hb2, h0, h1, hcfg, hz, hmode, addExplanationAndIncrementPos, hle2,
      Nat.add_zero, not_true_eq_false, if_false, ne_eq, not_false_eq_true, if_true,
      decide_True, h2, hb1, hle3]
    split_ifs <;> exact ⟨_, _, rfl, rfl, rfl, rfl, rfl, rfl, rfl⟩

/-- Witness for C9: the config word `10 07` (mode 7, one encrypted block) with the extension
byte `10` (KDF selector 1), parsed on a fresh telegram. -/
theorem parseTPLConfig_decodes_config_witness :
    ∃ ok t', parseTPLConfig stubCrypto { frame := [0x10, 0x07, 0x10] } 0 = some (ok, t', 0 + 3) ∧
      t'.tpl_cfg = (0x07 : uchar).val * 256 + (0x10 : uchar).val ∧
      t'.tpl_sec_mode = .AES_CBC_NO_IV ∧
      t'.tpl_sec_mode = fromIntToTPLSecurityMode
        ((((0x07 : uchar).val * 256 + (0x10 : uchar).val) >>> 8) &&& 0x1f) ∧
      t'.tpl_num_encr_blocks = (((0x07 : uchar).val * 256 + (0x10 : uchar).val) >>> 4) &&& 0x0f ∧
      t'.tpl_cfg_ext = (0x10 : uchar).val ∧
      t'.tpl_kdf_selection = ((0x10 : uchar).val >>> 4) &&& 3 :=
  (parseTPLConfig_decodes_config stubCrypto { frame := [0x10, 0x07, 0x10] } 0 0x10 0x07
    rfl rfl rfl).2.2 (by decide) 0x10 rfl

/-! ## Key derivation -/

/-- C8. When the mode bits of the config word are 7, the KDF selector of the extension byte is 1
and the confidentiality key has 16 bytes, `parseTPLConfig` returns true with
`Kenc = CMAC(Kconf, 00 || C || ID || 07 x 7)` and `Kmac = CMAC(Kconf, 01 || C || ID || 07 x 7)`, where
`C` is `afl_counter_b[0..3]` and `ID` is `tpl_id_b[0..3]` if `tpl_id_found` (a long TPL header was
parsed) and `dll_id_b[0..3]` otherwise. Both CMAC inputs have exactly 16 bytes and differ only in
their first byte. -/
theorem parseTPLConfig_derives_keys (cr : Crypto) (t : Telegram) (pos : Nat)
    (cfg1 cfg2 ext : uchar)
    (h0 : t.frame[pos]? = some cfg1) (h1 : t.frame[pos + 1]? = some cfg2)
    (h2 : t.frame[pos + 2]? = some ext)
    (hm : ((cfg2.val * 256 + cfg1.val) >>> 8) &&& 0x1f = 7)
    (hkdf : (ext.val >>> 4) &&& 3 = 1)
    (hkey : t.meter_keys.confidentiality_key.length = 16) :
    ∃ t', parseTPLConfig cr t pos = some (true, t', pos + 3) ∧
      t'.tpl_sec_mode = .AES_CBC_NO_IV ∧ t'.tpl_kdf_selection = 1 ∧
      t'.tpl_generated_key = (cr.AES_CMAC t.meter_keys.confidentiality_key
        ([0x00] ++ t.afl_counter_b.toList
          ++ (if t.tpl_id_found then t.tpl_id_b.toList else t.dll_id_b.toList)
          ++ [0x07, 0x07, 0x07, 0x07, 0x07, 0x07, 0x07])).val ∧
      t'.tpl_generated_mac_key = (cr.AES_CMAC t.meter_keys.confidentiality_key
        ([0x01] ++ t.afl_counter_b.toList
          ++ (if t.tpl_id_found then t.tpl_id_b.toList else t.dll_id_b.toList)
          ++ [0x07, 0x07, 0x07, 0x07, 0x07, 0x07, 0x07])).val ∧
      ([0x00] ++ t.afl_counter_b.toList
          ++ (if t.tpl_id_found then t.tpl_id_b.toList else t.dll_id_b.toList)
          ++ [0x07, 0x07, 0x07, 0x07, 0x07, 0x07, 0x07]).length = 16 ∧
      ([0x01] ++ t.afl_counter_b.toList
          ++ (if t.tpl_id_found then t.tpl_id_b.toList else t.dll_id_b.toList)
          ++ [0x07, 0x07, 0x07, 0x07, 0x07, 0x07, 0x07]).length = 16 ∧
      ([0x00] ++ t.afl_counter_b.toList
          ++ (if t.tpl_id_found then t.tpl_id_b.toList else t.dll_id_b.toList)
          ++ [0x07, 0x07, 0x07, 0x07, 0x07, 0x07, 0x07]).tail
        = ([0x01] ++ t.afl_counter_b.toList
          ++ (if t.tpl_id_found then t.tpl_id_b.toList else t.dll_id_b.toList)
          ++ [0x07, 0x07, 0x07, 0x07, 0x07, 0x07, 0x07]).tail := by
  have hcfg : (cfg2.val <<< 8) ||| cfg1.val = cfg2.val * 256 + cfg1.val := shl8_or _ _ cfg1.isLt
  have hl2 := lt_of_getElem?_eq_some _ _ _ h2
  have hb2 : hasBytes 2 pos t.frame = true := (hasBytes_iff _ _ _).2 (by omega)
  have hle2 : pos + 2 ≤ t.frame.length := by omega
  have hb1 : hasBytes 1 (pos + 2) t.frame = true := (hasBytes_iff _ _ _).2 (by omega)
  have hle3 : pos + 2 + 1 ≤ t.frame.length := by omega
  have hz : ¬ (cfg2.val * 256 + cfg1.val) &&& 0x1f00 = 0 := by
    intro h
    have := (and_1f00_eq_zero_iff _).1 h
    omega
  have hmode : fromIntToTPLSecurityMode (((cfg2.val * 256 + cfg1.val) >>> 8) &&& 0x1f)
      = .AES_CBC_NO_IV := by rw [hm]; rfl
  simp only [parseTPLConfig, hb2, h0, h1, hcfg, hz, hmode, addExplanationAndIncrementPos, hle2,
    Nat.add_zero, not_true_eq_false, if_false, ne_eq, not_false_eq_true, if_true,
    decide_True, h2, hb1, hle3, hkdf, hkey]
  cases hid : t.tpl_id_found <;>
    exact ⟨_, rfl, rfl, rfl, by simp [Bytes4.toList], by simp [Bytes4.toList], rfl, rfl, rfl⟩

/-- Witness for C8: config word `10 07`, extension byte `10` and a sixteen byte key. -/
theorem parseTPLConfig_derives_keys_witness :
    ∃ t', parseTPLConfig stubCrypto
        { frame := [0x10, 0x07, 0x10],
          meter_keys := { confidentiality_key := List.replicate 16 0x11 } } 0
        = some (true, t', 0 + 3) ∧
      t'.tpl_sec_mode = .AES_CBC_NO_IV ∧ t'.tpl_kdf_selection = 1 ∧
      t'.tpl_generated_key = List.replicate 16 0 ∧
      t'.tpl_generated_mac_key = List.replicate 16 0 := by
  obtain ⟨t', h, hs, hk, he, hmk, _, _, _⟩ := parseTPLConfig_derives_keys stubCrypto
    { frame := [0x10, 0x07, 0x10],
      meter_keys := { confidentiality_key := List.replicate 16 0x11 } } 0 0x10 0x07 0x10
    rfl rfl rfl (by decide) (by decide) (by decide)
  exact ⟨t', h, hs, hk, he, hmk⟩

/-! ## The VIF scale table -/

/-- On the codes 0..127 `vifScale` is the table lookup. -/
theorem vifScale_low (t : Nat) (ht : t < 128) :
    vifScale t = (vifScaleTable.lookup t).getD (-1) := by
  have h1 : Int.land (t : Int) 0x7f = ((t &&& 0x7f : Nat) : Int) := rfl
  have h2 : t &&& 0x7f = t := by
    have := Nat.and_pow_two_sub_one_eq_mod t 7
    simp at this
    omega
  simp [vifScale, h1, h2]

/-- The value of `vifScale` depends on the low seven bits only. -/
theorem vifScale_mask (vif : Nat) : vifScale vif = vifScale ((vif &&& 0x7f : Nat) : Int) := by
  have h1 : ∀ n : Nat, Int.land (n : Int) 0x7f = ((n &&& 0x7f : Nat) : Int) := fun _ => rfl
  have h2 : (vif &&& 0x7f) &&& 0x7f = vif &&& 0x7f := by
    rw [Nat.and_assoc]; rfl
  simp only [vifScale, h1, h2]

/-- The energy rows 0x00..0x07 hold the powers of ten from 10^6 down to 10^-1. -/
theorem vifScale_energy (k : Fin 8) : vifScale k.val = (10 : ℚ) ^ ((6 : ℤ) - (k.val : ℤ)) := by
  rw [vifScale_low k.val (by omega)]
  fin_cases k <;> simp [vifScaleTable, List.lookup] <;> norm_num

/-- C11, counterexample. The raw value 12345 multiplied by `vifScale 0x04` is 1234500, which is
neither `12345 * 10^(4-6)` nor 123.45. -/
theorem vifScale_times_raw_counterexample :
    (12345 : ℚ) * vifScale 0x04 ≠ 12345 * (10 : ℚ) ^ ((4 : ℤ) - 6) ∧
    (12345 : ℚ) * vifScale 0x04 ≠ 123.45 := by
  have h4 : vifScale 0x04 = (10 : ℚ) ^ ((6 : ℤ) - 4) := vifScale_energy 4
  rw [h4]
  constructor <;> norm_num

/-- C11, amended. For every k in 0..7, `vifScale k = 10^(6-k)` is the number of raw units in one
kWh, the divisor that converts a raw value to kWh: for every raw value r,
`r / vifScale k = r * 10^(k-6)`, as exact rationals; in particular VIF 0x04 with raw value 12345
gives `12345 / 100 = 123.45` kWh. -/
theorem vifScale_energy_divisor (k : Fin 8) (r : ℚ) :
    vifScale k.val = (10 : ℚ) ^ ((6 : ℤ) - (k.val : ℤ)) ∧
    r / vifScale k.val = r * (10 : ℚ) ^ ((k.val : ℤ) - 6) ∧
    (12345 : ℚ) / vifScale 0x04 = 123.45 := by
  refine ⟨vifScale_energy k, ?_, ?_⟩
  · rw [vifScale_energy k, div_eq_mul_inv, ← zpow_neg]
    congr 2
    ring
  · have h4 : vifScale 0x04 = (10 : ℚ) ^ ((6 : ℤ) - 4) := vifScale_energy 4
    rw [h4]
    norm_num

set_option maxHeartbeats 4000000 in
/-- The sign of `vifScale` on the codes 0..127. -/
theorem vifScale_sign (t : Nat) (ht : t < 128) :
    (vifScale t = -1 ↔ (t = 0x6C ∨ t = 0x6D ∨ t = 0x6F ∨ 0x78 ≤ t)) ∧
    (¬ (t = 0x6C ∨ t = 0x6D ∨ t = 0x6F ∨ 0x78 ≤ t) → 0 < vifScale t) := by
  rw [vifScale_low t ht]
  interval_cases t <;> simp [vifScaleTable, List.lookup] <;> norm_num

/-- C13. The date codes are not scaled, `vifScale 0x6C = vifScale 0x6D = -1`; for every vif in
0..255 with `t = vif & 0x7f`, `vifScale vif = -1` exactly when t is 0x6C, 0x6D or 0x6F or
`0x78 <= t <= 0x7F`, and `vifScale vif` is strictly positive for every other t. -/
theorem vifScale_no_scale_codes (vif : uchar) :
    vifScale 0x6C = -1 ∧ vifScale 0x6D = -1 ∧
    (vifScale vif.val = -1 ↔
      (vif.val &&& 0x7f = 0x6C ∨ vif.val &&& 0x7f = 0x6D ∨ vif.val &&& 0x7f = 0x6F ∨
        (0x78 ≤ vif.val &&& 0x7f ∧ vif.val &&& 0x7f ≤ 0x7F))) ∧
    (¬ (vif.val &&& 0x7f = 0x6C ∨ vif.val &&& 0x7f = 0x6D ∨ vif.val &&& 0x7f = 0x6F ∨
        (0x78 ≤ vif.val &&& 0x7f ∧ vif.val &&& 0x7f ≤ 0x7F)) → 0 < vifScale vif.val) := by
  have hlt : vif.val &&& 0x7f < 128 := by
    have := @Nat.and_le_right vif.val 0x7f
    omega
  have hs := vifScale_sign (vif.val &&& 0x7f) hlt
  rw [vifScale_mask vif.val]
  refine ⟨((vifScale_sign 0x6C (by decide)).1).2 (Or.inl rfl),
    ((vifScale_sign 0x6D (by decide)).1).2 (Or.inr (Or.inl rfl)), ?_, ?_⟩
  · rw [hs.1]
    constructor
    · rintro (h | h | h | h)
      · exact Or.inl h
      · exact Or.inr (Or.inl h)
      · exact Or.inr (Or.inr (Or.inl h))
      · exact Or.inr (Or.inr (Or.inr ⟨h, by omega⟩))
    · rintro (h | h | h | h)
      · exact Or.inl h
      · exact Or.inr (Or.inl h)
      · exact Or.inr (Or.inr (Or.inl h))
      · exact Or.inr (Or.inr (Or.inr h.1))
  · intro hn
    apply hs.2
    rintro (h | h | h | h)
    · exact hn (Or.inl h)
    · exact hn (Or.inr (Or.inl h))
    · exact hn (Or.inr (Or.inr (Or.inl h)))
    · exact hn (Or.inr (Or.inr (Or.inr ⟨h, by omega⟩)))

/-! ## Keys and units -/

/-- C12, counterexample. The codes 0x00 and 0x08 have the same key, `energy`, which is not
`unknown`, and different units, `kwh` and `MJ`. -/
theorem vifUnit_not_function_of_vifKey :
    vifKey 0x00 = vifKey 0x08 ∧ vifKey 0x00 ≠ "unknown" ∧ vifUnit 0x00 ≠ vifUnit 0x08 ∧
    vifKey 0x00 = "energy" ∧ vifUnit 0x00 = "kwh" ∧ vifUnit 0x08 = "MJ" := by
  decide

set_option maxRecDepth 1000000 in
/-- The unit is determined by the key for the keys other than unknown, energy and power. -/
theorem vifUnit_eq_of_vifKey_eq : ∀ v1 : Fin 128, ∀ v2 : Fin 128,
    vifKey v1.val = vifKey v2.val → vifKey v1.val ≠ "unknown" → vifKey v1.val ≠ "energy" →
    vifKey v1.val ≠ "power" → vifUnit v1.val = vifUnit v2.val := by
  decide

/-- C12, amended. For any two VIF codes v1, v2 in 0x00..0x7F with `vifKey v1 = vifKey v2` and
that key none of `unknown`, `energy` and `power`, `vifUnit v1 = vifUnit v2`. The key `energy` has
two units: a code with this key has unit `kwh` when it is one of the Wh codes 0x00..0x07 and unit
`MJ` when it is one of the J codes 0x08..0x0F. The W codes 0x28..0x2F have key `power` and unit
`kw`. -/
theorem vifUnit_determined_by_vifKey (v1 v2 : Fin 128) :
    (vifKey v1.val = vifKey v2.val → vifKey v1.val ≠ "unknown" → vifKey v1.val ≠ "energy" →
      vifKey v1.val ≠ "power" → vifUnit v1.val = vifUnit v2.val) ∧
    (vifKey v1.val = "energy" →
      (v1.val ≤ 0x07 ∧ vifUnit v1.val = "kwh") ∨
      (0x08 ≤ v1.val ∧ v1.val ≤ 0x0F ∧ vifUnit v1.val = "MJ")) ∧
    (0x28 ≤ v1.val → v1.val ≤ 0x2F → vifKey v1.val = "power" ∧ vifUnit v1.val = "kw") := by
  refine ⟨vifUnit_eq_of_vifKey_eq v1 v2, ?_, ?_⟩
  · revert v1
    decide
  · revert v1
    decide

/-- Witness for C12: the volume codes 0x10 and 0x13 share the key `volume` and the unit `m3`. -/
theorem vifUnit_determined_by_vifKey_witness :
    vifKey 0x10 = vifKey 0x13 ∧ vifKey 0x10 = "volume" ∧ vifUnit 0x10 = vifUnit 0x13 :=
  ⟨by decide, by decide,
    (vifUnit_determined_by_vifKey 0x10 0x13).1 (by decide) (by decide) (by decide) (by decide)⟩

/-! ## The binary and BCD decoders -/

/-- C14, the code at the failing input. For the four data bytes `39 30 00 00`, whose
little-endian value is 12345, `toDoubleFromBytes` computes `57*(256 xor 0) + 48*(256 xor 1)
= 26928`, and so does `dataAsDouble` for the DIF 0x04. -/
theorem toDoubleFromBytes_of_12345 :
    toDoubleFromBytes [0x39, 0x30, 0x00, 0x00] 4 = some 26928 ∧
    dataAsDouble 0x04 0x04 0 [0x39, 0x30, 0x00, 0x00] = some 26928 ∧
    (0x39 + 0x30 * 256 ^ 1 + 0x00 * 256 ^ 2 + 0x00 * 256 ^ 3 : ℚ) = 12345 := by
  have h : toDoubleFromBytes [0x39, 0x30, 0x00, 0x00] 4 = some 26928 := by
    simp [toDoubleFromBytes, toDoubleFromBytesStep, List.range_succ,
      show ((0x39 : uchar) : ℕ) = 57 from rfl, show ((0x30 : uchar) : ℕ) = 48 from rfl]
    norm_num
  refine ⟨h, ?_, by norm_num⟩
  have ht : Int.land 0x04 0x0f = 4 := by decide
  simp only [dataAsDouble, ht]
  norm_num [h]

/-- The one byte case of `toDoubleFromBytes`: the byte is multiplied by `256 xor 0 = 256`. -/
theorem toDoubleFromBytes_one (b : uchar) : toDoubleFromBytes [b] 1 = some (256 * (b.val : ℚ)) := by
  simp [toDoubleFromBytes, toDoubleFromBytesStep, List.range_succ]
  ring

/-- C15, the code at the failing input. For the single byte `01` and width 1,
`toDoubleFromBytes` returns 256, not 1; in general it returns 256 times the byte. -/
theorem toDoubleFromBytes_width_one :
    toDoubleFromBytes [0x01] 1 = some 256 ∧
    ∀ b : uchar, toDoubleFromBytes [b] 1 = some (256 * (b.val : ℚ)) := by
  refine ⟨?_, toDoubleFromBytes_one⟩
  rw [toDoubleFromBytes_one, show ((0x01 : uchar) : ℕ) = 1 from rfl]
  norm_num

/-- C16, the code at the failing input. For the BCD byte `12` and width 1, `toDoubleFromBCD`
returns `2*(10 xor 0) + 1*(10 xor 1) = 31`, not the decimal number 12. -/
theorem toDoubleFromBCD_of_12 :
    toDoubleFromBCD [0x12] 1 = some 31 ∧
    ((0x12 &&& 0x0f : Nat) : ℚ) * 10 ^ 0 + ((0x12 >>> 4 : Nat) : ℚ) * 10 ^ 1 = 12 := by
  constructor
  · simp [toDoubleFromBCD, toDoubleFromBCDStep, List.range_succ,
      show ((0x12 : uchar) : ℕ) = 18 from rfl]
    norm_num [show ((18 : ℕ) &&& 15) = 2 from rfl]
  · have h1 : (0x12 &&& 0x0f : Nat) = 2 := by decide
    have h2 : (0x12 >>> 4 : Nat) = 1 := by decide
    rw [h1, h2]
    norm_num

/-- The loop of `toDoubleFromBCD` keeps the accumulator non-negative. -/
theorem foldl_toDoubleFromBCDStep_nonneg (bytes : List uchar) :
    ∀ (is : List Nat) (d0 : ℚ), 0 ≤ d0 → (∀ i ∈ is, i < bytes.length) →
      ∃ d, is.foldl (toDoubleFromBCDStep bytes) (some d0) = some d ∧ 0 ≤ d := by
  intro is
  induction is with
  | nil => intro d0 h0 _; exact ⟨d0, rfl, h0⟩
  | cons i is ih =>
    intro d0 h0 hall
    have hi : i < bytes.length := hall i (List.mem_cons_self _ _)
    rw [List.foldl_cons]
    simp only [toDoubleFromBCDStep, List.getElem?_eq_getElem hi]
    apply ih
    · positivity
    · intro j hj
      exact hall j (List.mem_cons_of_mem _ hj)

/-- C17, counterexample. The byte `F1` has high nibble 0xF and the non-zero decimal digit 1 as its
other nibble; `toDoubleFromBCD` returns `1*10 + 15*11 = 175` for it, which is not negative. -/
theorem toDoubleFromBCD_top_nibble_F_not_negative :
    (0xF1 : Nat) >>> 4 = 0xF ∧ (0xF1 : Nat) &&& 0x0f = 1 ∧
    ∃ d, toDoubleFromBCD [0xF1] 1 = some d ∧ d = 175 ∧ ¬ d < 0 := by
  refine ⟨by decide, by decide, 175, ?_, rfl, by norm_num⟩
  simp [toDoubleFromBCD, toDoubleFromBCDStep, List.range_succ,
    show ((0xF1 : uchar) : ℕ) = 241 from rfl]
  norm_num [show ((241 : ℕ) &&& 15) = 1 from rfl]

/-- C17, amended. `toDoubleFromBCD` applies no sign convention: for every length and every byte
vector with at least that many bytes, those whose top byte has the high nibble 0xF included, it
returns a value and this value is not negative. -/
theorem toDoubleFromBCD_nonneg (bytes : List uchar) (len : Nat) (hlen : len ≤ bytes.length) :
    ∃ d, toDoubleFromBCD bytes len = some d ∧ 0 ≤ d := by
  unfold toDoubleFromBCD
  apply foldl_toDoubleFromBCDStep_nonneg bytes _ 0 (le_refl 0)
  intro i hi
  have := List.mem_range.1 hi
  simp only [Int.toNat_ofNat] at this
  omega

/-- Witness for C17: the three byte vector `56 34 F2`, whose top byte has the high nibble 0xF. -/
theorem toDoubleFromBCD_nonneg_witness :
    ∃ d, toDoubleFromBCD [0x56, 0x34, 0xF2] 3 = some d ∧ 0 ≤ d :=
  toDoubleFromBCD_nonneg [0x56, 0x34, 0xF2] 3 (by decide)

/-! ## The manufacturer flag -/

/-- The numbers 0..127 are the codes of the characters `Char.ofNat` makes of them. -/
theorem toNat_ofNat_small : ∀ n : Fin 128, (Char.ofNat n.val).toNat = n.val := by
  decide

/-- C18. For every `m_field >= 0`, `manufacturerFlag m_field` is the string of three characters
with the codes `(m_field / 1024) mod 32 + 64`, `(m_field / 32) mod 32 + 64` and
`m_field mod 32 + 64`, in this order; in particular `manufacturerFlag 0x2C2D = "KAM"`. -/
theorem manufacturerFlag_letters (m_field : Nat) :
    (∃ a b c : Char, manufacturerFlag m_field = String.mk [a, b, c] ∧
      a.toNat = (m_field / 1024) % 32 + 64 ∧ b.toNat = (m_field / 32) % 32 + 64 ∧
      c.toNat = m_field % 32 + 64) ∧
    manufacturerFlag 0x2C2D = "KAM" := by
  refine ⟨⟨Char.ofNat ((m_field / 1024) % 32 + 64), Char.ofNat ((m_field / 32) % 32 + 64),
    Char.ofNat (m_field % 32 + 64), rfl, ?_, ?_, ?_⟩, by decide⟩
  · exact toNat_ofNat_small ⟨(m_field / 1024) % 32 + 64, by omega⟩
  · exact toNat_ofNat_small ⟨(m_field / 32) % 32 + 64, by omega⟩
  · exact toNat_ofNat_small ⟨m_field % 32 + 64, by omega⟩

/-- C19. Round trip of the manufacturer flag: for all characters a, b, c with codes in 65..95
(`A` to `_`), `manufacturerFlag ((a-64)*1024 + (b-64)*32 + (c-64))` is the string `a b c`. -/
theorem manufacturerFlag_round_trip (a b c : Char)
    (ha : 65 ≤ a.toNat ∧ a.toNat ≤ 95) (hb : 65 ≤ b.toNat ∧ b.toNat ≤ 95)
    (hc : 65 ≤ c.toNat ∧ c.toNat ≤ 95) :
    manufacturerFlag (((a.toNat - 64) * 1024 + (b.toNat - 64) * 32 + (c.toNat - 64) : Nat) : Int)
      = String.mk [a, b, c] := by
  have h1 : ((a.toNat - 64) * 1024 + (b.toNat - 64) * 32 + (c.toNat - 64)) / 1024 % 32 + 64
      = a.toNat := by omega
  have h2 : ((a.toNat - 64) * 1024 + (b.toNat - 64) * 32 + (c.toNat - 64)) / 32 % 32 + 64
      = b.toNat := by omega
  have h3 : ((a.toNat - 64) * 1024 + (b.toNat - 64) * 32 + (c.toNat - 64)) % 32 + 64
      = c.toNat := by omega
  show String.mk [Char.ofNat (((a.toNat - 64) * 1024 + (b.toNat - 64) * 32 + (c.toNat - 64))
      / 1024 % 32 + 64), Char.ofNat (((a.toNat - 64) * 1024 + (b.toNat - 64) * 32
      + (c.toNat - 64)) / 32 % 32 + 64), Char.ofNat (((a.toNat - 64) * 1024
      + (b.toNat - 64) * 32 + (c.toNat - 64)) % 32 + 64)] = String.mk [a, b, c]
  rw [h1, h2, h3, Char.ofNat_toNat, Char.ofNat_toNat, Char.ofNat_toNat]

/-- Witness for C19: the letters K, A, M give the code 0x2C2D and are recovered from it. -/
theorem manufacturerFlag_round_trip_witness :
    (('K'.toNat - 64) * 1024 + ('A'.toNat - 64) * 32 + ('M'.toNat - 64) : Nat) = 0x2C2D ∧
    manufacturerFlag ((('K'.toNat - 64) * 1024 + ('A'.toNat - 64) * 32 + ('M'.toNat - 64) : Nat)
      : Int) = String.mk ['K', 'A', 'M'] :=
  ⟨by decide, manufacturerFlag_round_trip 'K' 'A' 'M' (by decide) (by decide) (by decide)⟩

/-! ## The payload CRC of the extended link layer -/

/-- A successful `addExplanationAndIncrementPos` advances the cursor by `len` inside the frame,
leaves the frame as it is and changes only `explanations` and `parsed`. -/
theorem addExplanation_some (t : Telegram) (pos len : Nat) (text : String) (t1 : Telegram)
    (p1 : Nat) (h : addExplanationAndIncrementPos t pos len text = some (t1, p1)) :
    p1 = pos + len ∧ t1.frame = t.frame ∧ pos + len ≤ t.frame.length ∧
    t1 = { t with explanations := t.explanations ++ [(t.parsed.length, vsnprintf1023 text)],
                  parsed := t.parsed ++ (t.frame.drop pos).take len } := by
  unfold addExplanationAndIncrementPos at h
  by_cases hle : pos + len ≤ t.frame.length
  · rw [if_pos hle] at h
    simp only [Option.some.injEq, Prod.mk.injEq] at h
    obtain ⟨h1, h2⟩ := h
    subst h1 h2
    exact ⟨rfl, rfl, hle, rfl⟩
  · rw [if_neg hle] at h
    exact Option.noConfusion h

/-- The outcome true of the CRC check of `parseELL`: the cursor has advanced by 2, the two bytes
at the old cursor are in the frame, their little-endian value is stored in `ell_pl_crc` and it is
the checksum of the bytes that follow them. -/
theorem payload_crc_true (ops : LinkOps) (t : Telegram) (pos : Nat) (t' : Telegram) (pos' : Nat)
    (h : parseELL_payload_crc ops t pos = some (true, t', pos')) :
    pos' = pos + 2 ∧ t'.frame = t.frame ∧ t'.ell_sec_mode = t.ell_sec_mode ∧
    ∃ c0 c1 : uchar, t.frame[pos]? = some c0 ∧ t.frame[pos + 1]? = some c1 ∧
      t'.ell_pl_crc = c1.val * 256 + c0.val ∧
      t'.ell_pl_crc = (ops.crc16_EN13757 (t.frame.drop (pos + 2))).val := by
  unfold parseELL_payload_crc at h
  split at h
  · exact Option.noConfusion h
  split at h
  · exact Option.noConfusion h
  rename_i c0 hc0 _ c1 hc1
  simp only at h
  generalize htxt : (fmt02x c0.val ++ fmt02x c1.val ++ " payload crc (calculated "
      ++ fmt02x ((ops.crc16_EN13757 (t.frame.drop (pos + 2))).val &&& 0xff)
      ++ fmt02x ((ops.crc16_EN13757 (t.frame.drop (pos + 2))).val >>> 8) ++ " "
      ++ (if (c1.val <<< 8) ||| c0.val = (ops.crc16_EN13757 (t.frame.drop (pos + 2))).val
          then "OK" else "ERROR") ++ ")") = txt at h
  split at h
  · exact Option.noConfusion h
  rename_i t2 p2 heq2
  obtain ⟨hp2, hf2, _, ht2⟩ := addExplanation_some _ _ _ _ _ _ heq2
  subst hp2
  have hcrc2 : t2.ell_pl_crc = (c1.val <<< 8) ||| c0.val := by rw [ht2]
  have hmode2 : t2.ell_sec_mode = t.ell_sec_mode := by rw [ht2]
  split at h
  · simp at h
  rename_i hne
  simp only [ne_eq, not_not] at hne
  simp only [Option.some.injEq, Prod.mk.injEq, true_and] at h
  obtain ⟨ht, hp⟩ := h
  subst ht hp
  simp only at hf2
  refine ⟨rfl, hf2, hmode2, c0, c1, by simpa using hc0, hc1, ?_, hne⟩
  rw [hcrc2]; exact shl8_or _ _ c0.isLt

/-- The CRC check of `parseELL` returns a result when two bytes remain at the cursor. -/
theorem payload_crc_returns (ops : LinkOps) (t : Telegram) (pos : Nat)
    (hlen : pos + 2 ≤ t.frame.length) :
    ∃ ok t' pos', parseELL_payload_crc ops t pos = some (ok, t', pos') := by
  have h0 : pos < t.frame.length := by omega
  have h1 : pos + 1 < t.frame.length := by omega
  simp only [parseELL_payload_crc, Nat.add_zero, List.getElem?_eq_getElem h0,
    List.getElem?_eq_getElem h1, addExplanationAndIncrementPos, hlen, if_true]
  split_ifs <;> exact ⟨_, _, _, rfl⟩

/-- The outcome true of the decryption and CRC part of `parseELL`. The frame is the one the part
was given unless the security mode is AES-CTR. -/
theorem payload_true (ops : LinkOps) (t : Telegram) (pos : Nat) (t' : Telegram) (pos' : Nat)
    (h : parseELL_payload ops t pos = some (true, t', pos')) :
    pos' = pos + 2 ∧ t'.ell_sec_mode = t.ell_sec_mode ∧
    (∃ c0 c1 : uchar, t'.frame[pos]? = some c0 ∧ t'.frame[pos + 1]? = some c1 ∧
      t'.ell_pl_crc = c1.val * 256 + c0.val ∧
      t'.ell_pl_crc = (ops.crc16_EN13757 (t'.frame.drop (pos + 2))).val) ∧
    (t.ell_sec_mode ≠ .AES_CTR → t'.frame = t.frame) ∧
    (t.ell_sec_mode = .AES_CTR →
      ops.decrypt_ELL_AES_CTR t pos t.meter_keys.confidentiality_key = (true, t'.frame)) := by
  unfold parseELL_payload at h
  generalize hr : (if t.ell_sec_mode = ELLSecurityMode.AES_CTR
    then ops.decrypt_ELL_AES_CTR t pos t.meter_keys.confidentiality_key
    else (true, t.frame)) = r at h
  obtain ⟨rok, rf⟩ := r
  cases rok
  · simp at h
  simp only [Bool.not_true, Bool.false_eq_true, if_false] at h
  obtain ⟨hp, hf, hmode, c0, c1, hc0, hc1, h1, h2⟩ := payload_crc_true _ _ _ _ _ h
  simp only at hf hc0 hc1 h2 hmode
  refine ⟨hp, hmode, ⟨c0, c1, ?_, ?_, h1, ?_⟩, ?_, ?_⟩
  · rw [hf]; exact hc0
  · rw [hf]; exact hc1
  · rw [hf]; exact h2
  · intro hm
    rw [if_neg hm] at hr
    rw [hf, ← (Prod.mk.inj hr).2]
  · intro hm
    rw [if_pos hm] at hr
    rw [hf, hr]

/-- The decryption and CRC part of `parseELL` returns a result when two bytes remain at the
cursor and the decryption keeps the length of the frame. -/
theorem payload_returns (ops : LinkOps) (t : Telegram) (pos : Nat)
    (hlen : pos + 2 ≤ t.frame.length)
    (hdec : ∀ (u : Telegram) (p : Nat) (k : List uchar),
      (ops.decrypt_ELL_AES_CTR u p k).2.length = u.frame.length) :
    ∃ ok t' pos', parseELL_payload ops t pos = some (ok, t', pos') := by
  unfold parseELL_payload
  have hl : (if t.ell_sec_mode = ELLSecurityMode.AES_CTR
    then ops.decrypt_ELL_AES_CTR t pos t.meter_keys.confidentiality_key
    else (true, t.frame)).2.length = t.frame.length := by
    split_ifs
    · exact hdec _ _ _
    · rfl
  generalize (if t.ell_sec_mode = ELLSecurityMode.AES_CTR
    then ops.decrypt_ELL_AES_CTR t pos t.meter_keys.confidentiality_key
    else (true, t.frame)) = r at hl
  obtain ⟨rok, rf⟩ := r
  cases rok
  · exact ⟨_, _, _, rfl⟩
  · simp only [Bool.not_true, Bool.false_eq_true, if_false]
    apply payload_crc_returns
    simp only at hl ⊢
    omega

/-- The outcome true of the session number block of `parseELL`: the cursor has advanced by 6,
the two bytes after the session number are in the frame the block leaves and their
little-endian value, stored in `ell_pl_crc`, is the checksum of the bytes that follow them. The
frame is the one the block was given unless the security mode is AES-CTR. -/
theorem session_number_true (ops : LinkOps) (t : Telegram) (pos : Nat)
    (t' : Telegram) (pos' : Nat)
    (h : parseELL_session_number ops t pos = some (true, t', pos')) :
    pos' = pos + 6 ∧
    (∃ c0 c1 : uchar, t'.frame[pos + 4]? = some c0 ∧ t'.frame[pos + 5]? = some c1 ∧
      t'.ell_pl_crc = c1.val * 256 + c0.val ∧
      t'.ell_pl_crc = (ops.crc16_EN13757 (t'.frame.drop (pos + 6))).val) ∧
    (t'.ell_sec_mode ≠ .AES_CTR → t'.frame = t.frame) ∧
    (t'.ell_sec_mode = .AES_CTR → ∃ t1 : Telegram,
      t1.frame = t.frame ∧ t1.meter_keys = t.meter_keys ∧
      ops.decrypt_ELL_AES_CTR t1 (pos + 4) t1.meter_keys.confidentiality_key
        = (true, t'.frame)) := by
  unfold parseELL_session_number at h
  split at h
  · exact Option.noConfusion h
  split at h
  · exact Option.noConfusion h
  split at h
  · exact Option.noConfusion h
  split at h
  · exact Option.noConfusion h
  simp only at h
  split at h
  · exact Option.noConfusion h
  rename_i t1 p1 heq1
  obtain ⟨hp1, hf1, _, ht1⟩ := addExplanation_some _ _ _ _ _ _ heq1
  subst hp1
  obtain ⟨hp, hmode, ⟨c0, c1, hc0, hc1, h1, h2⟩, hfr, hdc⟩ := payload_true _ _ _ _ _ h
  subst hp
  refine ⟨rfl, ⟨c0, c1, hc0, hc1, h1, h2⟩, ?_, ?_⟩
  · intro hm
    rw [hmode] at hm
    rw [hfr hm, hf1]
  · intro hm
    rw [hmode] at hm
    exact ⟨t1, hf1, by rw [ht1], hdc hm⟩

/-- The session number block of `parseELL` returns a result when six bytes remain at the cursor
and the decryption keeps the length of the frame. -/
theorem session_number_returns (ops : LinkOps) (t : Telegram) (pos : Nat)
    (hlen : pos + 6 ≤ t.frame.length)
    (hdec : ∀ (u : Telegram) (p : Nat) (k : List uchar),
      (ops.decrypt_ELL_AES_CTR u p k).2.length = u.frame.length) :
    ∃ ok t' pos', parseELL_session_number ops t pos = some (ok, t', pos') := by
  have h0 : pos < t.frame.length := by omega
  have h1 : pos + 1 < t.frame.length := by omega
  have h2 : pos + 2 < t.frame.length := by omega
  have h3 : pos + 3 < t.frame.length := by omega
  have hle4 : pos + 4 ≤ t.frame.length := by omega
  simp only [parseELL_session_number, Nat.add_zero, List.getElem?_eq_getElem h0,
    List.getElem?_eq_getElem h1, List.getElem?_eq_getElem h2, List.getElem?_eq_getElem h3,
    addExplanationAndIncrementPos, hle4, if_true]
  apply payload_returns _ _ _ _ hdec
  simp only
  omega

/-- A successful target address block of `parseELL` advances the cursor by 8 and leaves the
frame as it is. -/
theorem target_address_some (t : Telegram) (pos : Nat) (t1 : Telegram) (p1 : Nat)
    (h : parseELL_target_address t pos = some (t1, p1)) :
    p1 = pos + 8 ∧ t1.frame = t.frame ∧ t1.meter_keys = t.meter_keys := by
  unfold parseELL_target_address at h
  split at h
  · exact Option.noConfusion h
  split at h
  · exact Option.noConfusion h
  simp only at h
  split at h
  · exact Option.noConfusion h
  rename_i ta pa ha
  obtain ⟨hpa, hfa, _, hta⟩ := addExplanation_some _ _ _ _ _ _ ha
  subst hpa
  split at h
  · exact Option.noConfusion h
  split at h
  · exact Option.noConfusion h
  split at h
  · exact Option.noConfusion h
  split at h
  · exact Option.noConfusion h
  split at h
  · exact Option.noConfusion h
  rename_i tb pb hb
  obtain ⟨hpb, hfb, _, htb⟩ := addExplanation_some _ _ _ _ _ _ hb
  subst hpb
  split at h
  · exact Option.noConfusion h
  split at h
  · exact Option.noConfusion h
  rename_i tc pc hc
  obtain ⟨hpc, hfc, _, htc⟩ := addExplanation_some _ _ _ _ _ _ hc
  subst hpc
  split at h
  · exact Option.noConfusion h
  obtain ⟨hpd, hfd, _, htd⟩ := addExplanation_some _ _ _ _ _ _ h
  subst hpd
  refine ⟨by omega, ?_, ?_⟩
  · rw [hfd, hfc, hfb, hfa]
  · rw [htd, htc, htb, hta]

/-- A run of `parseELL` on an ELL with session number (CI 0x8D or 0x8F) that returns true is a
run of the session number block, entered with the frame unchanged after the 2 bytes CC and ACC
and, for CI 0x8F, the 8 bytes of the target address. -/
theorem parseELL_true_session (ops : LinkOps) (t : Telegram) (pos : Nat) (ci : uchar)
    (h0 : t.frame[pos]? = some ci) (hci : ci = 0x8D ∨ ci = 0x8F)
    (t' : Telegram) (pos' : Nat) (h : parseELL ops t pos = some (true, t', pos')) :
    ∃ t2, t2.frame = t.frame ∧ t2.meter_keys = t.meter_keys ∧
      parseELL_session_number ops t2 (pos + (ciFieldLength ci.val).toNat - 5)
        = some (true, t', pos') := by
  have hE1 : isCiFieldOfType (((0x8D : uchar).val : Nat) : Int) .ELL = true := by decide
  have hE2 : isCiFieldOfType (((0x8F : uchar).val : Nat) : Int) .ELL = true := by decide
  have hL1 : ciFieldLength (((0x8D : uchar).val : Nat) : Int) = 8 := by decide
  have hL2 : ciFieldLength (((0x8F : uchar).val : Nat) : Int) = 16 := by decide
  have hn1 : ¬ ((((0x8D : uchar).val : Nat) : Int) = 0x86) := by decide
  have hn2 : ¬ ((((0x8F : uchar).val : Nat) : Int) = 0x86) := by decide
  have ha1 : decide ((((0x8D : uchar).val : Nat) : Int) = 0x8E
      ∨ (((0x8D : uchar).val : Nat) : Int) = 0x8F) = false := by decide
  have ha2 : decide ((((0x8F : uchar).val : Nat) : Int) = 0x8E
      ∨ (((0x8F : uchar).val : Nat) : Int) = 0x8F) = true := by decide
  have hs1 : decide ((((0x8D : uchar).val : Nat) : Int) = 0x8D
      ∨ (((0x8D : uchar).val : Nat) : Int) = 0x8F) = true := by decide
  have hs2 : decide ((((0x8F : uchar).val : Nat) : Int) = 0x8D
      ∨ (((0x8F : uchar).val : Nat) : Int) = 0x8F) = true := by decide
  unfold parseELL at h
  simp only [h0] at h
  split at h
  · simp at h
  rcases hci with rfl | rfl
  · simp only [hE1, Bool.not_true, Bool.false_eq_true, if_false] at h
    split at h
    · exact Option.noConfusion h
    rename_i ta pa ha
    obtain ⟨hpa, hfa, _, hta⟩ := addExplanation_some _ _ _ _ _ _ ha
    subst hpa
    simp only [hL1] at h
    split at h
    · simp [expectedMore] at h
    split at h
    · exact Option.noConfusion h
    split at h
    · exact Option.noConfusion h
    rename_i tb pb hb
    obtain ⟨hpb, hfb, _, htb⟩ := addExplanation_some _ _ _ _ _ _ hb
    subst hpb
    split at h
    · exact Option.noConfusion h
    split at h
    · exact Option.noConfusion h
    rename_i tc pc hc
    obtain ⟨hpc, hfc, _, htc⟩ := addExplanation_some _ _ _ _ _ _ hc
    subst hpc
    have hci' : tc.ell_ci = (((0x8D : uchar).val : Nat) : Int) := by rw [htc, htb]
    rw [hci'] at h
    simp only [if_neg hn1, ha1, hs1, if_true, Bool.false_eq_true, if_false] at h
    refine ⟨tc, ?_, ?_, ?_⟩
    · rw [hfc, hfb, hfa]
    · rw [htc, htb, hta]
    · rw [hL1]
      exact h
  · simp only [hE2, Bool.not_true, Bool.false_eq_true, if_false] at h
    split at h
    · exact Option.noConfusion h
    rename_i ta pa ha
    obtain ⟨hpa, hfa, _, hta⟩ := addExplanation_some _ _ _ _ _ _ ha
    subst hpa
    simp only [hL2] at h
    split at h
    · simp [expectedMore] at h
    split at h
    · exact Option.noConfusion h
    split at h
    · exact Option.noConfusion h
    rename_i tb pb hb
    obtain ⟨hpb, hfb, _, htb⟩ := addExplanation_some _ _ _ _ _ _ hb
    subst hpb
    split at h
    · exact Option.noConfusion h
    split at h
    · exact Option.noConfusion h
    rename_i tc pc hc
    obtain ⟨hpc, hfc, _, htc⟩ := addExplanation_some _ _ _ _ _ _ hc
    subst hpc
    have hci' : tc.ell_ci = (((0x8F : uchar).val : Nat) : Int) := by rw [htc, htb]
    rw [hci'] at h
    simp only [if_neg hn2, ha2, hs2, if_true, Bool.false_eq_true, if_false] at h
    split at h
    · exact Option.noConfusion h
    rename_i td pd hd
    obtain ⟨hpd, hfd, hkd⟩ := target_address_some _ _ _ _ hd
    subst hpd
    refine ⟨td, ?_, ?_, ?_⟩
    · rw [hfd, hfc, hfb, hfa]
    · rw [hkd, htc, htb, hta]
    · rw [hL2]
      exact h

/-- The target address block of `parseELL` returns a result when eight bytes remain at the
cursor. -/
theorem target_address_returns (t : Telegram) (pos : Nat) (hlen : pos + 8 ≤ t.frame.length) :
    ∃ t1, parseELL_target_address t pos = some (t1, pos + 8) ∧ t1.frame = t.frame := by
  have h0 : pos < t.frame.length := by omega
  have h1 : pos + 1 < t.frame.length := by omega
  have h2 : pos + 2 < t.frame.length := by omega
  have h3 : pos + 2 + 1 < t.frame.length := by omega
  have h4 : pos + 2 + 2 < t.frame.length := by omega
  have h5 : pos + 2 + 3 < t.frame.length := by omega
  have h6 : pos + 2 + 4 < t.frame.length := by omega
  have h7 : pos + 2 + 4 + 1 < t.frame.length := by omega
  have l2 : pos + 2 ≤ t.frame.length := by omega
  have l6 : pos + 2 + 4 ≤ t.frame.length := by omega
  have l7 : pos + 2 + 4 + 1 ≤ t.frame.length := by omega
  have l8 : pos + 2 + 4 + 1 + 1 ≤ t.frame.length := by omega
  simp only [parseELL_target_address, Nat.add_zero, List.getElem?_eq_getElem h0,
    List.getElem?_eq_getElem h1, List.getElem?_eq_getElem h2, List.getElem?_eq_getElem h3,
    List.getElem?_eq_getElem h4, List.getElem?_eq_getElem h5, List.getElem?_eq_getElem h6,
    List.getElem?_eq_getElem h7,
    addExplanationAndIncrementPos, l2, l6, l7, l8, if_true]
  exact ⟨_, rfl, rfl⟩

/-- The target address block of `parseELL` reads outside the frame only when fewer than eight
bytes remain at the cursor. -/
theorem target_address_none (t : Telegram) (pos : Nat)
    (h : parseELL_target_address t pos = none) : t.frame.length < pos + 8 := by
  by_contra hc
  obtain ⟨t1, ht1, _⟩ := target_address_returns t pos (by omega)
  rw [ht1] at h
  exact Option.noConfusion h

/-- A run of `parseELL` on an ELL with session number (CI 0x8D or 0x8F) returns a result when
the decryption keeps the length of the frame. -/
theorem parseELL_session_returns (ops : LinkOps) (t : Telegram) (pos : Nat) (ci : uchar)
    (h0 : t.frame[pos]? = some ci) (hci : ci = 0x8D ∨ ci = 0x8F)
    (hdec : ∀ (u : Telegram) (p : Nat) (k : List uchar),
      (ops.decrypt_ELL_AES_CTR u p k).2.length = u.frame.length) :
    ∃ ok t' pos', parseELL ops t pos = some (ok, t', pos') := by
  have hE1 : isCiFieldOfType (((0x8D : uchar).val : Nat) : Int) .ELL = true := by decide
  have hE2 : isCiFieldOfType (((0x8F : uchar).val : Nat) : Int) .ELL = true := by decide
  have hL1 : ciFieldLength (((0x8D : uchar).val : Nat) : Int) = 8 := by decide
  have hL2 : ciFieldLength (((0x8F : uchar).val : Nat) : Int) = 16 := by decide
  have hn1 : ¬ ((((0x8D : uchar).val : Nat) : Int) = 0x86) := by decide
  have hn2 : ¬ ((((0x8F : uchar).val : Nat) : Int) = 0x86) := by decide
  have ha1 : decide ((((0x8D : uchar).val : Nat) : Int) = 0x8E
      ∨ (((0x8D : uchar).val : Nat) : Int) = 0x8F) = false := by decide
  have ha2 : decide ((((0x8F : uchar).val : Nat) : Int) = 0x8E
      ∨ (((0x8F : uchar).val : Nat) : Int) = 0x8F) = true := by decide
  have hs1 : decide ((((0x8D : uchar).val : Nat) : Int) = 0x8D
      ∨ (((0x8D : uchar).val : Nat) : Int) = 0x8F) = true := by decide
  have hs2 : decide ((((0x8F : uchar).val : Nat) : Int) = 0x8D
      ∨ (((0x8F : uchar).val : Nat) : Int) = 0x8F) = true := by decide
  have hlt : pos < t.frame.length := by
    by_contra hc
    rw [List.getElem?_eq_none (by omega)] at h0
    exact Option.noConfusion h0
  have hr0 : ¬ ((t.frame.length : Int) - (pos : Int) = 0) := by omega
  have l1 : pos + 1 ≤ t.frame.length := by omega
  unfold parseELL
  simp only [h0, if_neg hr0]
  rcases hci with rfl | rfl
  · by_cases hrem : (t.frame.length : Int) - (pos : Int) < 8 + 1
    · simp only [hE1, Bool.not_true, Bool.false_eq_true, if_false,
        addExplanationAndIncrementPos, l1, if_true, hL1, if_pos hrem]
      exact ⟨_, _, _, rfl⟩
    have h1 : pos + 1 < t.frame.length := by omega
    have h2 : pos + 1 + 1 < t.frame.length := by omega
    have l2 : pos + 1 + 1 ≤ t.frame.length := by omega
    have l3 : pos + 1 + 1 + 1 ≤ t.frame.length := by omega
    simp only [hE1, Bool.not_true, Bool.false_eq_true, if_false,
      addExplanationAndIncrementPos, l1, if_true, hL1, if_neg hrem,
      List.getElem?_eq_getElem h1, List.getElem?_eq_getElem h2, l2, l3,
      if_neg hn1, ha1, hs1]
    apply session_number_returns _ _ _ _ hdec
    simp only
    omega
  · by_cases hrem : (t.frame.length : Int) - (pos : Int) < 16 + 1
    · simp only [hE2, Bool.not_true, Bool.false_eq_true, if_false,
        addExplanationAndIncrementPos, l1, if_true, hL2, if_pos hrem]
      exact ⟨_, _, _, rfl⟩
    have h1 : pos + 1 < t.frame.length := by omega
    have h2 : pos + 1 + 1 < t.frame.length := by omega
    have l2 : pos + 1 + 1 ≤ t.frame.length := by omega
    have l3 : pos + 1 + 1 + 1 ≤ t.frame.length := by omega
    simp only [hE2, Bool.not_true, Bool.false_eq_true, if_false,
      addExplanationAndIncrementPos, l1, if_true, hL2, if_neg hrem,
      List.getElem?_eq_getElem h1, List.getElem?_eq_getElem h2, l2, l3,
      if_neg hn2, ha2, hs2]
    split
    · rename_i heq
      have hshort := target_address_none _ _ heq
      simp only at hshort
      omega
    · rename_i t1 p1 heq
      obtain ⟨hp, hf, _⟩ := target_address_some _ _ _ _ heq
      subst hp
      apply session_number_returns _ _ _ _ hdec
      rw [hf]
      simp only
      omega

/-- C20. For an extended link layer with session number (the byte at the cursor is the CI
0x8D or 0x8F, of length L = 8 or 16), `parseELL` returns true only with the cursor moved past
the L + 1 bytes of the layer and with the 16 bit little-endian value of the two bytes right
after the session number, which is stored in `ell_pl_crc`, equal to `crc16_EN13757` of all
frame bytes that follow these two bytes up to the end of the frame. The frame that is checked
is the frame given to the parser unless the security mode is AES-CTR, in which case it is the
frame that a successful `decrypt_ELL_AES_CTR` at the cursor after the session number left.
The parser returns a result on every such frame when the decryption keeps the length of the
frame, so on a mismatch of the CRC the result is false. -/
theorem parseELL_true_only_if_payload_crc_matches (ops : LinkOps) (t : Telegram) (pos : Nat)
    (ci : uchar) (h0 : t.frame[pos]? = some ci) (hci : ci = 0x8D ∨ ci = 0x8F) :
    (∀ t' pos', parseELL ops t pos = some (true, t', pos') →
      pos' = pos + (ciFieldLength ci.val).toNat + 1 ∧
      (∃ c0 c1 : uchar,
        t'.frame[pos + (ciFieldLength ci.val).toNat - 1]? = some c0 ∧
        t'.frame[pos + (ciFieldLength ci.val).toNat]? = some c1 ∧
        t'.ell_pl_crc = c1.val * 256 + c0.val ∧
        t'.ell_pl_crc = (ops.crc16_EN13757
          (t'.frame.drop (pos + (ciFieldLength ci.val).toNat + 1))).val) ∧
      (t'.ell_sec_mode ≠ .AES_CTR → t'.frame = t.frame) ∧
      (t'.ell_sec_mode = .AES_CTR → ∃ t1 : Telegram,
        t1.frame = t.frame ∧ t1.meter_keys = t.meter_keys ∧
        ops.decrypt_ELL_AES_CTR t1 (pos + (ciFieldLength ci.val).toNat - 1)
          t1.meter_keys.confidentiality_key = (true, t'.frame))) ∧
    ((∀ (u : Telegram) (p : Nat) (k : List uchar),
        (ops.decrypt_ELL_AES_CTR u p k).2.length = u.frame.length) →
      ∃ ok t' pos', parseELL ops t pos = some (ok, t', pos')) := by
  have hL : 8 ≤ (ciFieldLength ci.val).toNat := by
    rcases hci with rfl | rfl <;> decide
  refine ⟨?_, fun hdec => parseELL_session_returns ops t pos ci h0 hci hdec⟩
  intro t' pos' h
  obtain ⟨t2, hf2, hk2, hs⟩ := parseELL_true_session ops t pos ci h0 hci t' pos' h
  obtain ⟨hp, ⟨c0, c1, hc0, hc1, h1, h2⟩, hfr, hdc⟩ := session_number_true _ _ _ _ _ hs
  have e1 : pos + (ciFieldLength ci.val).toNat - 5 + 4 = pos + (ciFieldLength ci.val).toNat - 1 := by
    omega
  have e2 : pos + (ciFieldLength ci.val).toNat - 5 + 5 = pos + (ciFieldLength ci.val).toNat := by
    omega
  have e3 : pos + (ciFieldLength ci.val).toNat - 5 + 6
      = pos + (ciFieldLength ci.val).toNat + 1 := by
    omega
  rw [e1] at hc0 hdc
  rw [e2] at hc1
  rw [e3] at hp h2
  refine ⟨hp, ⟨c0, c1, hc0, hc1, h1, h2⟩, ?_, ?_⟩
  · intro hm
    rw [hfr hm, hf2]
  · intro hm
    obtain ⟨t1, hf1, hk1, hd1⟩ := hdc hm
    exact ⟨t1, by rw [hf1, hf2], by rw [hk1, hk2], hd1⟩

/-- Witness for C20: a frame with the ELL of CI 0x8D and stored payload CRC 0, parsed with the
stand-in routines (which compute the checksum 0): the premises of C20 hold, the parser returns
true and the cursor is moved past the 9 bytes of the layer. -/
theorem parseELL_true_only_if_payload_crc_matches_witness :
    (({ frame := [0x8D, 0x01, 0x02, 0, 0, 0, 0, 0, 0, 0x78] } : Telegram).frame[0]? = some 0x8D) ∧
    ((parseELL stubLinkOps { frame := [0x8D, 0x01, 0x02, 0, 0, 0, 0, 0, 0, 0x78] } 0).map
      (fun r => (r.1, r.2.2)) = some (true, 9)) ∧
    ((∀ t' pos', parseELL stubLinkOps { frame := [0x8D, 0x01, 0x02, 0, 0, 0, 0, 0, 0, 0x78] } 0
        = some (true, t', pos') →
      pos' = 0 + (ciFieldLength (0x8D : uchar).val).toNat + 1 ∧
      (∃ c0 c1 : uchar,
        t'.frame[0 + (ciFieldLength (0x8D : uchar).val).toNat - 1]? = some c0 ∧
        t'.frame[0 + (ciFieldLength (0x8D : uchar).val).toNat]? = some c1 ∧
        t'.ell_pl_crc = c1.val * 256 + c0.val ∧
        t'.ell_pl_crc = (stubLinkOps.crc16_EN13757
          (t'.frame.drop (0 + (ciFieldLength (0x8D : uchar).val).toNat + 1))).val) ∧
      (t'.ell_sec_mode ≠ .AES_CTR →
        t'.frame = ({ frame := [0x8D, 0x01, 0x02, 0, 0, 0, 0, 0, 0, 0x78] } : Telegram).frame) ∧
      (t'.ell_sec_mode = .AES_CTR → ∃ t1 : Telegram,
        t1.frame = ({ frame := [0x8D, 0x01, 0x02, 0, 0, 0, 0, 0, 0, 0x78] } : Telegram).frame ∧
        t1.meter_keys
          = ({ frame := [0x8D, 0x01, 0x02, 0, 0, 0, 0, 0, 0, 0x78] } : Telegram).meter_keys ∧
        stubLinkOps.decrypt_ELL_AES_CTR t1 (0 + (ciFieldLength (0x8D : uchar).val).toNat - 1)
          t1.meter_keys.confidentiality_key = (true, t'.frame))) ∧
    ((∀ (u : Telegram) (p : Nat) (k : List uchar),
        (stubLinkOps.decrypt_ELL_AES_CTR u p k).2.length = u.frame.length) →
      ∃ ok t' pos',
        parseELL stubLinkOps { frame := [0x8D, 0x01, 0x02, 0, 0, 0, 0, 0, 0, 0x78] } 0
          = some (ok, t', pos'))) :=
  ⟨rfl, by decide,
    parseELL_true_only_if_payload_crc_matches stubLinkOps
      { frame := [0x8D, 0x01, 0x02, 0, 0, 0, 0, 0, 0, 0x78] } 0 0x8D rfl (Or.inl rfl)⟩

/-! ## The CI field catalogue -/

/-- C23, counterexample. The CI field 0x51 is of the type TPL and is none of 0x72, 0x78, 0x79,
0x7A, 0xA2. -/
theorem isCiFieldOfType_TPL_0x51 :
    isCiFieldOfType 0x51 .TPL = true ∧
    ¬ ((0x51 : Int) = 0x72 ∨ (0x51 : Int) = 0x78 ∨ (0x51 : Int) = 0x79 ∨ (0x51 : Int) = 0x7A ∨
      (0x51 : Int) = 0xA2) := by
  decide

set_option maxRecDepth 100000 in
/-- C23, amended. For every ci in 0..255, `isCiFieldOfType ci TPL` is true if and only if ci
is one of 0x51, 0x72, 0x78, 0x79, 0x7A, 0xA2. -/
theorem isCiFieldOfType_TPL_iff (ci : uchar) :
    isCiFieldOfType ci.val .TPL = true ↔
      (ci = 0x51 ∨ ci = 0x72 ∨ ci = 0x78 ∨ ci = 0x79 ∨ ci = 0x7A ∨ ci = 0xA2) := by
  revert ci
  decide

/-- C24, counterexample. The table length of the long TPL header (CI 0x72) is 0, not 12, and
the lengths of the short (0x7A) and compact (0x79) headers are 0, not 4. -/
theorem ciFieldLength_TPL_not_header_length :
    ciFieldLength 0x72 = 0 ∧ ciFieldLength 0x72 ≠ 12 ∧
    ciFieldLength 0x7A ≠ 4 ∧ ciFieldLength 0x79 ≠ 4 := by
  decide

/-- C24, amended. `ciFieldLength` gives the ELL CIs 0x8C, 0x8D, 0x8E, 0x8F the byte lengths 2,
8, 10, 16 of their headers and gives each of the TPL CIs 0x72, 0x7A, 0x78, 0x79 the length
0. -/
theorem ciFieldLength_table :
    ciFieldLength 0x8C = 2 ∧ ciFieldLength 0x8D = 8 ∧ ciFieldLength 0x8E = 10 ∧
    ciFieldLength 0x8F = 16 ∧
    ciFieldLength 0x72 = 0 ∧ ciFieldLength 0x7A = 0 ∧ ciFieldLength 0x78 = 0 ∧
    ciFieldLength 0x79 = 0 := by
  decide

/-! ## The session number of the extended link layer -/

/-- The low bits of the complement: `ldiff` with a mask of m ones. -/
theorem ldiff_mask (m a : Nat) : Nat.ldiff (2 ^ m - 1) a = 2 ^ m - 1 - a % 2 ^ m := by
  apply Nat.eq_of_testBit_eq
  intro i
  have hlt : a % 2 ^ m < 2 ^ m := Nat.mod_lt _ (by positivity)
  have e : 2 ^ m - 1 - a % 2 ^ m = 2 ^ m - (a % 2 ^ m + 1) := by omega
  rw [Nat.testBit_ldiff, e, Nat.testBit_two_pow_sub_succ hlt, Nat.testBit_two_pow_sub_one,
    Nat.testBit_mod_two_pow]
  by_cases h : i < m <;> simp [h]

/-- Shift and mask of a non-negative `int`. -/
theorem land_shiftRight_ofNat (n k m : Nat) :
    Int.land (Int.shiftRight (n : Int) k) ((2 ^ m - 1 : Nat) : Int)
      = ((n / 2 ^ k % 2 ^ m : Nat) : Int) := by
  show ((((n >>> k) &&& (2 ^ m - 1) : Nat)) : Int) = _
  rw [Nat.and_pow_two_sub_one_eq_mod, Nat.shiftRight_eq_div_pow]

/-- Arithmetic shift and mask of a negative `int`. -/
theorem land_shiftRight_negSucc (n k m : Nat) :
    Int.land (Int.shiftRight (Int.negSucc n) k) ((2 ^ m - 1 : Nat) : Int)
      = ((2 ^ m - 1 - n / 2 ^ k % 2 ^ m : Nat) : Int) := by
  show ((Nat.ldiff (2 ^ m - 1) (n >>> k) : Nat) : Int) = _
  rw [ldiff_mask, Nat.shiftRight_eq_div_pow]

/-- The three fields cut out of the `int` that holds a 32 bit pattern u are the bits 0-3,
4-28 and 29-31 of u, also when the `int` is negative. -/
theorem toInt32_fields (u : Nat) (hu : u < 2 ^ 32) :
    Int.land (Int.shiftRight (toInt32 u) 0) 0x0f = ((u % 16 : Nat) : Int) ∧
    Int.land (Int.shiftRight (toInt32 u) 4) 0x1ffffff = ((u / 16 % 2 ^ 25 : Nat) : Int) ∧
    Int.land (Int.shiftRight (toInt32 u) 29) 0x7 = ((u / 2 ^ 29 : Nat) : Int) := by
  unfold toInt32
  rw [Nat.mod_eq_of_lt hu]
  have m4 : (0x0f : Int) = ((2 ^ 4 - 1 : Nat) : Int) := by norm_num
  have m25 : (0x1ffffff : Int) = ((2 ^ 25 - 1 : Nat) : Int) := by norm_num
  have m3 : (0x7 : Int) = ((2 ^ 3 - 1 : Nat) : Int) := by norm_num
  rw [m4, m25, m3]
  split_ifs with h
  · rw [land_shiftRight_ofNat, land_shiftRight_ofNat, land_shiftRight_ofNat]
    refine ⟨?_, ?_, ?_⟩ <;> congr 1 <;> omega
  · have e : (u : Int) - 2 ^ 32 = Int.negSucc (2 ^ 32 - 1 - u) := by
      rw [Int.negSucc_eq]
      omega
    rw [e, land_shiftRight_negSucc, land_shiftRight_negSucc, land_shiftRight_negSucc]
    refine ⟨?_, ?_, ?_⟩ <;> congr 1 <;> omega

/-- Shifting left distributes over the bitwise or. -/
theorem shiftLeft_or (a b i : Nat) : (a ||| b) <<< i = a <<< i ||| b <<< i := by
  apply Nat.eq_of_testBit_eq
  intro j
  simp only [Nat.testBit_shiftLeft, Nat.testBit_or]
  by_cases h : j ≥ i <;> simp [h]

/-- The value assembled from four bytes by shifts and ors is their little-endian value. -/
theorem or4_eq (s0 s1 s2 s3 : uchar) :
    (s3.val <<< 24) ||| (s2.val <<< 16) ||| (s1.val <<< 8) ||| s0.val
      = s0.val + 256 * s1.val + 65536 * s2.val + 16777216 * s3.val := by
  have e1 : s3.val <<< 24 = ((s3.val <<< 8) <<< 8) <<< 8 := by
    rw [← Nat.shiftLeft_add, ← Nat.shiftLeft_add]
  have e2 : s2.val <<< 16 = (s2.val <<< 8) <<< 8 := by
    rw [← Nat.shiftLeft_add]
  rw [e1, e2, ← shiftLeft_or, ← shiftLeft_or, ← shiftLeft_or,
    shl8_or _ s0.val s0.isLt, shl8_or _ s1.val s1.isLt, shl8_or _ s2.val s2.isLt]
  omega

/-- Any result of the CRC check of `parseELL` has the cursor advanced by 2 and the session
number members as they were. -/
theorem payload_crc_any (ops : LinkOps) (t : Telegram) (pos : Nat) (ok : Bool) (t' : Telegram)
    (pos' : Nat) (h : parseELL_payload_crc ops t pos = some (ok, t', pos')) :
    pos' = pos + 2 ∧
    (t'.ell_sn_b, t'.ell_sn, t'.ell_sn_session, t'.ell_sn_time, t'.ell_sn_sec, t'.ell_sec_mode)
      = (t.ell_sn_b, t.ell_sn, t.ell_sn_session, t.ell_sn_time, t.ell_sn_sec, t.ell_sec_mode) := by
  unfold parseELL_payload_crc at h
  split at h
  · exact Option.noConfusion h
  split at h
  · exact Option.noConfusion h
  rename_i c0 hc0 _ c1 hc1
  simp only at h
  generalize htxt : (fmt02x c0.val ++ fmt02x c1.val ++ " payload crc (calculated "
      ++ fmt02x ((ops.crc16_EN13757 (t.frame.drop (pos + 2))).val &&& 0xff)
      ++ fmt02x ((ops.crc16_EN13757 (t.frame.drop (pos + 2))).val >>> 8) ++ " "
      ++ (if (c1.val <<< 8) ||| c0.val = (ops.crc16_EN13757 (t.frame.drop (pos + 2))).val
          then "OK" else "ERROR") ++ ")") = txt at h
  split at h
  · exact Option.noConfusion h
  rename_i t2 p2 heq2
  obtain ⟨hp2, _, _, ht2⟩ := addExplanation_some _ _ _ _ _ _ heq2
  subst hp2
  split at h
  · simp only [Option.some.injEq, Prod.mk.injEq] at h
    obtain ⟨_, ht, hp⟩ := h
    subst ht hp
    exact ⟨rfl, by rw [ht2]⟩
  · simp only [Option.some.injEq, Prod.mk.injEq] at h
    obtain ⟨_, ht, hp⟩ := h
    subst ht hp
    exact ⟨rfl, by rw [ht2]⟩

/-- Any result of the decryption and CRC part of `parseELL` has a cursor that did not move
back and the session number members as they were. -/
theorem payload_any (ops : LinkOps) (t : Telegram) (pos : Nat) (ok : Bool) (t' : Telegram)
    (pos' : Nat) (h : parseELL_payload ops t pos = some (ok, t', pos')) :
    pos ≤ pos' ∧
    (t'.ell_sn_b, t'.ell_sn, t'.ell_sn_session, t'.ell_sn_time, t'.ell_sn_sec, t'.ell_sec_mode)
      = (t.ell_sn_b, t.ell_sn, t.ell_sn_session, t.ell_sn_time, t.ell_sn_sec, t.ell_sec_mode) := by
  unfold parseELL_payload at h
  generalize (if t.ell_sec_mode = ELLSecurityMode.AES_CTR
    then ops.decrypt_ELL_AES_CTR t pos t.meter_keys.confidentiality_key
    else (true, t.frame)) = r at h
  obtain ⟨rok, rf⟩ := r
  cases rok
  · simp only [Bool.not_false, if_true, Option.some.injEq, Prod.mk.injEq] at h
    obtain ⟨_, ht, hp⟩ := h
    subst ht hp
    exact ⟨le_refl _, rfl⟩
  · simp only [Bool.not_true, Bool.false_eq_true, if_false] at h
    obtain ⟨hp, hsn⟩ := payload_crc_any _ _ _ _ _ _ h
    exact ⟨by omega, hsn⟩

/-- Any result of the session number block of `parseELL`: the four bytes at the cursor are
in the frame and the session number members hold what the block computes from them. -/
theorem session_number_any (ops : LinkOps) (t : Telegram) (pos : Nat) (ok : Bool)
    (t' : Telegram) (pos' : Nat)
    (h : parseELL_session_number ops t pos = some (ok, t', pos')) :
    pos + 4 ≤ pos' ∧
    ∃ s0 s1 s2 s3 : uchar, t.frame[pos]? = some s0 ∧ t.frame[pos + 1]? = some s1 ∧
      t.frame[pos + 2]? = some s2 ∧ t.frame[pos + 3]? = some s3 ∧
      t'.ell_sn_b = { b0 := s0, b1 := s1, b2 := s2, b3 := s3 } ∧
      t'.ell_sn
        = toInt32 ((s3.val <<< 24) ||| (s2.val <<< 16) ||| (s1.val <<< 8) ||| s0.val) ∧
      t'.ell_sn_session = Int.land (Int.shiftRight t'.ell_sn 0) 0x0f ∧
      t'.ell_sn_time = Int.land (Int.shiftRight t'.ell_sn 4) 0x1ffffff ∧
      t'.ell_sn_sec = Int.land (Int.shiftRight t'.ell_sn 29) 0x7 ∧
      t'.ell_sec_mode = fromIntToELLSecurityMode t'.ell_sn_sec := by
  unfold parseELL_session_number at h
  split at h
  · exact Option.noConfusion h
  rename_i s0 hs0
  split at h
  · exact Option.noConfusion h
  rename_i s1 hs1
  split at h
  · exact Option.noConfusion h
  rename_i s2 hs2
  split at h
  · exact Option.noConfusion h
  rename_i s3 hs3
  simp only at h
  split at h
  · exact Option.noConfusion h
  rename_i t1 p1 heq1
  obtain ⟨hp1, _, _, ht1⟩ := addExplanation_some _ _ _ _ _ _ heq1
  subst hp1
  obtain ⟨hp, hsn⟩ := payload_any _ _ _ _ _ _ h
  simp only [Prod.mk.injEq] at hsn
  obtain ⟨e1, e2, e3, e4, e5, e6⟩ := hsn
  refine ⟨hp, s0, s1, s2, s3, by simpa using hs0, hs1, hs2, hs3, ?_, ?_, ?_, ?_, ?_, ?_⟩
  · rw [e1, ht1]
  · rw [e2, ht1]
  · rw [e3, e2, ht1]
  · rw [e4, e2, ht1]
  · rw [e5, e2, ht1]
  · rw [e6, e5, ht1]

/-! ## The extended link layer: which CI fields start it -/

/-- Any result of `parseELL` on a CI field of the type ELL has the cursor behind the CI
field. -/
theorem parseELL_consumes (ops : LinkOps) (t : Telegram) (pos : Nat) (ci : uchar)
    (h0 : t.frame[pos]? = some ci) (hE : isCiFieldOfType ci.val .ELL = true)
    (ok : Bool) (t' : Telegram) (pos' : Nat) (h : parseELL ops t pos = some (ok, t', pos')) :
    pos + 1 ≤ pos' := by
  have hlt := lt_of_getElem?_eq_some _ _ _ h0
  unfold parseELL at h
  simp only [h0] at h
  split at h
  · rename_i hr
    omega
  simp only [hE, Bool.not_true, Bool.false_eq_true, if_false] at h
  split at h
  · exact Option.noConfusion h
  rename_i ta pa ha
  obtain ⟨hpa, _, _, _⟩ := addExplanation_some _ _ _ _ _ _ ha
  subst hpa
  split at h
  · simp only [Option.some.injEq, Prod.mk.injEq] at h
    omega
  split at h
  · exact Option.noConfusion h
  split at h
  · exact Option.noConfusion h
  rename_i tb pb hb
  obtain ⟨hpb, _, _, _⟩ := addExplanation_some _ _ _ _ _ _ hb
  subst hpb
  split at h
  · exact Option.noConfusion h
  split at h
  · exact Option.noConfusion h
  rename_i tc pc hc
  obtain ⟨hpc, _, _, _⟩ := addExplanation_some _ _ _ _ _ _ hc
  subst hpc
  split at h
  · simp only [Option.some.injEq, Prod.mk.injEq] at h
    omega
  split at h
  · exact Option.noConfusion h
  rename_i td pd hd
  have hpd : pos + 1 ≤ pd := by
    split at hd
    · have := (target_address_some _ _ _ _ hd).1
      omega
    · simp only [Option.some.injEq, Prod.mk.injEq] at hd
      omega
  split at h
  · have := (session_number_any _ _ _ _ _ _ h).1
    omega
  · simp only [Option.some.injEq, Prod.mk.injEq] at h
    omega

/-- A run of `parseELL` on an ELL with session number (CI 0x8D or 0x8F) in a frame that
holds the whole layer is a run of the session number block, entered after the 2 bytes CC and
ACC and, for CI 0x8F, the 8 bytes of the target address. -/
theorem parseELL_session_run (ops : LinkOps) (t : Telegram) (pos : Nat) (ci : uchar)
    (h0 : t.frame[pos]? = some ci) (hci : ci = 0x8D ∨ ci = 0x8F)
    (hrem : ciFieldLength ci.val + 1 ≤ (t.frame.length : Int) - (pos : Int))
    (ok : Bool) (t' : Telegram) (pos' : Nat) (h : parseELL ops t pos = some (ok, t', pos')) :
    ∃ t2, t2.frame = t.frame ∧
      parseELL_session_number ops t2 (pos + (ciFieldLength ci.val).toNat - 5)
        = some (ok, t', pos') := by
  have hE1 : isCiFieldOfType (((0x8D : uchar).val : Nat) : Int) .ELL = true := by decide
  have hE2 : isCiFieldOfType (((0x8F : uchar).val : Nat) : Int) .ELL = true := by decide
  have hL1 : ciFieldLength (((0x8D : uchar).val : Nat) : Int) = 8 := by decide
  have hL2 : ciFieldLength (((0x8F : uchar).val : Nat) : Int) = 16 := by decide
  have hn1 : ¬ ((((0x8D : uchar).val : Nat) : Int) = 0x86) := by decide
  have hn2 : ¬ ((((0x8F : uchar).val : Nat) : Int) = 0x86) := by decide
  have ha1 : decide ((((0x8D : uchar).val : Nat) : Int) = 0x8E
      ∨ (((0x8D : uchar).val : Nat) : Int) = 0x8F) = false := by decide
  have ha2 : decide ((((0x8F : uchar).val : Nat) : Int) = 0x8E
      ∨ (((0x8F : uchar).val : Nat) : Int) = 0x8F) = true := by decide
  have hs1 : decide ((((0x8D : uchar).val : Nat) : Int) = 0x8D
      ∨ (((0x8D : uchar).val : Nat) : Int) = 0x8F) = true := by decide
  have hs2 : decide ((((0x8F : uchar).val : Nat) : Int) = 0x8D
      ∨ (((0x8F : uchar).val : Nat) : Int) = 0x8F) = true := by decide
  have hlt := lt_of_getElem?_eq_some _ _ _ h0
  unfold parseELL at h
  simp only [h0] at h
  split at h
  · rename_i hr
    omega
  rcases hci with rfl | rfl
  · rw [hL1] at hrem
    simp only [hE1, Bool.not_true, Bool.false_eq_true, if_false] at h
    split at h
    · exact Option.noConfusion h
    rename_i ta pa ha
    obtain ⟨hpa, hfa, _, hta⟩ := addExplanation_some _ _ _ _ _ _ ha
    subst hpa
    simp only [hL1] at h
    split at h
    · rename_i hc
      omega
    split at h
    · exact Option.noConfusion h
    split at h
    · exact Option.noConfusion h
    rename_i tb pb hb
    obtain ⟨hpb, hfb, _, htb⟩ := addExplanation_some _ _ _ _ _ _ hb
    subst hpb
    split at h
    · exact Option.noConfusion h
    split at h
    · exact Option.noConfusion h
    rename_i tc pc hc
    obtain ⟨hpc, hfc, _, htc⟩ := addExplanation_some _ _ _ _ _ _ hc
    subst hpc
    have hci' : tc.ell_ci = (((0x8D : uchar).val : Nat) : Int) := by rw [htc, htb]
    rw [hci'] at h
    simp only [if_neg hn1, ha1, hs1, if_true, Bool.false_eq_true, if_false] at h
    refine ⟨tc, ?_, ?_⟩
    · rw [hfc, hfb, hfa]
    · rw [hL1]
      exact h
  · rw [hL2] at hrem
    simp only [hE2, Bool.not_true, Bool.false_eq_true, if_false] at h
    split at h
    · exact Option.noConfusion h
    rename_i ta pa ha
    obtain ⟨hpa, hfa, _, hta⟩ := addExplanation_some _ _ _ _ _ _ ha
    subst hpa
    simp only [hL2] at h
    split at h
    · rename_i hc
      omega
    split at h
    · exact Option.noConfusion h
    split at h
    · exact Option.noConfusion h
    rename_i tb pb hb
    obtain ⟨hpb, hfb, _, htb⟩ := addExplanation_some _ _ _ _ _ _ hb
    subst hpb
    split at h
    · exact Option.noConfusion h
    split at h
    · exact Option.noConfusion h
    rename_i tc pc hc
    obtain ⟨hpc, hfc, _, htc⟩ := addExplanation_some _ _ _ _ _ _ hc
    subst hpc
    have hci' : tc.ell_ci = (((0x8F : uchar).val : Nat) : Int) := by rw [htc, htb]
    rw [hci'] at h
    simp only [if_neg hn2, ha2, hs2, if_true, Bool.false_eq_true, if_false] at h
    split at h
    · exact Option.noConfusion h
    rename_i td pd hd
    obtain ⟨hpd, hfd, _⟩ := target_address_some _ _ _ _ hd
    subst hpd
    refine ⟨td, ?_, ?_⟩
    · rw [hfd, hfc, hfb, hfa]
    · rw [hL2]
      exact h

/-- A run of `parseELL` on an ELL without session number (CI 0x8C, 0x8E or 0x86) returns a
result; for CI 0x86, whose table length is -1, when the bytes CC and ACC are in the frame. -/
theorem parseELL_plain_returns (ops : LinkOps) (t : Telegram) (pos : Nat) (ci : uchar)
    (h0 : t.frame[pos]? = some ci) (hci : ci = 0x8C ∨ ci = 0x8E ∨ ci = 0x86)
    (h86 : ci = 0x86 → pos + 3 ≤ t.frame.length) :
    ∃ ok t' pos', parseELL ops t pos = some (ok, t', pos') := by
  have hE1 : isCiFieldOfType (((0x8C : uchar).val : Nat) : Int) .ELL = true := by decide
  have hE2 : isCiFieldOfType (((0x8E : uchar).val : Nat) : Int) .ELL = true := by decide
  have hE3 : isCiFieldOfType (((0x86 : uchar).val : Nat) : Int) .ELL = true := by decide
  have hL1 : ciFieldLength (((0x8C : uchar).val : Nat) : Int) = 2 := by decide
  have hL2 : ciFieldLength (((0x8E : uchar).val : Nat) : Int) = 10 := by decide
  have hL3 : ciFieldLength (((0x86 : uchar).val : Nat) : Int) = -1 := by decide
  have hn1 : ¬ ((((0x8C : uchar).val : Nat) : Int) = 0x86) := by decide
  have hn2 : ¬ ((((0x8E : uchar).val : Nat) : Int) = 0x86) := by decide
  have hn3 : ((((0x86 : uchar).val : Nat) : Int) = 0x86) := by decide
  have ha1 : decide ((((0x8C : uchar).val : Nat) : Int) = 0x8E
      ∨ (((0x8C : uchar).val : Nat) : Int) = 0x8F) = false := by decide
  have ha2 : decide ((((0x8E : uchar).val : Nat) : Int) = 0x8E
      ∨ (((0x8E : uchar).val : Nat) : Int) = 0x8F) = true := by decide
  have hs1 : decide ((((0x8C : uchar).val : Nat) : Int) = 0x8D
      ∨ (((0x8C : uchar).val : Nat) : Int) = 0x8F) = false := by decide
  have hs2 : decide ((((0x8E : uchar).val : Nat) : Int) = 0x8D
      ∨ (((0x8E : uchar).val : Nat) : Int) = 0x8F) = false := by decide
  have hlt := lt_of_getElem?_eq_some _ _ _ h0
  have hr0 : ¬ ((t.frame.length : Int) - (pos : Int) = 0) := by omega
  have l1 : pos + 1 ≤ t.frame.length := by omega
  unfold parseELL
  simp only [h0, if_neg hr0]
  rcases hci with rfl | rfl | rfl
  · by_cases hrem : (t.frame.length : Int) - (pos : Int) < 2 + 1
    · simp only [hE1, Bool.not_true, Bool.false_eq_true, if_false,
        addExplanationAndIncrementPos, l1, if_true, hL1, if_pos hrem]
      exact ⟨_, _, _, rfl⟩
    have h1 : pos + 1 < t.frame.length := by omega
    have h2 : pos + 1 + 1 < t.frame.length := by omega
    have l2 : pos + 1 + 1 ≤ t.frame.length := by omega
    have l3 : pos + 1 + 1 + 1 ≤ t.frame.length := by omega
    simp only [hE1, Bool.not_true, Bool.false_eq_true, if_false,
      addExplanationAndIncrementPos, l1, if_true, hL1, if_neg hrem,
      List.getElem?_eq_getElem h1, List.getElem?_eq_getElem h2, l2, l3,
      if_neg hn1, ha1, hs1]
    exact ⟨_, _, _, rfl⟩
  · by_cases hrem : (t.frame.length : Int) - (pos : Int) < 10 + 1
    · simp only [hE2, Bool.not_true, Bool.false_eq_true, if_false,
        addExplanationAndIncrementPos, l1, if_true, hL2, if_pos hrem]
      exact ⟨_, _, _, rfl⟩
    have h1 : pos + 1 < t.frame.length := by omega
    have h2 : pos + 1 + 1 < t.frame.length := by omega
    have l2 : pos + 1 + 1 ≤ t.frame.length := by omega
    have l3 : pos + 1 + 1 + 1 ≤ t.frame.length := by omega
    simp only [hE2, Bool.not_true, Bool.false_eq_true, if_false,
      addExplanationAndIncrementPos, l1, if_true, hL2, if_neg hrem,
      List.getElem?_eq_getElem h1, List.getElem?_eq_getElem h2, l2, l3,
      if_neg hn2, ha2, hs2]
    split
    · rename_i heq
      have hshort := target_address_none _ _ heq
      simp only at hshort
      omega
    · exact ⟨_, _, _, rfl⟩
  · have hl := h86 rfl
    have hrem : ¬ ((t.frame.length : Int) - (pos : Int) < -1 + 1) := by omega
    have h1 : pos + 1 < t.frame.length := by omega
    have h2 : pos + 1 + 1 < t.frame.length := by omega
    have l2 : pos + 1 + 1 ≤ t.frame.length := by omega
    have l3 : pos + 1 + 1 + 1 ≤ t.frame.length := by omega
    simp only [hE3, Bool.not_true, Bool.false_eq_true, if_false,
      addExplanationAndIncrementPos, l1, if_true, hL3, if_neg hrem,
      List.getElem?_eq_getElem h1, List.getElem?_eq_getElem h2, l2, l3,
      if_pos hn3]
    exact ⟨_, _, _, rfl⟩

/-- C21. `parseELL` on an ELL with session number (CI 0x8D or 0x8F, of length L) in a frame
that holds the whole layer: every result has in `ell_sn_b` the four bytes s0..s3 that follow
CC, ACC and the target address, and the three fields cut out of the session number partition
the 32 bits of the little-endian value u of these bytes: session = bits 0-3, time = bits 4-28,
security mode = bits 29-31, so 0 <= session < 16, 0 <= time < 2^25, 0 <= sec < 8 and
session + 16*time + 2^29*sec = u, also when the top byte is 0x80 or more; the security mode
is the enumerator of sec, and `toStringFromELLSN` of the stored session number prints the same
three fields. The parser returns a result on every such frame when the decryption keeps the
length of the frame. -/
theorem parseELL_session_number_fields (ops : LinkOps) (t : Telegram) (pos : Nat) (ci : uchar)
    (h0 : t.frame[pos]? = some ci) (hci : ci = 0x8D ∨ ci = 0x8F)
    (hrem : ciFieldLength ci.val + 1 ≤ (t.frame.length : Int) - (pos : Int)) :
    (∀ ok t' pos', parseELL ops t pos = some (ok, t', pos') →
      ∃ s0 s1 s2 s3 : uchar,
        t.frame[pos + (ciFieldLength ci.val).toNat - 5]? = some s0 ∧
        t.frame[pos + (ciFieldLength ci.val).toNat - 5 + 1]? = some s1 ∧
        t.frame[pos + (ciFieldLength ci.val).toNat - 5 + 2]? = some s2 ∧
        t.frame[pos + (ciFieldLength ci.val).toNat - 5 + 3]? = some s3 ∧
        t'.ell_sn_b = { b0 := s0, b1 := s1, b2 := s2, b3 := s3 } ∧
        t'.ell_sn_session
          = (((s0.val + 256 * s1.val + 65536 * s2.val + 16777216 * s3.val) % 16 : Nat) : Int) ∧
        t'.ell_sn_time
          = (((s0.val + 256 * s1.val + 65536 * s2.val + 16777216 * s3.val) / 16 % 2 ^ 25
              : Nat) : Int) ∧
        t'.ell_sn_sec
          = (((s0.val + 256 * s1.val + 65536 * s2.val + 16777216 * s3.val) / 2 ^ 29
              : Nat) : Int) ∧
        0 ≤ t'.ell_sn_session ∧ t'.ell_sn_session < 16 ∧
        0 ≤ t'.ell_sn_time ∧ t'.ell_sn_time < 2 ^ 25 ∧
        0 ≤ t'.ell_sn_sec ∧ t'.ell_sn_sec < 8 ∧
        t'.ell_sn_session + 16 * t'.ell_sn_time + 2 ^ 29 * t'.ell_sn_sec
          = ((s0.val + 256 * s1.val + 65536 * s2.val + 16777216 * s3.val : Nat) : Int) ∧
        t'.ell_sec_mode = fromIntToELLSecurityMode t'.ell_sn_sec ∧
        toStringFromELLSN t'.ell_sn
          = t'.ell_sec_mode.toString ++ " session=" ++ toString t'.ell_sn_session
              ++ " time=" ++ toString t'.ell_sn_time) ∧
    ((∀ (u : Telegram) (p : Nat) (k : List uchar),
        (ops.decrypt_ELL_AES_CTR u p k).2.length = u.frame.length) →
      ∃ ok t' pos', parseELL ops t pos = some (ok, t', pos')) := by
  refine ⟨?_, fun hdec => parseELL_session_returns ops t pos ci h0 hci hdec⟩
  intro ok t' pos' h
  obtain ⟨t2, hf2, hs⟩ := parseELL_session_run ops t pos ci h0 hci hrem ok t' pos' h
  obtain ⟨_, s0, s1, s2, s3, r0, r1, r2, r3, hb, hsn, hse, hti, hsc, hmo⟩ :=
    session_number_any _ _ _ _ _ _ hs
  rw [hf2] at r0 r1 r2 r3
  have hu : s0.val + 256 * s1.val + 65536 * s2.val + 16777216 * s3.val < 2 ^ 32 := by
    have := s0.isLt
    have := s1.isLt
    have := s2.isLt
    have := s3.isLt
    omega
  rw [or4_eq] at hsn
  obtain ⟨f1, f2, f3⟩ := toInt32_fields _ hu
  rw [← hsn] at f1 f2 f3
  rw [← hse] at f1
  rw [← hti] at f2
  rw [← hsc] at f3
  refine ⟨s0, s1, s2, s3, r0, r1, r2, r3, hb, f1, f2, f3, ?_, ?_, ?_, ?_, ?_, ?_, ?_, hmo, ?_⟩
  · rw [f1]; omega
  · rw [f1]; omega
  · rw [f2]; omega
  · rw [f2]; omega
  · rw [f3]; omega
  · rw [f3]; omega
  · rw [f1, f2, f3]; omega
  · simp only [toStringFromELLSN, ← hse, ← hti, ← hsc, ← hmo]
    simp

/-- Witness for C21: a frame with the ELL of CI 0x8D and the session number bytes
`11 22 33 A4`, whose top byte is above 0x80, parsed with the stand-in routines. -/
theorem parseELL_session_number_fields_witness :
    ∃ ok t' pos',
      parseELL stubLinkOps { frame := [0x8D, 0x01, 0x02, 0x11, 0x22, 0x33, 0xA4, 0, 0, 0x78] } 0
        = some (ok, t', pos') ∧
      t'.ell_sn_b = { b0 := 0x11, b1 := 0x22, b2 := 0x33, b3 := 0xA4 } ∧
      t'.ell_sn_session = 1 ∧ t'.ell_sn_time = 0x433221 ∧ t'.ell_sn_sec = 5 ∧
      t'.ell_sn_session + 16 * t'.ell_sn_time + 2 ^ 29 * t'.ell_sn_sec = 0xA4332211 := by
  have hw := parseELL_session_number_fields stubLinkOps
    { frame := [0x8D, 0x01, 0x02, 0x11, 0x22, 0x33, 0xA4, 0, 0, 0x78] } 0 0x8D rfl (Or.inl rfl)
    (by decide)
  obtain ⟨ok, t', pos', hrun⟩ := hw.2 (fun _ _ _ => rfl)
  obtain ⟨s0, s1, s2, s3, r0, r1, r2, r3, hb, f1, f2, f3, _, _, _, _, _, _, hsum, _, _⟩ :=
    hw.1 ok t' pos' hrun
  have e0 : s0 = 0x11 := by
    have : (some (0x11 : uchar)) = some s0 := r0
    exact (Option.some.inj this).symm
  have e1 : s1 = 0x22 := by
    have : (some (0x22 : uchar)) = some s1 := r1
    exact (Option.some.inj this).symm
  have e2 : s2 = 0x33 := by
    have : (some (0x33 : uchar)) = some s2 := r2
    exact (Option.some.inj this).symm
  have e3 : s3 = 0xA4 := by
    have : (some (0xA4 : uchar)) = some s3 := r3
    exact (Option.some.inj this).symm
  subst e0 e1 e2 e3
  exact ⟨ok, t', pos', hrun, hb, f1.trans (by decide), f2.trans (by decide),
    f3.trans (by decide), hsum.trans (by decide)⟩

set_option maxRecDepth 100000 in
/-- The CI fields of the type ELL. -/
theorem isCiFieldOfType_ELL_iff : ∀ ci : uchar,
    isCiFieldOfType ci.val .ELL = true ↔
      (ci = 0x8C ∨ ci = 0x8D ∨ ci = 0x8E ∨ ci = 0x8F ∨ ci = 0x86) := by
  decide

/-- A run of `parseELL` on an ELL without session number (CI 0x8C or 0x8E) that returns true
has the cursor behind the CI field, CC, ACC and, for CI 0x8E, the 8 bytes of the target
address. -/
theorem parseELL_plain_true (ops : LinkOps) (t : Telegram) (pos : Nat) (ci : uchar)
    (h0 : t.frame[pos]? = some ci) (hci : ci = 0x8C ∨ ci = 0x8E)
    (t' : Telegram) (pos' : Nat) (h : parseELL ops t pos = some (true, t', pos')) :
    pos' = pos + 1 + (ciFieldLength ci.val).toNat ∧ t'.frame = t.frame := by
  have hE1 : isCiFieldOfType (((0x8C : uchar).val : Nat) : Int) .ELL = true := by decide
  have hE2 : isCiFieldOfType (((0x8E : uchar).val : Nat) : Int) .ELL = true := by decide
  have hL1 : ciFieldLength (((0x8C : uchar).val : Nat) : Int) = 2 := by decide
  have hL2 : ciFieldLength (((0x8E : uchar).val : Nat) : Int) = 10 := by decide
  have hn1 : ¬ ((((0x8C : uchar).val : Nat) : Int) = 0x86) := by decide
  have hn2 : ¬ ((((0x8E : uchar).val : Nat) : Int) = 0x86) := by decide
  have ha1 : decide ((((0x8C : uchar).val : Nat) : Int) = 0x8E
      ∨ (((0x8C : uchar).val : Nat) : Int) = 0x8F) = false := by decide
  have ha2 : decide ((((0x8E : uchar).val : Nat) : Int) = 0x8E
      ∨ (((0x8E : uchar).val : Nat) : Int) = 0x8F) = true := by decide
  have hs1 : decide ((((0x8C : uchar).val : Nat) : Int) = 0x8D
      ∨ (((0x8C : uchar).val : Nat) : Int) = 0x8F) = false := by decide
  have hs2 : decide ((((0x8E : uchar).val : Nat) : Int) = 0x8D
      ∨ (((0x8E : uchar).val : Nat) : Int) = 0x8F) = false := by decide
  unfold parseELL at h
  simp only [h0] at h
  split at h
  · simp at h
  rcases hci with rfl | rfl
  · simp only [hE1, Bool.not_true, Bool.false_eq_true, if_false] at h
    split at h
    · exact Option.noConfusion h
    rename_i ta pa ha
    obtain ⟨hpa, hfa, _, hta⟩ := addExplanation_some _ _ _ _ _ _ ha
    subst hpa
    simp only [hL1] at h
    split at h
    · simp [expectedMore] at h
    split at h
    · exact Option.noConfusion h
    split at h
    · exact Option.noConfusion h
    rename_i tb pb hb
    obtain ⟨hpb, hfb, _, htb⟩ := addExplanation_some _ _ _ _ _ _ hb
    subst hpb
    split at h
    · exact Option.noConfusion h
    split at h
    · exact Option.noConfusion h
    rename_i tc pc hc
    obtain ⟨hpc, hfc, _, htc⟩ := addExplanation_some _ _ _ _ _ _ hc
    subst hpc
    have hci' : tc.ell_ci = (((0x8C : uchar).val : Nat) : Int) := by rw [htc, htb]
    rw [hci'] at h
    simp only [if_neg hn1, ha1, hs1, if_true, Bool.false_eq_true, if_false,
      Option.some.injEq, Prod.mk.injEq, true_and] at h
    obtain ⟨e1, e2⟩ := h
    subst e1 e2
    refine ⟨by rw [hL1]; rfl, ?_⟩
    rw [hfc, hfb, hfa]
  · simp only [hE2, Bool.not_true, Bool.false_eq_true, if_false] at h
    split at h
    · exact Option.noConfusion h
    rename_i ta pa ha
    obtain ⟨hpa, hfa, _, hta⟩ := addExplanation_some _ _ _ _ _ _ ha
    subst hpa
    simp only [hL2] at h
    split at h
    · simp [expectedMore] at h
    split at h
    · exact Option.noConfusion h
    split at h
    · exact Option.noConfusion h
    rename_i tb pb hb
    obtain ⟨hpb, hfb, _, htb⟩ := addExplanation_some _ _ _ _ _ _ hb
    subst hpb
    split at h
    · exact Option.noConfusion h
    split at h
    · exact Option.noConfusion h
    rename_i tc pc hc
    obtain ⟨hpc, hfc, _, htc⟩ := addExplanation_some _ _ _ _ _ _ hc
    subst hpc
    have hci' : tc.ell_ci = (((0x8E : uchar).val : Nat) : Int) := by rw [htc, htb]
    rw [hci'] at h
    simp only [if_neg hn2, ha2, hs2, if_true, Bool.false_eq_true, if_false] at h
    split at h
    · exact Option.noConfusion h
    rename_i td pd hd
    obtain ⟨hpd, hfd, _⟩ := target_address_some _ _ _ _ hd
    subst hpd
    simp only [Option.some.injEq, Prod.mk.injEq, true_and] at h
    obtain ⟨e1, e2⟩ := h
    subst e1 e2
    refine ⟨by rw [hL2]; rfl, ?_⟩
    rw [hfd, hfc, hfb, hfa]

/-- A run of `parseELL` on an ELL without session number (CI 0x8C or 0x8E) in a frame that
holds the CI field and the bytes of the header returns true with the cursor behind the header
and the frame as it was. -/
theorem parseELL_plain_run (ops : LinkOps) (t : Telegram) (pos : Nat) (ci : uchar)
    (h0 : t.frame[pos]? = some ci) (hci : ci = 0x8C ∨ ci = 0x8E)
    (hlen : pos + 1 + (ciFieldLength ci.val).toNat ≤ t.frame.length) :
    ∃ t', parseELL ops t pos = some (true, t', pos + 1 + (ciFieldLength ci.val).toNat) ∧
      t'.frame = t.frame := by
  have hE1 : isCiFieldOfType (((0x8C : uchar).val : Nat) : Int) .ELL = true := by decide
  have hE2 : isCiFieldOfType (((0x8E : uchar).val : Nat) : Int) .ELL = true := by decide
  have hL1 : ciFieldLength (((0x8C : uchar).val : Nat) : Int) = 2 := by decide
  have hL2 : ciFieldLength (((0x8E : uchar).val : Nat) : Int) = 10 := by decide
  have hn1 : ¬ ((((0x8C : uchar).val : Nat) : Int) = 0x86) := by decide
  have hn2 : ¬ ((((0x8E : uchar).val : Nat) : Int) = 0x86) := by decide
  have ha1 : decide ((((0x8C : uchar).val : Nat) : Int) = 0x8E
      ∨ (((0x8C : uchar).val : Nat) : Int) = 0x8F) = false := by decide
  have ha2 : decide ((((0x8E : uchar).val : Nat) : Int) = 0x8E
      ∨ (((0x8E : uchar).val : Nat) : Int) = 0x8F) = true := by decide
  have hs1 : decide ((((0x8C : uchar).val : Nat) : Int) = 0x8D
      ∨ (((0x8C : uchar).val : Nat) : Int) = 0x8F) = false := by decide
  have hs2 : decide ((((0x8E : uchar).val : Nat) : Int) = 0x8D
      ∨ (((0x8E : uchar).val : Nat) : Int) = 0x8F) = false := by decide
  have hlt := lt_of_getElem?_eq_some _ _ _ h0
  have hr0 : ¬ ((t.frame.length : Int) - (pos : Int) = 0) := by omega
  have l1 : pos + 1 ≤ t.frame.length := by omega
  rcases hci with rfl | rfl
  · rw [hL1] at hlen ⊢
    have hlen2 : pos + 1 + 2 ≤ t.frame.length := hlen
    have hrem : ¬ ((t.frame.length : Int) - (pos : Int) < 2 + 1) := by omega
    have h1 : pos + 1 < t.frame.length := by omega
    have h2 : pos + 1 + 1 < t.frame.length := by omega
    have l2 : pos + 1 + 1 ≤ t.frame.length := by omega
    have l3 : pos + 1 + 1 + 1 ≤ t.frame.length := by omega
    simp only [parseELL, h0, if_neg hr0, hE1, Bool.not_true, Bool.false_eq_true, if_false,
      addExplanationAndIncrementPos, l1, if_true, hL1, if_neg hrem,
      List.getElem?_eq_getElem h1, List.getElem?_eq_getElem h2, l2, l3,
      if_neg hn1, ha1, hs1]
    exact ⟨_, rfl, rfl⟩
  · rw [hL2] at hlen ⊢
    have hlen2 : pos + 1 + 10 ≤ t.frame.length := hlen
    have hrem : ¬ ((t.frame.length : Int) - (pos : Int) < 10 + 1) := by omega
    have h1 : pos + 1 < t.frame.length := by omega
    have h2 : pos + 1 + 1 < t.frame.length := by omega
    have l2 : pos + 1 + 1 ≤ t.frame.length := by omega
    have l3 : pos + 1 + 1 + 1 ≤ t.frame.length := by omega
    simp only [parseELL, h0, if_neg hr0, hE2, Bool.not_true, Bool.false_eq_true, if_false,
      addExplanationAndIncrementPos, l1, if_true, hL2, if_neg hrem,
      List.getElem?_eq_getElem h1, List.getElem?_eq_getElem h2, l2, l3,
      if_neg hn2, ha2, hs2]
    generalize hm : parseELL_target_address _ _ = r
    cases r with
    | none =>
      have hshort := target_address_none _ _ hm
      simp only at hshort
      omega
    | some v =>
      obtain ⟨t1, p1⟩ := v
      obtain ⟨hp, hf, _⟩ := target_address_some _ _ _ _ hm
      subst hp
      exact ⟨t1, rfl, by rw [hf]⟩

/-- A run of `parseELL` on an ELL of type V (CI 0x86) in a frame that holds CC and ACC reads
the two bytes and returns false with the cursor behind them: the layer is not handled. -/
theorem parseELL_V_run (ops : LinkOps) (t : Telegram) (pos : Nat)
    (h0 : t.frame[pos]? = some 0x86) (hlen : pos + 3 ≤ t.frame.length) :
    ∃ t' cc acc, parseELL ops t pos = some (false, t', pos + 3) ∧ t'.frame = t.frame ∧
      t.frame[pos + 1]? = some cc ∧ t.frame[pos + 2]? = some acc ∧
      t'.ell_ci = 0x86 ∧ t'.ell_cc = cc.val ∧ t'.ell_acc = acc.val := by
  have hE3 : isCiFieldOfType (((0x86 : uchar).val : Nat) : Int) .ELL = true := by decide
  have hL3 : ciFieldLength (((0x86 : uchar).val : Nat) : Int) = -1 := by decide
  have hn3 : ((((0x86 : uchar).val : Nat) : Int) = 0x86) := by decide
  have hr0 : ¬ ((t.frame.length : Int) - (pos : Int) = 0) := by omega
  have l1 : pos + 1 ≤ t.frame.length := by omega
  have hrem : ¬ ((t.frame.length : Int) - (pos : Int) < -1 + 1) := by omega
  have h1 : pos + 1 < t.frame.length := by omega
  have h2 : pos + 1 + 1 < t.frame.length := by omega
  have l2 : pos + 1 + 1 ≤ t.frame.length := by omega
  have l3 : pos + 1 + 1 + 1 ≤ t.frame.length := by omega
  simp only [parseELL, h0, if_neg hr0, hE3, Bool.not_true, Bool.false_eq_true, if_false,
    addExplanationAndIncrementPos, l1, if_true, hL3, if_neg hrem,
    List.getElem?_eq_getElem h1, List.getElem?_eq_getElem h2, l2, l3,
    if_pos hn3]
  exact ⟨_, t.frame[pos + 1], t.frame[pos + 1 + 1], rfl, rfl, rfl, rfl, rfl, rfl, rfl⟩

/-- C22. For every ci in 0..255, `isCiFieldOfType ci ELL` is true if and only if ci is one of
0x8C, 0x8D, 0x8E, 0x8F, 0x86. On a frame with the byte ci at the cursor `parseELL` returns
true with the cursor and the telegram untouched for every other ci, and consumes an ELL header
for these five. For 0x8C, 0x8D, 0x8E and 0x8F every result has the cursor behind the CI field,
every run that returns true has the cursor exactly 1 + ciFieldLength(ci) bytes further (3, 9,
11, 17: the CI field and the whole header), and there is a result when the decryption keeps
the length of the frame. For 0x8C and 0x8E in a frame that holds the header the run returns
true with the cursor behind the header; for 0x8D and 0x8F in such a frame every result has the
cursor behind the session number at least. For 0x86, whose header has a variable length, the
run in a frame that holds CC and ACC consumes the CI field, CC and ACC and returns false. -/
theorem parseELL_consumes_iff_ELL_ci (ops : LinkOps) (t : Telegram) (pos : Nat) (ci : uchar)
    (h0 : t.frame[pos]? = some ci) :
    (isCiFieldOfType ci.val .ELL = true ↔
      (ci = 0x8C ∨ ci = 0x8D ∨ ci = 0x8E ∨ ci = 0x8F ∨ ci = 0x86)) ∧
    (¬ (ci = 0x8C ∨ ci = 0x8D ∨ ci = 0x8E ∨ ci = 0x8F ∨ ci = 0x86) →
      parseELL ops t pos = some (true, t, pos)) ∧
    ((ci = 0x8C ∨ ci = 0x8D ∨ ci = 0x8E ∨ ci = 0x8F) →
      (∀ ok t' pos', parseELL ops t pos = some (ok, t', pos') → pos < pos') ∧
      (∀ t' pos', parseELL ops t pos = some (true, t', pos') →
        pos' = pos + 1 + (ciFieldLength ci.val).toNat) ∧
      (1 + (ciFieldLength ci.val).toNat
        = if ci = 0x8C then 3 else if ci = 0x8D then 9 else if ci = 0x8E then 11 else 17) ∧
      ((∀ (u : Telegram) (p : Nat) (k : List uchar),
          (ops.decrypt_ELL_AES_CTR u p k).2.length = u.frame.length) →
        ∃ ok t' pos', parseELL ops t pos = some (ok, t', pos'))) ∧
    ((ci = 0x8C ∨ ci = 0x8E) → pos + 1 + (ciFieldLength ci.val).toNat ≤ t.frame.length →
      ∃ t', parseELL ops t pos = some (true, t', pos + 1 + (ciFieldLength ci.val).toNat) ∧
        t'.frame = t.frame) ∧
    ((ci = 0x8D ∨ ci = 0x8F) → pos + 1 + (ciFieldLength ci.val).toNat ≤ t.frame.length →
      ∀ ok t' pos', parseELL ops t pos = some (ok, t', pos') →
        pos + 1 + (ciFieldLength ci.val).toNat ≤ pos' + 2) ∧
    (ci = 0x86 → pos + 3 ≤ t.frame.length →
      ∃ t' cc acc, parseELL ops t pos = some (false, t', pos + 3) ∧ t'.frame = t.frame ∧
        t.frame[pos + 1]? = some cc ∧ t.frame[pos + 2]? = some acc ∧
        t'.ell_ci = 0x86 ∧ t'.ell_cc = cc.val ∧ t'.ell_acc = acc.val) := by
  have hlt := lt_of_getElem?_eq_some _ _ _ h0
  refine ⟨isCiFieldOfType_ELL_iff ci, ?_, ?_, ?_, ?_, ?_⟩
  · intro hn
    have hE : isCiFieldOfType ci.val .ELL = false := by
      cases hb : isCiFieldOfType ci.val .ELL
      · rfl
      · exact absurd ((isCiFieldOfType_ELL_iff ci).1 hb) hn
    have hr0 : ¬ ((t.frame.length : Int) - (pos : Int) = 0) := by omega
    simp only [parseELL, h0, if_neg hr0, hE, Bool.not_false, if_true]
  · intro hin
    have hE : isCiFieldOfType ci.val .ELL = true :=
      (isCiFieldOfType_ELL_iff ci).2
        (by rcases hin with h | h | h | h
            · exact Or.inl h
            · exact Or.inr (Or.inl h)
            · exact Or.inr (Or.inr (Or.inl h))
            · exact Or.inr (Or.inr (Or.inr (Or.inl h))))
    refine ⟨?_, ?_, ?_, ?_⟩
    · intro ok t' pos' h
      have := parseELL_consumes ops t pos ci h0 hE ok t' pos' h
      omega
    · intro t' pos' h
      rcases hin with hc | hc | hc | hc
      · exact (parseELL_plain_true ops t pos ci h0 (Or.inl hc) t' pos' h).1
      · obtain ⟨t2, _, _, hs⟩ := parseELL_true_session ops t pos ci h0 (Or.inl hc) t' pos' h
        have hp := (session_number_true _ _ _ _ _ hs).1
        subst hc
        have hL : (ciFieldLength ((0x8D : uchar).val : Int)).toNat = 8 := by decide
        rw [hL] at hp ⊢
        omega
      · exact (parseELL_plain_true ops t pos ci h0 (Or.inr hc) t' pos' h).1
      · obtain ⟨t2, _, _, hs⟩ := parseELL_true_session ops t pos ci h0 (Or.inr hc) t' pos' h
        have hp := (session_number_true _ _ _ _ _ hs).1
        subst hc
        have hL : (ciFieldLength ((0x8F : uchar).val : Int)).toNat = 16 := by decide
        rw [hL] at hp ⊢
        omega
    · rcases hin with hc | hc | hc | hc <;> subst hc <;> decide
    · intro hdec
      rcases hin with hc | hc | hc | hc
      · exact parseELL_plain_returns ops t pos ci h0 (Or.inl hc)
          (fun h86 => absurd (hc.symm.trans h86) (by decide))
      · exact parseELL_session_returns ops t pos ci h0 (Or.inl hc) hdec
      · exact parseELL_plain_returns ops t pos ci h0 (Or.inr (Or.inl hc))
          (fun h86 => absurd (hc.symm.trans h86) (by decide))
      · exact parseELL_session_returns ops t pos ci h0 (Or.inr hc) hdec
  · intro hci hlen
    exact parseELL_plain_run ops t pos ci h0 hci hlen
  · intro hci hlen ok t' pos' h
    have hL : (ciFieldLength (ci.val : Int)).toNat = 8 ∨ (ciFieldLength (ci.val : Int)).toNat = 16 := by
      rcases hci with hc | hc <;> subst hc
      · exact Or.inl (by decide)
      · exact Or.inr (by decide)
    have hLi : ciFieldLength (ci.val : Int) = 8 ∨ ciFieldLength (ci.val : Int) = 16 := by
      rcases hci with hc | hc <;> subst hc
      · exact Or.inl (by decide)
      · exact Or.inr (by decide)
    have hrem : ciFieldLength ci.val + 1 ≤ (t.frame.length : Int) - (pos : Int) := by
      rcases hLi with e | e <;> rcases hL with e2 | e2 <;> rw [e] at e2 ⊢ <;>
        rw [e] at hlen <;> simp at hlen e2 <;> omega
    obtain ⟨t2, _, hs⟩ := parseELL_session_run ops t pos ci h0 hci hrem ok t' pos' h
    have hp := (session_number_any _ _ _ _ _ _ hs).1
    omega
  · intro hci hlen
    subst hci
    exact parseELL_V_run ops t pos h0 hlen

set_option maxRecDepth 100000 in
/-- Witness for C22: the CI 0x78 of a TPL without header is left where it is, the ELL of CI
0x8C is consumed with its header of 2 bytes, the ELL of CI 0x8D with its header of 8 bytes,
and on the ELL of CI 0x86 the run stops with false behind CC and ACC. -/
theorem parseELL_consumes_iff_ELL_ci_witness :
    parseELL stubLinkOps { frame := [0x78, 0x2F, 0x2F] } 0
      = some (true, { frame := [0x78, 0x2F, 0x2F] }, 0) ∧
    (∃ t', parseELL stubLinkOps { frame := [0x8C, 0x20, 0x01, 0x78] } 0
      = some (true, t', 3) ∧ t'.frame = [0x8C, 0x20, 0x01, 0x78]) ∧
    (∃ t' cc acc, parseELL stubLinkOps { frame := [0x86, 0x20, 0x01, 0x78] } 0
      = some (false, t', 3) ∧ t'.frame = [0x86, 0x20, 0x01, 0x78] ∧
        ({ frame := [0x86, 0x20, 0x01, 0x78] } : Telegram).frame[0 + 1]? = some cc ∧
        ({ frame := [0x86, 0x20, 0x01, 0x78] } : Telegram).frame[0 + 2]? = some acc ∧
        t'.ell_ci = 0x86 ∧ t'.ell_cc = cc.val ∧ t'.ell_acc = acc.val) ∧
    (parseELL stubLinkOps
        { frame := [0x8D, 0x20, 0x01, 0x11, 0x22, 0x33, 0x04, 0x00, 0x00, 0x78] } 0).map
      (fun r => (r.1, r.2.2)) = some (true, 9) :=
  ⟨(parseELL_consumes_iff_ELL_ci stubLinkOps { frame := [0x78, 0x2F, 0x2F] } 0 0x78 rfl).2.1
      (by decide),
    (parseELL_consumes_iff_ELL_ci stubLinkOps { frame := [0x8C, 0x20, 0x01, 0x78] } 0 0x8C
      rfl).2.2.2.1 (Or.inl rfl) (by decide),
    (parseELL_consumes_iff_ELL_ci stubLinkOps { frame := [0x86, 0x20, 0x01, 0x78] } 0 0x86
      rfl).2.2.2.2.2 rfl (by decide),
    by decide⟩

/-! ## The authentication and fragmentation layer -/

/-- The bytes read one by one from the cursor are the frame range at the cursor. -/
theorem range_map_getD (frame : List uchar) (pos n : Nat) (h : pos + n ≤ frame.length) :
    (List.range n).map (fun i => frame.getD (pos + i) 0) = (frame.drop pos).take n := by
  apply List.ext_getElem?
  intro i
  by_cases hi : i < n
  · have hi2 : pos + i < frame.length := by omega
    simp [List.getElem?_take, List.getElem?_drop, hi, List.getElem?_range, hi2,
      List.getD_eq_getElem?_getD]
  · have h1 : (List.range n).length ≤ i := by simp; omega
    have h2 : ((frame.drop pos).take n).length ≤ i := by simp; omega
    rw [List.getElem?_eq_none (by simpa using h1), List.getElem?_eq_none h2]

/-- The loop that copies the MAC returns when all its reads are inside the frame, with the
bytes appended in the order of the reads. -/
theorem mac_loop_of_inside (frame : List uchar) (pos : Nat) :
    ∀ (is : List Nat) (acc : List uchar), (∀ i ∈ is, pos + i < frame.length) →
      parseAFL_mac_loop frame pos acc is
        = some (acc ++ is.map (fun i => frame.getD (pos + i) 0)) := by
  intro is
  induction is with
  | nil => intro acc _; simp [parseAFL_mac_loop]
  | cons i is ih =>
    intro acc hall
    have hi : pos + i < frame.length := hall i (List.mem_cons_self _ _)
    simp only [parseAFL_mac_loop, List.getElem?_eq_getElem hi]
    rw [ih _ (fun j hj => hall j (List.mem_cons_of_mem _ hj))]
    simp [List.getD_eq_getElem?_getD, List.getElem?_eq_getElem hi]

/-- The loop that copies the MAC returns only when all its reads are inside the frame. -/
theorem mac_loop_inside (frame : List uchar) (pos : Nat) :
    ∀ (is : List Nat) (acc mac : List uchar), parseAFL_mac_loop frame pos acc is = some mac →
      ∀ i ∈ is, pos + i < frame.length := by
  intro is
  induction is with
  | nil => intro acc mac _ i hi; simp at hi
  | cons j is ih =>
    intro acc mac h i hi
    unfold parseAFL_mac_loop at h
    split at h
    · exact Option.noConfusion h
    rename_i b hb
    rcases List.mem_cons.1 hi with rfl | hi
    · exact lt_of_getElem?_eq_some _ _ _ hb
    · exact ih _ _ h i hi

/-- A result of the block of the message control field: the byte at the cursor is stored in
`afl_mcl` and consumed. -/
theorem parseAFL_control_some (auth : AFLAuthTypes) (t : Telegram) (pos : Nat)
    (t1 : Telegram) (p1 : Nat) (h : parseAFL_control auth t pos = some (t1, p1)) :
    p1 = pos + 1 ∧ pos + 1 ≤ t.frame.length ∧ t.frame[pos]? = some t1.afl_mcl ∧
    (t1.frame, t1.afl_fc, t1.afl_ki, t1.afl_counter_b, t1.afl_counter, t1.afl_mac_b,
        t1.parsed)
      = (t.frame, t.afl_fc, t.afl_ki, t.afl_counter_b, t.afl_counter, t.afl_mac_b,
        t.parsed ++ (t.frame.drop pos).take 1) := by
  unfold parseAFL_control at h
  split at h
  · exact Option.noConfusion h
  rename_i m hm
  obtain ⟨hp, _, hl, ht⟩ := addExplanation_some _ _ _ _ _ _ h
  refine ⟨hp, hl, ?_, ?_⟩
  · rw [ht]; exact hm
  · rw [ht]

/-- A result of the block of the key information: the two bytes at the cursor are consumed
and their little-endian value is stored in `afl_ki`. -/
theorem parseAFL_key_info_some (t : Telegram) (pos : Nat)
    (t1 : Telegram) (p1 : Nat) (h : parseAFL_key_info t pos = some (t1, p1)) :
    p1 = pos + 2 ∧ pos + 2 ≤ t.frame.length ∧
    (∃ k0 k1 : uchar, t.frame[pos]? = some k0 ∧ t.frame[pos + 1]? = some k1 ∧
      t1.afl_ki = k1.val * 256 + k0.val) ∧
    (t1.frame, t1.afl_fc, t1.afl_mcl, t1.afl_counter_b, t1.afl_counter, t1.afl_mac_b,
        t1.parsed)
      = (t.frame, t.afl_fc, t.afl_mcl, t.afl_counter_b, t.afl_counter, t.afl_mac_b,
        t.parsed ++ (t.frame.drop pos).take 2) := by
  unfold parseAFL_key_info at h
  split at h
  · exact Option.noConfusion h
  rename_i k0 hk0
  split at h
  · exact Option.noConfusion h
  rename_i k1 hk1
  obtain ⟨hp, _, hl, ht⟩ := addExplanation_some _ _ _ _ _ _ h
  refine ⟨hp, hl, ⟨k0, k1, by simpa using hk0, hk1, ?_⟩, ?_⟩
  · rw [ht]; exact shl8_or _ _ k0.isLt
  · rw [ht]

/-- A result of the block of the message counter: the four bytes at the cursor are consumed,
stored in `afl_counter_b`, and their little-endian value is stored in `afl_counter`. -/
theorem parseAFL_counter_some (t : Telegram) (pos : Nat)
    (t1 : Telegram) (p1 : Nat) (h : parseAFL_counter t pos = some (t1, p1)) :
    p1 = pos + 4 ∧ pos + 4 ≤ t.frame.length ∧
    (∃ c0 c1 c2 c3 : uchar, t.frame[pos]? = some c0 ∧ t.frame[pos + 1]? = some c1 ∧
      t.frame[pos + 2]? = some c2 ∧ t.frame[pos + 3]? = some c3 ∧
      t1.afl_counter_b = { b0 := c0, b1 := c1, b2 := c2, b3 := c3 } ∧
      t1.afl_counter = c0.val + 256 * c1.val + 65536 * c2.val + 16777216 * c3.val) ∧
    (t1.frame, t1.afl_fc, t1.afl_mcl, t1.afl_ki, t1.afl_mac_b, t1.parsed)
      = (t.frame, t.afl_fc, t.afl_mcl, t.afl_ki, t.afl_mac_b,
        t.parsed ++ (t.frame.drop pos).take 4) := by
  unfold parseAFL_counter at h
  split at h
  · exact Option.noConfusion h
  rename_i c0 hc0
  split at h
  · exact Option.noConfusion h
  rename_i c1 hc1
  split at h
  · exact Option.noConfusion h
  rename_i c2 hc2
  split at h
  · exact Option.noConfusion h
  rename_i c3 hc3
  obtain ⟨hp, _, hl, ht⟩ := addExplanation_some _ _ _ _ _ _ h
  refine ⟨hp, hl, ⟨c0, c1, c2, c3, by simpa using hc0, hc1, hc2, hc3, ?_, ?_⟩, ?_⟩
  · rw [ht]
  · rw [ht]; exact or4_eq c0 c1 c2 c3
  · rw [ht]

/-- The outcome true of the block of the MAC: the length of the authentication type in the
low four bits of `afl_mcl` is one of 2, 4, 8, 12, 16, that many bytes at the cursor are
consumed and appended to `afl_mac_b` in wire order. -/
theorem parseAFL_mac_true (auth : AFLAuthTypes) (t : Telegram) (pos : Nat)
    (t1 : Telegram) (p1 : Nat) (h : parseAFL_mac auth t pos = some (true, t1, p1)) :
    (toLen (fromIntToAFLAuthenticationType auth ((t.afl_mcl.val &&& 0x0f : Nat) : Int)) = 2 ∨
      toLen (fromIntToAFLAuthenticationType auth ((t.afl_mcl.val &&& 0x0f : Nat) : Int)) = 4 ∨
      toLen (fromIntToAFLAuthenticationType auth ((t.afl_mcl.val &&& 0x0f : Nat) : Int)) = 8 ∨
      toLen (fromIntToAFLAuthenticationType auth ((t.afl_mcl.val &&& 0x0f : Nat) : Int)) = 12 ∨
      toLen (fromIntToAFLAuthenticationType auth ((t.afl_mcl.val &&& 0x0f : Nat) : Int)) = 16) ∧
    p1 = pos
      + (toLen (fromIntToAFLAuthenticationType auth
          ((t.afl_mcl.val &&& 0x0f : Nat) : Int))).toNat ∧
    p1 ≤ t.frame.length ∧
    t1.afl_mac_b = t.afl_mac_b ++ (t.frame.drop pos).take (p1 - pos) ∧
    (t1.frame, t1.afl_fc, t1.afl_mcl, t1.afl_ki, t1.afl_counter_b, t1.afl_counter, t1.parsed)
      = (t.frame, t.afl_fc, t.afl_mcl, t.afl_ki, t.afl_counter_b, t.afl_counter,
        t.parsed ++ (t.frame.drop pos).take (p1 - pos)) := by
  unfold parseAFL_mac at h
  simp only at h
  generalize hlen : toLen (fromIntToAFLAuthenticationType auth
    ((t.afl_mcl.val &&& 0x0f : Nat) : Int)) = len at h ⊢
  split at h
  · simp at h
  rename_i hbad
  split at h
  · exact Option.noConfusion h
  rename_i mac hmac
  split at h
  · exact Option.noConfusion h
  rename_i t2 p2 heq
  obtain ⟨hp, _, hl, ht⟩ := addExplanation_some _ _ _ _ _ _ heq
  simp only [Option.some.injEq, Prod.mk.injEq, true_and] at h
  obtain ⟨h1, h2⟩ := h
  subst h1 h2 hp
  simp only at hl
  have hin := mac_loop_inside _ _ _ _ _ hmac
  have hmac2 := mac_loop_of_inside t.frame pos (List.range len.toNat) t.afl_mac_b hin
  rw [hmac] at hmac2
  have hmac3 := Option.some.inj hmac2
  rw [range_map_getD _ _ _ hl] at hmac3
  have hsub : pos + len.toNat - pos = len.toNat := by omega
  refine ⟨by omega, rfl, hl, ?_, ?_⟩
  · rw [hsub, ht]
    exact hmac3
  · rw [hsub, ht]

/-- A frame range followed by the range that starts at its end is one range. -/
theorem take_drop_append (F : List uchar) (pos p n : Nat) (h : pos ≤ p) :
    (F.drop pos).take (p - pos) ++ (F.drop p).take n = (F.drop pos).take (p + n - pos) := by
  have e : p + n - pos = (p - pos) + n := by omega
  rw [e, List.take_add, List.drop_drop]
  congr 3
  omega

/-- A run of `parseAFL` on the CI field 0x90 that returns true: what it read and stored. -/
theorem parseAFL_true_run (auth : AFLAuthTypes) (t : Telegram) (pos : Nat)
    (h0 : t.frame[pos]? = some 0x90) (t' : Telegram) (pos' : Nat)
    (h : parseAFL auth t pos = some (true, t', pos')) :
    ∃ al f0 f1 : uchar,
      t.frame[pos + 1]? = some al ∧ t.frame[pos + 2]? = some f0 ∧
      t.frame[pos + 3]? = some f1 ∧
      t'.afl_fc = f1.val * 256 + f0.val ∧
      (t'.afl_fc &&& 0x2000 ≠ 0 → t.frame[pos + 4]? = some t'.afl_mcl) ∧
      (¬ t'.afl_fc &&& 0x2000 ≠ 0 → t'.afl_mcl = t.afl_mcl) ∧
      (t'.afl_fc &&& 0x0200 ≠ 0 → ∃ k0 k1 : uchar,
        t.frame[pos + 4 + aflFieldLen t'.afl_fc 0x2000 1]? = some k0 ∧
        t.frame[pos + 4 + aflFieldLen t'.afl_fc 0x2000 1 + 1]? = some k1 ∧
        t'.afl_ki = k1.val * 256 + k0.val) ∧
      (t'.afl_fc &&& 0x0800 ≠ 0 → ∃ c0 c1 c2 c3 : uchar,
        t.frame[pos + 4 + aflFieldLen t'.afl_fc 0x2000 1 + aflFieldLen t'.afl_fc 0x0200 2]?
          = some c0 ∧
        t.frame[pos + 4 + aflFieldLen t'.afl_fc 0x2000 1 + aflFieldLen t'.afl_fc 0x0200 2
          + 1]? = some c1 ∧
        t.frame[pos + 4 + aflFieldLen t'.afl_fc 0x2000 1 + aflFieldLen t'.afl_fc 0x0200 2
          + 2]? = some c2 ∧
        t.frame[pos + 4 + aflFieldLen t'.afl_fc 0x2000 1 + aflFieldLen t'.afl_fc 0x0200 2
          + 3]? = some c3 ∧
        t'.afl_counter_b = { b0 := c0, b1 := c1, b2 := c2, b3 := c3 } ∧
        t'.afl_counter = c0.val + 256 * c1.val + 65536 * c2.val + 16777216 * c3.val) ∧
      (t'.afl_fc &&& 0x0400 ≠ 0 →
        (toLen (fromIntToAFLAuthenticationType auth ((t'.afl_mcl.val &&& 0x0f : Nat) : Int))
            = 2 ∨
          toLen (fromIntToAFLAuthenticationType auth ((t'.afl_mcl.val &&& 0x0f : Nat) : Int))
            = 4 ∨
          toLen (fromIntToAFLAuthenticationType auth ((t'.afl_mcl.val &&& 0x0f : Nat) : Int))
            = 8 ∨
          toLen (fromIntToAFLAuthenticationType auth ((t'.afl_mcl.val &&& 0x0f : Nat) : Int))
            = 12 ∨
          toLen (fromIntToAFLAuthenticationType auth ((t'.afl_mcl.val &&& 0x0f : Nat) : Int))
            = 16) ∧
        t'.afl_mac_b = t.afl_mac_b ++
          (t.frame.drop (pos + 4 + aflFieldLen t'.afl_fc 0x2000 1
              + aflFieldLen t'.afl_fc 0x0200 2 + aflFieldLen t'.afl_fc 0x0800 4)).take
            (toLen (fromIntToAFLAuthenticationType auth
              ((t'.afl_mcl.val &&& 0x0f : Nat) : Int))).toNat) ∧
      (¬ t'.afl_fc &&& 0x0400 ≠ 0 → t'.afl_mac_b = t.afl_mac_b) ∧
      pos' = pos + 4 + aflFieldLen t'.afl_fc 0x2000 1 + aflFieldLen t'.afl_fc 0x0200 2
        + aflFieldLen t'.afl_fc 0x0800 4
        + aflFieldLen t'.afl_fc 0x0400 (toLen (fromIntToAFLAuthenticationType auth
            ((t'.afl_mcl.val &&& 0x0f : Nat) : Int))).toNat ∧
      pos' ≤ t.frame.length ∧ t'.frame = t.frame ∧
      t'.parsed = t.parsed ++ (t.frame.drop pos).take (pos' - pos) := by
  have hE : isCiFieldOfType (((0x90 : uchar).val : Nat) : Int) .AFL = true := by decide
  have hlt := lt_of_getElem?_eq_some _ _ _ h0
  unfold parseAFL at h
  simp only [h0] at h
  split at h
  · rename_i hr
    omega
  simp only [hE, Bool.not_true, Bool.false_eq_true, if_false] at h
  split at h
  · exact Option.noConfusion h
  rename_i ta pa ha
  obtain ⟨hpa, hfa, _, hta⟩ := addExplanation_some _ _ _ _ _ _ ha
  subst hpa
  split at h
  · exact Option.noConfusion h
  rename_i al hal
  split at h
  · exact Option.noConfusion h
  rename_i tb pb hb
  obtain ⟨hpb, hfb, _, htb⟩ := addExplanation_some _ _ _ _ _ _ hb
  subst hpb
  split at h
  · simp [expectedMore] at h
  split at h
  · exact Option.noConfusion h
  rename_i f0 hf0
  split at h
  · exact Option.noConfusion h
  rename_i f1 hf1
  split at h
  · exact Option.noConfusion h
  rename_i tc pc hc
  obtain ⟨hpc, hfc, hlc, htc⟩ := addExplanation_some _ _ _ _ _ _ hc
  subst hpc
  have r1 : t.frame[pos + 1]? = some al := by rw [← hfa]; exact hal
  have hfb2 : tb.frame = t.frame := by rw [hfb]; exact hfa
  have r2 : t.frame[pos + 2]? = some f0 := by rw [← hfb2]; exact hf0
  have r3 : t.frame[pos + 3]? = some f1 := by rw [← hfb2]; exact hf1
  have hfc2 : tc.frame = t.frame := by rw [hfc]; exact hfb2
  have hlc2 : pos + 4 ≤ t.frame.length := by
    have : pos + 1 + 1 + 2 ≤ tb.frame.length := hlc
    rw [hfb2] at this
    omega
  have hvc : (tc.afl_fc, tc.afl_mcl, tc.afl_ki, tc.afl_counter_b, tc.afl_counter,
      tc.afl_mac_b, tc.parsed)
      = ((f1.val <<< 8) ||| f0.val, t.afl_mcl, t.afl_ki, t.afl_counter_b, t.afl_counter,
        t.afl_mac_b, t.parsed ++ (t.frame.drop pos).take 1
          ++ (t.frame.drop (pos + 1)).take 1 ++ (t.frame.drop (pos + 1 + 1)).take 2) := by
    rw [htc, htb, hta]
  simp only [Prod.mk.injEq] at hvc
  obtain ⟨vfc, vmcl, vki, vcb, vc, vmac, vparsed⟩ := hvc
  rw [shl8_or _ _ f0.isLt] at vfc
  have hpc : tc.parsed = t.parsed ++ (t.frame.drop pos).take (pos + 1 + 1 + 2 - pos) := by
    rw [vparsed, List.append_assoc, List.append_assoc]
    congr 1
    have e1 := take_drop_append t.frame pos (pos + 1) 1 (by omega)
    have e2 := take_drop_append t.frame pos (pos + 1 + 1) 2 (by omega)
    have e0 : pos + 1 - pos = 1 := by omega
    have e3 : pos + 1 + 1 - pos = 2 := by omega
    rw [e0] at e1
    rw [e3] at e2
    rw [← List.append_assoc, e1, show pos + 1 + 1 - pos = 2 from e3, e2]
  have hpc4 : pos + 1 + 1 + 2 = pos + 4 := by omega
  rw [hpc4] at h hpc
  -- the message control field
  split at h
  · exact Option.noConfusion h
  rename_i td pd hd
  have hC : pd = pos + 4 + aflFieldLen tc.afl_fc 0x2000 1 ∧ pd ≤ t.frame.length ∧
      td.frame = t.frame ∧
      (tc.afl_fc &&& 0x2000 ≠ 0 → t.frame[pos + 4]? = some td.afl_mcl) ∧
      (¬ tc.afl_fc &&& 0x2000 ≠ 0 → td.afl_mcl = t.afl_mcl) ∧
      (td.afl_fc, td.afl_ki, td.afl_counter_b, td.afl_counter, td.afl_mac_b)
        = (tc.afl_fc, t.afl_ki, t.afl_counter_b, t.afl_counter, t.afl_mac_b) ∧
      td.parsed = t.parsed ++ (t.frame.drop pos).take (pd - pos) := by
    by_cases hbit : tc.afl_fc &&& 0x2000 ≠ 0
    · rw [if_pos (decide_eq_true hbit)] at hd
      obtain ⟨hp, hl, hm, hv⟩ := parseAFL_control_some _ _ _ _ _ hd
      simp only [Prod.mk.injEq] at hv
      obtain ⟨v1, v2, v3, v4, v5, v6, v7⟩ := hv
      rw [hfc2] at hl hm v1 v7
      have hn : aflFieldLen tc.afl_fc 0x2000 1 = 1 := by simp only [aflFieldLen, if_pos hbit]
      refine ⟨by rw [hn, hp], by omega, v1, fun _ => hm, fun hc => absurd hbit hc, ?_, ?_⟩
      · rw [v2, v3, v4, v5, v6, vki, vcb, vc, vmac]
      · rw [v7, hpc, List.append_assoc, take_drop_append _ _ _ _ (by omega), hp]
    · rw [if_neg (by simp only [decide_eq_true_eq]; exact hbit)] at hd
      simp only [Option.some.injEq, Prod.mk.injEq] at hd
      obtain ⟨h1, h2⟩ := hd
      subst h1 h2
      have hn : aflFieldLen tc.afl_fc 0x2000 1 = 0 := by simp only [aflFieldLen, if_neg hbit]
      refine ⟨by rw [hn], by omega, hfc2, fun hc => absurd hc hbit, fun _ => vmcl, ?_, ?_⟩
      · rw [vki, vcb, vc, vmac]
      · rw [hpc]
  obtain ⟨hCp, hCl, hCf, hCm1, hCm0, hCv, hCparsed⟩ := hC
  simp only [Prod.mk.injEq] at hCv
  obtain ⟨c1, c2, c3, c4, c5⟩ := hCv
  -- the key information
  split at h
  · exact Option.noConfusion h
  rename_i te pe he
  have hK : pe = pd + aflFieldLen tc.afl_fc 0x0200 2 ∧ pe ≤ t.frame.length ∧
      te.frame = t.frame ∧ te.afl_mcl = td.afl_mcl ∧
      (tc.afl_fc &&& 0x0200 ≠ 0 → ∃ k0 k1 : uchar, t.frame[pd]? = some k0 ∧
        t.frame[pd + 1]? = some k1 ∧ te.afl_ki = k1.val * 256 + k0.val) ∧
      (te.afl_fc, te.afl_counter_b, te.afl_counter, te.afl_mac_b)
        = (tc.afl_fc, t.afl_counter_b, t.afl_counter, t.afl_mac_b) ∧
      te.parsed = t.parsed ++ (t.frame.drop pos).take (pe - pos) := by
    by_cases hbit : tc.afl_fc &&& 0x0200 ≠ 0
    · rw [if_pos (decide_eq_true hbit)] at he
      obtain ⟨hp, hl, hk, hv⟩ := parseAFL_key_info_some _ _ _ _ he
      simp only [Prod.mk.injEq] at hv
      obtain ⟨v1, v2, v3, v4, v5, v6, v7⟩ := hv
      rw [hCf] at hl hk v1 v7
      have hn : aflFieldLen tc.afl_fc 0x0200 2 = 2 := by simp only [aflFieldLen, if_pos hbit]
      refine ⟨by rw [hn, hp], by omega, v1, v3, fun _ => hk, ?_, ?_⟩
      · rw [v2, v4, v5, v6, c1, c3, c4, c5]
      · rw [v7, hCparsed, List.append_assoc, take_drop_append _ _ _ _ (by omega), hp]
    · rw [if_neg (by simp only [decide_eq_true_eq]; exact hbit)] at he
      simp only [Option.some.injEq, Prod.mk.injEq] at he
      obtain ⟨h1, h2⟩ := he
      subst h1 h2
      have hn : aflFieldLen tc.afl_fc 0x0200 2 = 0 := by simp only [aflFieldLen, if_neg hbit]
      refine ⟨by rw [hn, Nat.add_zero], by omega, hCf, rfl, fun hc => absurd hc hbit, ?_, ?_⟩
      · rw [c1, c3, c4, c5]
      · rw [hCparsed]
  obtain ⟨hKp, hKl, hKf, hKm, hKk, hKv, hKparsed⟩ := hK
  simp only [Prod.mk.injEq] at hKv
  obtain ⟨k1, k3, k4, k5⟩ := hKv
  -- the message counter
  split at h
  · exact Option.noConfusion h
  rename_i tf pf hf
  have hN : pf = pe + aflFieldLen tc.afl_fc 0x0800 4 ∧ pf ≤ t.frame.length ∧
      tf.frame = t.frame ∧ tf.afl_mcl = td.afl_mcl ∧ tf.afl_ki = te.afl_ki ∧
      (tc.afl_fc &&& 0x0800 ≠ 0 → ∃ c0 c1 c2 c3 : uchar, t.frame[pe]? = some c0 ∧
        t.frame[pe + 1]? = some c1 ∧ t.frame[pe + 2]? = some c2 ∧
        t.frame[pe + 3]? = some c3 ∧
        tf.afl_counter_b = { b0 := c0, b1 := c1, b2 := c2, b3 := c3 } ∧
        tf.afl_counter = c0.val + 256 * c1.val + 65536 * c2.val + 16777216 * c3.val) ∧
      (tf.afl_fc, tf.afl_mac_b) = (tc.afl_fc, t.afl_mac_b) ∧
      tf.parsed = t.parsed ++ (t.frame.drop pos).take (pf - pos) := by
    by_cases hbit : tc.afl_fc &&& 0x0800 ≠ 0
    · rw [if_pos (decide_eq_true hbit)] at hf
      obtain ⟨hp, hl, hk, hv⟩ := parseAFL_counter_some _ _ _ _ hf
      simp only [Prod.mk.injEq] at hv
      obtain ⟨v1, v2, v3, v4, v5, v6⟩ := hv
      rw [hKf] at hl hk v1 v6
      have hn : aflFieldLen tc.afl_fc 0x0800 4 = 4 := by simp only [aflFieldLen, if_pos hbit]
      refine ⟨by rw [hn, hp], by omega, v1, by rw [v3, hKm], v4, fun _ => hk, ?_, ?_⟩
      · rw [v2, v5, k1, k5]
      · rw [v6, hKparsed, List.append_assoc, take_drop_append _ _ _ _ (by omega), hp]
    · rw [if_neg (by simp only [decide_eq_true_eq]; exact hbit)] at hf
      simp only [Option.some.injEq, Prod.mk.injEq] at hf
      obtain ⟨h1, h2⟩ := hf
      subst h1 h2
      have hn : aflFieldLen tc.afl_fc 0x0800 4 = 0 := by simp only [aflFieldLen, if_neg hbit]
      refine ⟨by rw [hn, Nat.add_zero], by omega, hKf, hKm, rfl, fun hc => absurd hc hbit, ?_, ?_⟩
      · rw [k1, k5]
      · rw [hKparsed]
  obtain ⟨hNp, hNl, hNf, hNm, hNk, hNc, hNv, hNparsed⟩ := hN
  simp only [Prod.mk.injEq] at hNv
  obtain ⟨n1, n2⟩ := hNv
  -- the MAC
  have hM : pos' = pf + aflFieldLen tc.afl_fc 0x0400 (toLen (fromIntToAFLAuthenticationType
        auth ((tf.afl_mcl.val &&& 0x0f : Nat) : Int))).toNat ∧ pos' ≤ t.frame.length ∧
      t'.frame = t.frame ∧
      (t'.afl_fc, t'.afl_mcl, t'.afl_ki, t'.afl_counter_b, t'.afl_counter)
        = (tf.afl_fc, tf.afl_mcl, tf.afl_ki, tf.afl_counter_b, tf.afl_counter) ∧
      (tc.afl_fc &&& 0x0400 ≠ 0 →
        (toLen (fromIntToAFLAuthenticationType auth ((tf.afl_mcl.val &&& 0x0f : Nat) : Int))
            = 2 ∨
          toLen (fromIntToAFLAuthenticationType auth ((tf.afl_mcl.val &&& 0x0f : Nat) : Int))
            = 4 ∨
          toLen (fromIntToAFLAuthenticationType auth ((tf.afl_mcl.val &&& 0x0f : Nat) : Int))
            = 8 ∨
          toLen (fromIntToAFLAuthenticationType auth ((tf.afl_mcl.val &&& 0x0f : Nat) : Int))
            = 12 ∨
          toLen (fromIntToAFLAuthenticationType auth ((tf.afl_mcl.val &&& 0x0f : Nat) : Int))
            = 16) ∧
        t'.afl_mac_b = t.afl_mac_b ++ (t.frame.drop pf).take
          (toLen (fromIntToAFLAuthenticationType auth
            ((tf.afl_mcl.val &&& 0x0f : Nat) : Int))).toNat) ∧
      (¬ tc.afl_fc &&& 0x0400 ≠ 0 → t'.afl_mac_b = t.afl_mac_b) ∧
      t'.parsed = t.parsed ++ (t.frame.drop pos).take (pos' - pos) := by
    by_cases hbit : tc.afl_fc &&& 0x0400 ≠ 0
    · rw [if_pos (decide_eq_true hbit)] at h
      obtain ⟨hlen, hp, hl, hmac, hv⟩ := parseAFL_mac_true _ _ _ _ _ h
      simp only [Prod.mk.injEq] at hv
      obtain ⟨v1, v2, v3, v4, v5, v6, v7⟩ := hv
      rw [hNf] at hl hmac v1 v7
      have hn : aflFieldLen tc.afl_fc 0x0400 (toLen (fromIntToAFLAuthenticationType
          auth ((tf.afl_mcl.val &&& 0x0f : Nat) : Int))).toNat
          = (toLen (fromIntToAFLAuthenticationType
          auth ((tf.afl_mcl.val &&& 0x0f : Nat) : Int))).toNat := by
        simp only [aflFieldLen, if_pos hbit]
      have hsub : pos' - pf = (toLen (fromIntToAFLAuthenticationType
          auth ((tf.afl_mcl.val &&& 0x0f : Nat) : Int))).toNat := by omega
      refine ⟨by rw [hn, hp], hl, v1, ?_, fun _ => ⟨hlen, ?_⟩, fun hc => absurd hbit hc, ?_⟩
      · rw [v2, v3, v4, v5, v6]
      · rw [hmac, n2, hsub]
      · rw [v7, hNparsed, List.append_assoc, take_drop_append _ _ _ _ (by omega)]
        congr 3
        omega
    · rw [if_neg (by simp only [decide_eq_true_eq]; exact hbit)] at h
      simp only [Option.some.injEq, Prod.mk.injEq, true_and] at h
      obtain ⟨h1, h2⟩ := h
      subst h1 h2
      have hn : aflFieldLen tc.afl_fc 0x0400 (toLen (fromIntToAFLAuthenticationType
          auth ((tf.afl_mcl.val &&& 0x0f : Nat) : Int))).toNat = 0 := by
        simp only [aflFieldLen, if_neg hbit]
      exact ⟨by rw [hn, Nat.add_zero], hNl, hNf, rfl, fun hc => absurd hc hbit, fun _ => n2, hNparsed⟩
  obtain ⟨hMp, hMl, hMf, hMv, hMmac, hMnomac, hMparsed⟩ := hM
  simp only [Prod.mk.injEq] at hMv
  obtain ⟨m1, m2, m3, m4, m5⟩ := hMv
  have efc : t'.afl_fc = tc.afl_fc := by rw [m1, n1]
  have emcl : t'.afl_mcl = td.afl_mcl := by rw [m2, hNm]
  have emcl2 : tf.afl_mcl = t'.afl_mcl := m2.symm
  rw [emcl2] at hMp hMmac
  refine ⟨al, f0, f1, r1, r2, r3, by rw [efc, vfc], ?_, ?_, ?_, ?_, ?_, ?_, ?_, hMl, hMf,
    hMparsed⟩
  · rw [efc, emcl]; exact hCm1
  · rw [efc, emcl]; exact hCm0
  · rw [efc, ← hCp, m3, hNk]; exact hKk
  · rw [efc, ← hCp, ← hKp, m4, m5]; exact hNc
  · rw [efc, ← hCp, ← hKp, ← hNp]; exact hMmac
  · rw [efc]; exact hMnomac
  · rw [efc, ← hCp, ← hKp, ← hNp]; exact hMp

/-- The block of the message control field reads outside the frame only when no byte remains
at the cursor. -/
theorem parseAFL_control_none (auth : AFLAuthTypes) (t : Telegram) (pos : Nat)
    (h : parseAFL_control auth t pos = none) : t.frame.length < pos + 1 := by
  by_contra hc
  have h0 : pos < t.frame.length := by omega
  have l1 : pos + 1 ≤ t.frame.length := by omega
  simp only [parseAFL_control, List.getElem?_eq_getElem h0, addExplanationAndIncrementPos,
    l1, if_true] at h
  exact Option.noConfusion h

/-- The block of the key information reads outside the frame only when fewer than two bytes
remain at the cursor. -/
theorem parseAFL_key_info_none (t : Telegram) (pos : Nat)
    (h : parseAFL_key_info t pos = none) : t.frame.length < pos + 2 := by
  by_contra hc
  have h0 : pos < t.frame.length := by omega
  have h1 : pos + 1 < t.frame.length := by omega
  have l2 : pos + 2 ≤ t.frame.length := by omega
  simp only [parseAFL_key_info, Nat.add_zero, List.getElem?_eq_getElem h0,
    List.getElem?_eq_getElem h1, addExplanationAndIncrementPos, l2, if_true] at h
  exact Option.noConfusion h

/-- The block of the message counter reads outside the frame only when fewer than four bytes
remain at the cursor. -/
theorem parseAFL_counter_none (t : Telegram) (pos : Nat)
    (h : parseAFL_counter t pos = none) : t.frame.length < pos + 4 := by
  by_contra hc
  have h0 : pos < t.frame.length := by omega
  have h1 : pos + 1 < t.frame.length := by omega
  have h2 : pos + 2 < t.frame.length := by omega
  have h3 : pos + 3 < t.frame.length := by omega
  have l4 : pos + 4 ≤ t.frame.length := by omega
  simp only [parseAFL_counter, Nat.add_zero, List.getElem?_eq_getElem h0,
    List.getElem?_eq_getElem h1, List.getElem?_eq_getElem h2, List.getElem?_eq_getElem h3,
    addExplanationAndIncrementPos, l4, if_true] at h
  exact Option.noConfusion h

/-- The block of the MAC returns a result when sixteen bytes remain at the cursor. -/
theorem parseAFL_mac_returns (auth : AFLAuthTypes) (t : Telegram) (pos : Nat)
    (hlen : pos + 16 ≤ t.frame.length) :
    ∃ ok t1 p1, parseAFL_mac auth t pos = some (ok, t1, p1) := by
  unfold parseAFL_mac
  simp only
  generalize toLen (fromIntToAFLAuthenticationType auth
    ((t.afl_mcl.val &&& 0x0f : Nat) : Int)) = len
  split
  · exact ⟨_, _, _, rfl⟩
  rename_i hbad
  have hle : len.toNat ≤ 16 := by omega
  have hin : ∀ i ∈ List.range len.toNat, pos + i < t.frame.length := by
    intro i hi
    have := List.mem_range.1 hi
    omega
  rw [mac_loop_of_inside _ _ _ _ hin]
  have hl : pos + len.toNat ≤ t.frame.length := by omega
  simp only [addExplanationAndIncrementPos, hl, if_true]
  exact ⟨_, _, _, rfl⟩

/-- A run of `parseAFL` on the CI field 0x90 returns a result when 27 bytes remain at the
cursor, the longest the layer can be. -/
theorem parseAFL_returns (auth : AFLAuthTypes) (t : Telegram) (pos : Nat)
    (h0 : t.frame[pos]? = some 0x90) (hlen : pos + 27 ≤ t.frame.length) :
    ∃ ok t' pos', parseAFL auth t pos = some (ok, t', pos') := by
  have hE : isCiFieldOfType (((0x90 : uchar).val : Nat) : Int) .AFL = true := by decide
  have hr0 : ¬ ((t.frame.length : Int) - (pos : Int) = 0) := by omega
  have h1 : pos + 1 < t.frame.length := by omega
  have h2 : pos + 1 + 1 < t.frame.length := by omega
  have h3 : pos + 1 + 1 + 1 < t.frame.length := by omega
  have l1 : pos + 1 ≤ t.frame.length := by omega
  have l2 : pos + 1 + 1 ≤ t.frame.length := by omega
  have l4 : pos + 1 + 1 + 2 ≤ t.frame.length := by omega
  unfold parseAFL
  by_cases hrem : (t.frame.length : Int) - (pos : Int) < ciFieldLength t.ell_ci
  · simp only [h0, if_neg hr0, hE, Bool.not_true, Bool.false_eq_true, if_false,
      addExplanationAndIncrementPos, l1, l2, if_true, List.getElem?_eq_getElem h1,
      if_pos hrem]
    exact ⟨_, _, _, rfl⟩
  simp only [h0, if_neg hr0, hE, Bool.not_true, Bool.false_eq_true, if_false,
    addExplanationAndIncrementPos, l1, l2, l4, if_true, List.getElem?_eq_getElem h1,
    List.getElem?_eq_getElem h2, List.getElem?_eq_getElem h3, Nat.add_zero, if_neg hrem]
  split
  · rename_i heq
    split at heq
    · have := parseAFL_control_none _ _ _ heq
      simp only at this
      omega
    · exact Option.noConfusion heq
  rename_i td pd hd
  have hd2 : td.frame = t.frame ∧ pd ≤ pos + 5 := by
    split at hd
    · obtain ⟨hp, _, _, hv⟩ := parseAFL_control_some _ _ _ _ _ hd
      exact ⟨(Prod.mk.inj hv).1, by omega⟩
    · simp only [Option.some.injEq, Prod.mk.injEq] at hd
      obtain ⟨e1, e2⟩ := hd
      subst e1 e2
      exact ⟨rfl, by omega⟩
  split
  · rename_i heq
    split at heq
    · have := parseAFL_key_info_none _ _ heq
      rw [hd2.1] at this
      omega
    · exact Option.noConfusion heq
  rename_i te pe he
  have he2 : te.frame = t.frame ∧ pe ≤ pos + 7 := by
    split at he
    · obtain ⟨hp, _, _, hv⟩ := parseAFL_key_info_some _ _ _ _ he
      exact ⟨by rw [(Prod.mk.inj hv).1, hd2.1], by omega⟩
    · simp only [Option.some.injEq, Prod.mk.injEq] at he
      obtain ⟨e1, e2⟩ := he
      subst e1 e2
      exact ⟨hd2.1, by omega⟩
  split
  · rename_i heq
    split at heq
    · have := parseAFL_counter_none _ _ heq
      rw [he2.1] at this
      omega
    · exact Option.noConfusion heq
  rename_i tf pf hf
  have hf2 : tf.frame = t.frame ∧ pf ≤ pos + 11 := by
    split at hf
    · obtain ⟨hp, _, _, hv⟩ := parseAFL_counter_some _ _ _ _ hf
      exact ⟨by rw [(Prod.mk.inj hv).1, he2.1], by omega⟩
    · simp only [Option.some.injEq, Prod.mk.injEq] at hf
      obtain ⟨e1, e2⟩ := hf
      subst e1 e2
      exact ⟨he2.1, by omega⟩
  split
  · apply parseAFL_mac_returns
    rw [hf2.1]
    omega
  · exact ⟨_, _, _, rfl⟩

/-- C25. For a frame section that starts with the CI field 0x90, a run of `parseAFL` that
returns true has consumed, in this order: the CI byte, the AFL length byte, the two bytes of
the fragment control word fc (little-endian), one byte of message control if and only if fc
has the bit 0x2000, two bytes of key information (little-endian) if and only if fc has the bit
0x0200, the four bytes of the message counter (little-endian) if and only if fc has the bit
0x0800, and a MAC if and only if fc has the bit 0x0400; the length of the MAC is the length,
one of 2, 4, 8, 12, 16, of the authentication type in the low four bits of `afl_mcl`, and its
bytes are appended to `afl_mac_b` in wire order. The cursor has advanced by exactly the sum of
these lengths and `parsed` has grown by exactly these bytes. When 27 bytes remain at the cursor
(the longest the layer can be) the parser returns a result. -/
theorem parseAFL_consumes_fields (auth : AFLAuthTypes) (t : Telegram) (pos : Nat)
    (h0 : t.frame[pos]? = some 0x90) :
    (∀ t' pos', parseAFL auth t pos = some (true, t', pos') →
      ∃ al f0 f1 : uchar,
        t.frame[pos + 1]? = some al ∧ t.frame[pos + 2]? = some f0 ∧
        t.frame[pos + 3]? = some f1 ∧
        t'.afl_fc = f1.val * 256 + f0.val ∧
        (t'.afl_fc &&& 0x2000 ≠ 0 → t.frame[pos + 4]? = some t'.afl_mcl) ∧
        (¬ t'.afl_fc &&& 0x2000 ≠ 0 → t'.afl_mcl = t.afl_mcl) ∧
        (t'.afl_fc &&& 0x0200 ≠ 0 → ∃ k0 k1 : uchar,
          t.frame[pos + 4 + aflFieldLen t'.afl_fc 0x2000 1]? = some k0 ∧
          t.frame[pos + 4 + aflFieldLen t'.afl_fc 0x2000 1 + 1]? = some k1 ∧
          t'.afl_ki = k1.val * 256 + k0.val) ∧
        (t'.afl_fc &&& 0x0800 ≠ 0 → ∃ c0 c1 c2 c3 : uchar,
          t.frame[pos + 4 + aflFieldLen t'.afl_fc 0x2000 1 + aflFieldLen t'.afl_fc 0x0200 2]?
            = some c0 ∧
          t.frame[pos + 4 + aflFieldLen t'.afl_fc 0x2000 1 + aflFieldLen t'.afl_fc 0x0200 2
            + 1]? = some c1 ∧
          t.frame[pos + 4 + aflFieldLen t'.afl_fc 0x2000 1 + aflFieldLen t'.afl_fc 0x0200 2
            + 2]? = some c2 ∧
          t.frame[pos + 4 + aflFieldLen t'.afl_fc 0x2000 1 + aflFieldLen t'.afl_fc 0x0200 2
            + 3]? = some c3 ∧
          t'.afl_counter_b = { b0 := c0, b1 := c1, b2 := c2, b3 := c3 } ∧
          t'.afl_counter = c0.val + 256 * c1.val + 65536 * c2.val + 16777216 * c3.val) ∧
        (t'.afl_fc &&& 0x0400 ≠ 0 →
          (toLen (fromIntToAFLAuthenticationType auth ((t'.afl_mcl.val &&& 0x0f : Nat) : Int))
              = 2 ∨
            toLen (fromIntToAFLAuthenticationType auth ((t'.afl_mcl.val &&& 0x0f : Nat) : Int))
              = 4 ∨
            toLen (fromIntToAFLAuthenticationType auth ((t'.afl_mcl.val &&& 0x0f : Nat) : Int))
              = 8 ∨
            toLen (fromIntToAFLAuthenticationType auth ((t'.afl_mcl.val &&& 0x0f : Nat) : Int))
              = 12 ∨
            toLen (fromIntToAFLAuthenticationType auth ((t'.afl_mcl.val &&& 0x0f : Nat) : Int))
              = 16) ∧
          t'.afl_mac_b = t.afl_mac_b ++
            (t.frame.drop (pos + 4 + aflFieldLen t'.afl_fc 0x2000 1
                + aflFieldLen t'.afl_fc 0x0200 2 + aflFieldLen t'.afl_fc 0x0800 4)).take
              (toLen (fromIntToAFLAuthenticationType auth
                ((t'.afl_mcl.val &&& 0x0f : Nat) : Int))).toNat) ∧
        (¬ t'.afl_fc &&& 0x0400 ≠ 0 → t'.afl_mac_b = t.afl_mac_b) ∧
        pos' = pos + 4 + aflFieldLen t'.afl_fc 0x2000 1 + aflFieldLen t'.afl_fc 0x0200 2
          + aflFieldLen t'.afl_fc 0x0800 4
          + aflFieldLen t'.afl_fc 0x0400 (toLen (fromIntToAFLAuthenticationType auth
              ((t'.afl_mcl.val &&& 0x0f : Nat) : Int))).toNat ∧
        pos' ≤ t.frame.length ∧ t'.frame = t.frame ∧
        t'.parsed = t.parsed ++ (t.frame.drop pos).take (pos' - pos)) ∧
    (pos + 27 ≤ t.frame.length → ∃ ok t' pos', parseAFL auth t pos = some (ok, t', pos')) :=
  ⟨fun t' pos' h => parseAFL_true_run auth t pos h0 t' pos' h,
    fun hlen => parseAFL_returns auth t pos h0 hlen⟩

set_option maxRecDepth 100000 in
/-- Witness for C25: the AFL of the frame in the comment of `parseAFL`,
`90 0F 00 2C 25 49 EE 0A 00 77 C1 9D 3D 1A 08 AB CD`, followed by a short TPL header and
filler: the run returns true with the cursor behind the 17 bytes of the layer. -/
theorem parseAFL_consumes_fields_witness :
    ∃ t', parseAFL exampleAFLAuthTypes
        { frame := [0x90, 0x0F, 0x00, 0x2C, 0x25, 0x49, 0xEE, 0x0A, 0x00, 0x77, 0xC1, 0x9D,
            0x3D, 0x1A, 0x08, 0xAB, 0xCD, 0x7A, 0x1D, 0x00, 0x30, 0x07, 0x10, 0x2F, 0x2F, 0x00,
            0x00] } 0 = some (true, t', 17) ∧
      t'.afl_fc = 0x2C00 ∧
      t'.parsed = [0x90, 0x0F, 0x00, 0x2C, 0x25, 0x49, 0xEE, 0x0A, 0x00, 0x77, 0xC1, 0x9D,
            0x3D, 0x1A, 0x08, 0xAB, 0xCD] := by
  have hrun : (parseAFL exampleAFLAuthTypes
        { frame := [0x90, 0x0F, 0x00, 0x2C, 0x25, 0x49, 0xEE, 0x0A, 0x00, 0x77, 0xC1, 0x9D,
            0x3D, 0x1A, 0x08, 0xAB, 0xCD, 0x7A, 0x1D, 0x00, 0x30, 0x07, 0x10, 0x2F, 0x2F, 0x00,
            0x00] } 0).map (fun r => (r.1, r.2.2)) = some (true, 17) := by
    decide
  cases hr : parseAFL exampleAFLAuthTypes
        { frame := [0x90, 0x0F, 0x00, 0x2C, 0x25, 0x49, 0xEE, 0x0A, 0x00, 0x77, 0xC1, 0x9D,
            0x3D, 0x1A, 0x08, 0xAB, 0xCD, 0x7A, 0x1D, 0x00, 0x30, 0x07, 0x10, 0x2F, 0x2F, 0x00,
            0x00] } 0 with
  | none =>
    rw [hr] at hrun
    exact Option.noConfusion hrun
  | some r =>
    obtain ⟨ok, t', pos'⟩ := r
    rw [hr] at hrun
    simp only [Option.map_some', Option.some.injEq, Prod.mk.injEq] at hrun
    obtain ⟨e1, e2⟩ := hrun
    subst e1 e2
    obtain ⟨al, f0, f1, _, r2, r3, hfc, _, _, _, _, _, _, _, _, _, hparsed⟩ :=
      (parseAFL_consumes_fields exampleAFLAuthTypes
        { frame := [0x90, 0x0F, 0x00, 0x2C, 0x25, 0x49, 0xEE, 0x0A, 0x00, 0x77, 0xC1, 0x9D,
            0x3D, 0x1A, 0x08, 0xAB, 0xCD, 0x7A, 0x1D, 0x00, 0x30, 0x07, 0x10, 0x2F, 0x2F, 0x00,
            0x00] } 0 rfl).1 t' 17 hr
    have e0 : f0 = 0x00 := by
      have : (some (0x00 : uchar)) = some f0 := r2
      exact (Option.some.inj this).symm
    have e1 : f1 = 0x2C := by
      have : (some (0x2C : uchar)) = some f1 := r3
      exact (Option.some.inj this).symm
    subst e0 e1
    exact ⟨t', rfl, hfc, hparsed⟩

/-! ## The compact frame -/

/-- C26. `parse_TPL_79` reads the format signature as the little-endian 16 bit value of the
two bytes at the cursor (the bytes after the CI field); if that signature is neither in the
format signature cache nor one of the prewired signatures 0xa8ed, 0xc412, 0x61eb, 0xd2f7,
0xdd34, it returns false with the telegram's values and the cache as they were and with the
cursor behind the two signature bytes, so the bytes of the data CRC are not consumed. -/
theorem parse_TPL_79_unknown_signature (dv : DVOps) (cache : FormatCache) (t : Telegram)
    (pos : Nat) (e0 e1 : uchar)
    (h0 : t.frame[pos]? = some e0) (h1 : t.frame[pos + 1]? = some e1)
    (hcache : loadFormatBytesFromSignature cache (e1.val * 256 + e0.val) = none)
    (hknown : e1.val * 256 + e0.val ≠ 0xa8ed ∧ e1.val * 256 + e0.val ≠ 0xc412 ∧
      e1.val * 256 + e0.val ≠ 0x61eb ∧ e1.val * 256 + e0.val ≠ 0xd2f7 ∧
      e1.val * 256 + e0.val ≠ 0xdd34) :
    ∃ t', parse_TPL_79 dv cache t pos = some (false, t', pos + 2, cache) ∧
      t'.format_signature = e1.val * 256 + e0.val ∧
      t'.values = t.values ∧ t'.frame = t.frame ∧
      t'.parsed = t.parsed ++ (t.frame.drop pos).take 2 := by
  have l2 : pos + 2 ≤ t.frame.length := by
    have := lt_of_getElem?_eq_some _ _ _ h1
    omega
  have hb : hasBytes 2 pos t.frame = true := (hasBytes_iff _ _ _).2 l2
  obtain ⟨k1, k2, k3, k4, k5⟩ := hknown
  simp only [parse_TPL_79, hb, not_true_eq_false, if_false, Nat.add_zero, h0, h1,
    addExplanationAndIncrementPos, l2, if_true, shl8_or _ _ e0.isLt, hcache,
    findFormatBytesFromKnownMeterSignatures, if_neg k1, if_neg k2, if_neg k3, if_neg k4,
    if_neg k5]
  exact ⟨_, rfl, rfl, rfl, rfl, rfl⟩

/-- Witness for C26: the signature bytes `11 22` with an empty cache. -/
theorem parse_TPL_79_unknown_signature_witness :
    ∃ t', parse_TPL_79 stubDVOps [] { frame := [0x11, 0x22, 0x00, 0x00, 0x2F] } 0
        = some (false, t', 0 + 2, []) ∧
      t'.format_signature = (0x22 : uchar).val * 256 + (0x11 : uchar).val ∧
      t'.values = ({ frame := [0x11, 0x22, 0x00, 0x00, 0x2F] } : Telegram).values ∧
      t'.frame = ({ frame := [0x11, 0x22, 0x00, 0x00, 0x2F] } : Telegram).frame ∧
      t'.parsed = ({ frame := [0x11, 0x22, 0x00, 0x00, 0x2F] } : Telegram).parsed
        ++ (({ frame := [0x11, 0x22, 0x00, 0x00, 0x2F] } : Telegram).frame.drop 0).take 2 :=
  parse_TPL_79_unknown_signature stubDVOps [] { frame := [0x11, 0x22, 0x00, 0x00, 0x2F] } 0
    0x11 0x22 rfl rfl rfl (by decide)

/-- C27. For a compact frame whose format signature is 0xdd34 (wire bytes `34 DD`) and which
is not in the cache, `findFormatBytesFromKnownMeterSignatures` succeeds and yields exactly the
format bytes `02 FF 20 04 13 44 13`; with the two bytes of the data CRC in the frame,
`parse_TPL_79` returns true, the cursor behind the data CRC, after calling `parseDV` with
these format bytes. -/
theorem parse_TPL_79_signature_dd34 (dv : DVOps) (cache : FormatCache) (t : Telegram)
    (pos : Nat)
    (h0 : t.frame[pos]? = some 0x34) (h1 : t.frame[pos + 1]? = some 0xDD)
    (hcache : loadFormatBytesFromSignature cache 0xdd34 = none)
    (hlen : pos + 4 ≤ t.frame.length) :
    (∀ u : Telegram, u.format_signature = 0xdd34 →
      findFormatBytesFromKnownMeterSignatures u
        = some [0x02, 0xFF, 0x20, 0x04, 0x13, 0x44, 0x13]) ∧
    ∃ t2, parse_TPL_79 dv cache t pos
        = some (true,
            (dv.parseDV cache t2 (pos + 4) ((t.frame.length : Int) - ((pos + 4 : Nat) : Int))
              (some [0x02, 0xFF, 0x20, 0x04, 0x13, 0x44, 0x13])).1,
            pos + 4,
            (dv.parseDV cache t2 (pos + 4) ((t.frame.length : Int) - ((pos + 4 : Nat) : Int))
              (some [0x02, 0xFF, 0x20, 0x04, 0x13, 0x44, 0x13])).2) ∧
      t2.format_signature = 0xdd34 ∧ t2.frame = t.frame ∧
      t2.parsed = t.parsed ++ (t.frame.drop pos).take 2 ++ (t.frame.drop (pos + 2)).take 2 ∧
      t2.values = t.values := by
  have hfind : ∀ u : Telegram, u.format_signature = 0xdd34 →
      findFormatBytesFromKnownMeterSignatures u
        = some [0x02, 0xFF, 0x20, 0x04, 0x13, 0x44, 0x13] := by
    intro u hu
    simp only [findFormatBytesFromKnownMeterSignatures, hu]
    decide
  refine ⟨hfind, ?_⟩
  have l2 : pos + 2 ≤ t.frame.length := by omega
  have hb : hasBytes 2 pos t.frame = true := (hasBytes_iff _ _ _).2 l2
  have hb2 : hasBytes 2 (pos + 2) t.frame = true := (hasBytes_iff _ _ _).2 (by omega)
  have h2 : pos + 2 < t.frame.length := by omega
  have h3 : pos + 2 + 1 < t.frame.length := by omega
  have l4 : pos + 2 + 2 ≤ t.frame.length := by omega
  have hsig : ((0xDD : uchar).val <<< 8) ||| (0x34 : uchar).val = 0xdd34 := by decide
  have hf := hfind { t with
    explanations := t.explanations ++ [(t.parsed.length, vsnprintf1023
      (fmt02x (0x34 : uchar).val ++ fmt02x (0xDD : uchar).val ++ " format signature"))],
    parsed := t.parsed ++ (t.frame.drop pos).take 2,
    format_signature := 0xdd34 } rfl
  simp only [parse_TPL_79, hb, not_true_eq_false, if_false, Nat.add_zero, h0, h1,
    addExplanationAndIncrementPos, l2, if_true, hsig, hcache, hf, hb2,
    List.getElem?_eq_getElem h2, List.getElem?_eq_getElem h3, l4]
  exact ⟨_, rfl, rfl, rfl, rfl, rfl⟩

/-- Witness for C27: the signature bytes `34 DD` followed by a data CRC and one record, with
an empty cache. -/
theorem parse_TPL_79_signature_dd34_witness :
    (∀ u : Telegram, u.format_signature = 0xdd34 →
      findFormatBytesFromKnownMeterSignatures u
        = some [0x02, 0xFF, 0x20, 0x04, 0x13, 0x44, 0x13]) ∧
    ∃ t2, parse_TPL_79 stubDVOps [] { frame := [0x34, 0xDD, 0x12, 0x34, 0x00, 0x00] } 0
        = some (true, t2, 4, []) := by
  obtain ⟨hfind, t2, hrun, _⟩ := parse_TPL_79_signature_dd34 stubDVOps []
    { frame := [0x34, 0xDD, 0x12, 0x34, 0x00, 0x00] } 0 rfl rfl rfl (by decide)
  exact ⟨hfind, t2, hrun⟩

/-! ## The whole parse and unsupported CI fields -/

/-- The run of `parseDLL` from the frame start on a frame given by its first ten bytes: the
result is true, the cursor is behind the ten bytes and these are the bytes added to
`parsed`. -/
theorem parseDLL_from_start (t : Telegram) (b0 b1 b2 b3 b4 b5 b6 b7 b8 b9 : uchar)
    (rest : List uchar)
    (hf : t.frame = b0 :: b1 :: b2 :: b3 :: b4 :: b5 :: b6 :: b7 :: b8 :: b9 :: rest)
    (hlen : b0.val ≤ 10 + rest.length) :
    ∃ t', parseDLL t 0 = some (true, t', 10) ∧ t'.frame = t.frame ∧
      t'.parsed = t.parsed ++ [b0, b1, b2, b3, b4, b5, b6, b7, b8, b9] ∧
      t'.values = t.values ∧ t'.explanations.length = t.explanations.length + 6 := by
  have hl : ¬ ((10 : Int) + rest.length < b0.val) := by omega
  simp only [parseDLL, addExplanationAndIncrementPos, hf, expectedMore]
  simp
  rw [if_neg (by omega), if_neg (by omega)]
  exact ⟨_, rfl, rfl, by simp, rfl, by simp⟩

/-- `parseELL` passes a CI field that is not of the type ELL on: the result is true and
nothing is consumed. -/
theorem parseELL_passes (ops : LinkOps) (t : Telegram) (pos : Nat) (ci : uchar)
    (h0 : t.frame[pos]? = some ci) (hE : isCiFieldOfType ci.val .ELL = false) :
    parseELL ops t pos = some (true, t, pos) := by
  have hlt := lt_of_getElem?_eq_some _ _ _ h0
  have hr0 : ¬ ((t.frame.length : Int) - (pos : Int) = 0) := by omega
  simp only [parseELL, h0, if_neg hr0, hE, Bool.not_false, if_true]

/-- `parseAFL` passes a CI field that is not of the type AFL on: the result is true and
nothing is consumed. -/
theorem parseAFL_passes (auth : AFLAuthTypes) (t : Telegram) (pos : Nat) (ci : uchar)
    (h0 : t.frame[pos]? = some ci) (hA : isCiFieldOfType ci.val .AFL = false) :
    parseAFL auth t pos = some (true, t, pos) := by
  have hlt := lt_of_getElem?_eq_some _ _ _ h0
  have hr0 : ¬ ((t.frame.length : Int) - (pos : Int) = 0) := by omega
  simp only [parseAFL, h0, if_neg hr0, hA, Bool.not_false, if_true]

/-- `parseTPL` returns true on a CI field that is not of the type TPL, with nothing
consumed and the cache as it was. -/
theorem parseTPL_passes (cr : Crypto) (dv : DVOps) (cache : FormatCache) (t : Telegram)
    (pos : Nat) (ci : uchar)
    (h0 : t.frame[pos]? = some ci) (hT : isCiFieldOfType ci.val .TPL = false) :
    parseTPL cr dv cache t pos = some (true, t, pos, cache) := by
  have hlt := lt_of_getElem?_eq_some _ _ _ h0
  have hr0 : ¬ ((t.frame.length : Int) - (pos : Int) = 0) := by omega
  have hb : hasBytes 1 pos t.frame = true := (hasBytes_iff _ _ _).2 (by omega)
  simp only [parseTPL, h0, if_neg hr0, hb, not_true_eq_false, if_false, hT, Bool.not_false,
    if_true]

set_option maxRecDepth 100000 in
/-- C28, the code at the failing input. The frame `0A 44 2D 2C 78 56 34 12 30 03 81` is a DLL
header followed by the network layer CI 0x81; `parse` returns true for it, and `parseTPL` at
this CI returns true with nothing consumed. The sibling path of `parseTPL` returns false: for
the same header followed by 0x51, a CI of the catalogue that `parseTPL` does not implement,
`parse` returns false. -/
theorem parse_accepts_nwl_ci_0x81 :
    (parse stubCrypto stubLinkOps exampleAFLAuthTypes stubDVOps [] {}
      [0x0A, 0x44, 0x2D, 0x2C, 0x78, 0x56, 0x34, 0x12, 0x30, 0x03, 0x81] {}).map
        (fun r => r.1) = some true ∧
    (parseTPL stubCrypto stubDVOps []
      { frame := [0x0A, 0x44, 0x2D, 0x2C, 0x78, 0x56, 0x34, 0x12, 0x30, 0x03, 0x81] } 10).map
        (fun r => (r.1, r.2.2.1)) = some (true, 10) ∧
    (parse stubCrypto stubLinkOps exampleAFLAuthTypes stubDVOps [] {}
      [0x0A, 0x44, 0x2D, 0x2C, 0x78, 0x56, 0x34, 0x12, 0x30, 0x03, 0x51] {}).map
        (fun r => r.1) = some false := by
  decide

/-- The guard of `parseTPL` in `parse`, for every frame: when the frame starts with a DLL
header which passes the length check of `parseDLL`, followed by a CI byte that is a network
layer CI (0x81, 0x83, 0x87, 0x88, 0x89) or any other value outside the CI catalogue (of none of
the types ELL, AFL, TPL), `parse` returns true: `parseELL` and `parseAFL` pass the byte on and
`parseTPL` gives a warning only. The telegram then has the ten bytes of the DLL header parsed
and explained and nothing else, its values and the cache are as they were. -/
theorem parse_accepts_unsupported_ci (cr : Crypto) (ops : LinkOps) (auth : AFLAuthTypes)
    (dv : DVOps) (cache : FormatCache) (t0 : Telegram) (mk : MeterKeys)
    (b0 b1 b2 b3 b4 b5 b6 b7 b8 b9 ci : uchar) (rest : List uchar)
    (hlen : b0.val ≤ 11 + rest.length)
    (hci : (ci = 0x81 ∨ ci = 0x83 ∨ ci = 0x87 ∨ ci = 0x88 ∨ ci = 0x89) ∨
      (isCiFieldOfType ci.val .ELL = false ∧ isCiFieldOfType ci.val .AFL = false ∧
        isCiFieldOfType ci.val .TPL = false)) :
    ∃ t', parse cr ops auth dv cache t0
        (b0 :: b1 :: b2 :: b3 :: b4 :: b5 :: b6 :: b7 :: b8 :: b9 :: ci :: rest) mk
        = some (true, t', cache) ∧
      t'.frame = b0 :: b1 :: b2 :: b3 :: b4 :: b5 :: b6 :: b7 :: b8 :: b9 :: ci :: rest ∧
      t'.parsed = [b0, b1, b2, b3, b4, b5, b6, b7, b8, b9] ∧
      t'.explanations.length = 6 ∧ t'.values = t0.values := by
  have hcat : isCiFieldOfType ci.val .ELL = false ∧ isCiFieldOfType ci.val .AFL = false ∧
      isCiFieldOfType ci.val .TPL = false := by
    rcases hci with (h | h | h | h | h) | h
    · subst h; decide
    · subst h; decide
    · subst h; decide
    · subst h; decide
    · subst h; decide
    · exact h
  obtain ⟨hE, hA, hT⟩ := hcat
  obtain ⟨t1, hdll, hf1, hp1, hv1, he1⟩ := parseDLL_from_start
    { t0 with explanations := [], meter_keys := mk,
              frame := b0 :: b1 :: b2 :: b3 :: b4 :: b5 :: b6 :: b7 :: b8 :: b9 :: ci :: rest,
              parsed := [] }
    b0 b1 b2 b3 b4 b5 b6 b7 b8 b9 (ci :: rest) rfl (by simp only [List.length_cons]; omega)
  have h10 : t1.frame[10]? = some ci := by rw [hf1]; simp
  have hell := parseELL_passes ops t1 10 ci h10 hE
  have hafl := parseAFL_passes auth t1 10 ci h10 hA
  have htpl := parseTPL_passes cr dv cache t1 10 ci h10 hT
  simp only [parse, hdll, hell, parseNWL, hafl, htpl, Bool.not_true, Bool.false_eq_true,
    if_false]
  exact ⟨t1, rfl, hf1, by rw [hp1]; rfl, by rw [he1]; rfl, hv1⟩

/-- The guard of `parseTPL` in `parse` at the DLL header `0A 44 2D 2C 78 56 34 12 30 03`
followed by the network layer CI 0x81. -/
theorem parse_accepts_unsupported_ci_witness :
    ∃ t', parse stubCrypto stubLinkOps exampleAFLAuthTypes stubDVOps [] {}
        [0x0A, 0x44, 0x2D, 0x2C, 0x78, 0x56, 0x34, 0x12, 0x30, 0x03, 0x81] {}
        = some (true, t', []) ∧
      t'.frame = [0x0A, 0x44, 0x2D, 0x2C, 0x78, 0x56, 0x34, 0x12, 0x30, 0x03, 0x81] ∧
      t'.parsed = [0x0A, 0x44, 0x2D, 0x2C, 0x78, 0x56, 0x34, 0x12, 0x30, 0x03] ∧
      t'.explanations.length = 6 ∧ t'.values = ({} : Telegram).values :=
  parse_accepts_unsupported_ci stubCrypto stubLinkOps exampleAFLAuthTypes stubDVOps [] {} {}
    0x0A 0x44 0x2D 0x2C 0x78 0x56 0x34 0x12 0x30 0x03 0x81 [] (by decide) (Or.inl (Or.inl rfl))

/-! ## The explanation trail -/

/-- The i-th running sum is the sum of the first i lengths. -/
theorem rangeOffsets_getElem? (ls : List Nat) :
    ∀ (start i : Nat), i < ls.length →
      (rangeOffsets start ls)[i]? = some (start + (ls.take i).sum) := by
  induction ls with
  | nil => intro start i hi; exact absurd hi (Nat.not_lt_zero _)
  | cons l ls ih =>
    intro start i hi
    cases i with
    | zero => simp [rangeOffsets]
    | succ i =>
      have := ih (start + l) i (by simpa using hi)
      simp [rangeOffsets, this, Nat.add_assoc]

/-- There is one running sum per length. -/
theorem rangeOffsets_length (ls : List Nat) :
    ∀ start : Nat, (rangeOffsets start ls).length = ls.length := by
  induction ls with
  | nil => intro start; rfl
  | cons l ls ih => intro start; simp [rangeOffsets, ih]

/-- No running sum is below the start. -/
theorem le_of_mem_rangeOffsets (ls : List Nat) :
    ∀ (start x : Nat), x ∈ rangeOffsets start ls → start ≤ x := by
  induction ls with
  | nil => intro start x hx; simp [rangeOffsets] at hx
  | cons l ls ih =>
    intro start x hx
    simp only [rangeOffsets, List.mem_cons] at hx
    rcases hx with rfl | hx
    · exact le_refl _
    · have := ih _ _ hx
      omega

/-- The running sums of positive lengths increase strictly. -/
theorem rangeOffsets_pairwise (ls : List Nat) :
    ∀ start : Nat, (∀ l ∈ ls, 0 < l) → (rangeOffsets start ls).Pairwise (· < ·) := by
  induction ls with
  | nil => intro start _; exact List.Pairwise.nil
  | cons l ls ih =>
    intro start hpos
    have hl : 0 < l := hpos l (List.mem_cons_self _ _)
    simp only [rangeOffsets, List.pairwise_cons]
    refine ⟨?_, ih _ (fun x hx => hpos x (List.mem_cons_of_mem _ hx))⟩
    intro x hx
    have := le_of_mem_rangeOffsets ls _ _ hx
    omega

/-- Consecutive ranges concatenate to one range. -/
theorem consumedRanges_flatten (frame : List uchar) (ls : List Nat) :
    ∀ pos : Nat, (consumedRanges frame pos ls).flatten = (frame.drop pos).take ls.sum := by
  induction ls with
  | nil => intro pos; simp [consumedRanges]
  | cons l ls ih =>
    intro pos
    simp only [consumedRanges, List.flatten_cons, ih, List.sum_cons]
    rw [List.take_add, List.drop_drop]

/-- A sequence of calls of `addExplanationAndIncrementPos` that stays inside the frame: the
cursor advances by the sum of the lengths, the offsets of the new explanations are the running
sums of the lengths from the size of `parsed`, and the consumed ranges are appended to
`parsed`. -/
theorem addExplanations_spec (calls : List (Nat × String)) :
    ∀ (t : Telegram) (pos : Nat), pos + (calls.map Prod.fst).sum ≤ t.frame.length →
      ∃ t', addExplanations t pos calls = some (t', pos + (calls.map Prod.fst).sum) ∧
        t'.frame = t.frame ∧
        t'.explanations.map Prod.fst
          = t.explanations.map Prod.fst ++ rangeOffsets t.parsed.length (calls.map Prod.fst) ∧
        t'.explanations.map Prod.snd
          = t.explanations.map Prod.snd ++ calls.map (fun c => vsnprintf1023 c.2) ∧
        t'.parsed = t.parsed ++ (consumedRanges t.frame pos (calls.map Prod.fst)).flatten := by
  induction calls with
  | nil => intro t pos _; exact ⟨t, by simp [addExplanations, rangeOffsets, consumedRanges]⟩
  | cons c cs ih =>
    intro t pos hfit
    simp only [List.map_cons, List.sum_cons] at hfit
    have h1 : pos + c.1 ≤ t.frame.length := by omega
    obtain ⟨t', hrun, hf, he, hs, hp⟩ := ih
      { t with explanations := t.explanations ++ [(t.parsed.length, vsnprintf1023 c.2)],
               parsed := t.parsed ++ (t.frame.drop pos).take c.1 } (pos + c.1)
      (by simp only; omega)
    refine ⟨t', ?_, hf, ?_, ?_, ?_⟩
    · simp only [addExplanations, addExplanationAndIncrementPos, if_pos h1, List.map_cons,
        List.sum_cons]
      rw [hrun, Nat.add_assoc]
    · rw [he]
      have hmin : min c.1 (t.frame.length - pos) = c.1 := by omega
      simp [rangeOffsets, List.length_take, List.length_drop, hmin]
    · rw [hs]
      simp
    · rw [hp]
      simp [consumedRanges]

/-- C29. Explanation trail invariant: starting from a cleared telegram (no explanations,
nothing parsed), a sequence of calls of `addExplanationAndIncrementPos` with the lengths
l1..ln that stays inside the frame returns, the cursor advanced by the sum of the lengths;
there is one explanation per call, the offset of the i-th explanation (counted from 0) is the
sum of the first i lengths, the offsets are strictly increasing when all lengths are positive,
`parsed` is the concatenation of the consumed byte ranges, which is the frame range from the
first cursor to the last, and when consumption started at the frame start `parsed` is the
frame prefix of length (cursor - frame start). -/
theorem addExplanations_trail_invariant (t : Telegram) (pos : Nat)
    (calls : List (Nat × String))
    (hclear : t.explanations = [] ∧ t.parsed = [])
    (hfit : pos + (calls.map Prod.fst).sum ≤ t.frame.length) :
    ∃ t', addExplanations t pos calls = some (t', pos + (calls.map Prod.fst).sum) ∧
      t'.frame = t.frame ∧
      t'.explanations.length = calls.length ∧
      (∀ i, i < calls.length →
        (t'.explanations.map Prod.fst)[i]? = some (((calls.map Prod.fst).take i).sum)) ∧
      ((∀ c ∈ calls, 0 < c.1) → (t'.explanations.map Prod.fst).Pairwise (· < ·)) ∧
      t'.parsed = (consumedRanges t.frame pos (calls.map Prod.fst)).flatten ∧
      t'.parsed = (t.frame.drop pos).take (calls.map Prod.fst).sum ∧
      t'.parsed.length = (calls.map Prod.fst).sum ∧
      (pos = 0 → t'.parsed = t.frame.take (calls.map Prod.fst).sum) := by
  obtain ⟨t', hrun, hf, he, _, hp⟩ := addExplanations_spec calls t pos hfit
  rw [hclear.1, hclear.2] at he
  rw [hclear.2] at hp
  simp only [List.map_nil, List.nil_append, List.length_nil] at he hp
  have hp2 : t'.parsed = (t.frame.drop pos).take (calls.map Prod.fst).sum := by
    rw [hp, consumedRanges_flatten]
  refine ⟨t', hrun, hf, ?_, ?_, ?_, hp, hp2, ?_, ?_⟩
  · have := congrArg List.length he
    simpa [rangeOffsets_length] using this
  · intro i hi
    rw [he, rangeOffsets_getElem? _ 0 i (by simpa using hi), Nat.zero_add]
  · intro hpos
    rw [he]
    apply rangeOffsets_pairwise
    intro l hl
    obtain ⟨c, hc, rfl⟩ := List.mem_map.1 hl
    exact hpos c hc
  · rw [hp2, List.length_take, List.length_drop]
    omega
  · intro h0
    rw [hp2, h0, List.drop_zero]

/-- Witness for C29: three calls with the lengths 1, 2, 1 from the start of a five byte frame
on a cleared telegram. -/
theorem addExplanations_trail_invariant_witness :
    ∃ t', addExplanations { frame := [0x0A, 0x44, 0x2D, 0x2C, 0x78] } 0
        [(1, "length"), (2, "mfct"), (1, "id")]
        = some (t', 0 + ([(1, "length"), (2, "mfct"), (1, "id")].map Prod.fst).sum) ∧
      t'.frame = ({ frame := [0x0A, 0x44, 0x2D, 0x2C, 0x78] } : Telegram).frame ∧
      t'.explanations.length = [(1, "length"), (2, "mfct"), (1, "id")].length ∧
      (∀ i, i < [(1, "length"), (2, "mfct"), (1, "id")].length →
        (t'.explanations.map Prod.fst)[i]?
          = some ((([(1, "length"), (2, "mfct"), (1, "id")].map Prod.fst).take i).sum)) ∧
      ((∀ c ∈ [(1, "length"), (2, "mfct"), (1, "id")], 0 < c.1) →
        (t'.explanations.map Prod.fst).Pairwise (· < ·)) ∧
      t'.parsed = (consumedRanges ({ frame := [0x0A, 0x44, 0x2D, 0x2C, 0x78] } : Telegram).frame
        0 ([(1, "length"), (2, "mfct"), (1, "id")].map Prod.fst)).flatten ∧
      t'.parsed = (({ frame := [0x0A, 0x44, 0x2D, 0x2C, 0x78] } : Telegram).frame.drop 0).take
        ([(1, "length"), (2, "mfct"), (1, "id")].map Prod.fst).sum ∧
      t'.parsed.length = ([(1, "length"), (2, "mfct"), (1, "id")].map Prod.fst).sum ∧
      (0 = 0 → t'.parsed = ({ frame := [0x0A, 0x44, 0x2D, 0x2C, 0x78] } : Telegram).frame.take
        ([(1, "length"), (2, "mfct"), (1, "id")].map Prod.fst).sum) :=
  addExplanations_trail_invariant { frame := [0x0A, 0x44, 0x2D, 0x2C, 0x78] } 0
    [(1, "length"), (2, "mfct"), (1, "id")] ⟨rfl, rfl⟩ (by decide)

/-- C30, counterexample. On the trail with the one explanation `x` at offset 0, enriching the
offset 0 with `a` and then with `b` gives the annotation `* * xab`; enriching it with `b` alone
gives `* xb`. -/
theorem addMoreExplanation_twice_accumulates :
    (addMoreExplanation (addMoreExplanation { explanations := [(0, "x")] } 0 "a") 0 "b").explanations
      = [(0, "* * xab")] ∧
    (addMoreExplanation { explanations := [(0, "x")] } 0 "b").explanations = [(0, "* xb")] ∧
    (addMoreExplanation (addMoreExplanation { explanations := [(0, "x")] } 0 "a") 0 "b").explanations
      ≠ (addMoreExplanation { explanations := [(0, "x")] } 0 "b").explanations := by
  decide

/-- C30, amended. Enriching the same offset twice accumulates: after
`addMoreExplanation p a` followed by `addMoreExplanation p b` the annotation at every
explanation with offset p is `"* "`, then the annotation after `addMoreExplanation p a` alone
(which is `"* "`, the original text and a), then b, where a and b are cut to 1022 characters;
all other annotations and all offsets are unchanged, and so is the rest of the telegram. -/
theorem addMoreExplanation_twice (t : Telegram) (p : Int) (a b : String) :
    (addMoreExplanation (addMoreExplanation t p a) p b).explanations
      = t.explanations.map (fun e =>
          if (e.1 : Int) = p
          then (e.1, "* " ++ ("* " ++ e.2 ++ vsnprintf1023 a) ++ vsnprintf1023 b) else e) ∧
    (addMoreExplanation t p a).explanations
      = t.explanations.map (fun e =>
          if (e.1 : Int) = p then (e.1, "* " ++ e.2 ++ vsnprintf1023 a) else e) ∧
    (addMoreExplanation (addMoreExplanation t p a) p b).explanations.map Prod.fst
      = t.explanations.map Prod.fst ∧
    addMoreExplanation (addMoreExplanation t p a) p b
      = { t with explanations :=
            (addMoreExplanation (addMoreExplanation t p a) p b).explanations } := by
  refine ⟨?_, rfl, ?_, rfl⟩
  · simp only [addMoreExplanation, List.map_map]
    apply List.map_congr_left
    intro e _
    by_cases h : (e.1 : Int) = p <;> simp [h]
  · simp only [addMoreExplanation, List.map_map]
    apply List.map_congr_left
    intro e _
    by_cases h : (e.1 : Int) = p <;> simp [h]

/-! ## The VIF tables: extension bit, flow codes and decades -/

/-- Setting the extension bit of a code below 128 does not change its low seven bits. -/
theorem or_0x80_and_0x7f : ∀ v : Fin 128, (v.val ||| 0x80) &&& 0x7f = v.val := by
  decide

set_option maxRecDepth 1000000 in
/-- The key of a code does not depend on the extension bit. -/
theorem vifKey_or_0x80 : ∀ v : Fin 128,
    vifKey ((v.val ||| 0x80 : Nat) : Int) = vifKey v.val := by
  decide

set_option maxRecDepth 1000000 in
/-- The unit of a code does not depend on the extension bit. -/
theorem vifUnit_or_0x80 : ∀ v : Fin 128,
    vifUnit ((v.val ||| 0x80 : Nat) : Int) = vifUnit v.val := by
  decide

/-- The scale of a code does not depend on the extension bit. -/
theorem vifScale_or_0x80 (v : Fin 128) :
    vifScale ((v.val ||| 0x80 : Nat) : Int) = vifScale v.val := by
  rw [vifScale_mask (v.val ||| 0x80), or_0x80_and_0x7f v]

/-- The scale of the code 0x2B, power in W, is 1000. -/
theorem vifScale_0x2B : vifScale 0x2B = 1000 := by
  show vifScale ((43 : Nat) : Int) = 1000
  rw [vifScale_low 43 (by decide)]
  simp [vifScaleTable, List.lookup]
  norm_num

/-- C35. `vifScale`, `vifKey` and `vifUnit` depend only on the low seven bits of the VIF: for
every v in 0x00..0x7F, f(v | 0x80) = f(v) for each of the three; the VIFs 0x84 and 0xAB of the
Omnipower records `04843C` and `04AB3C` have the scale, key and unit of 0x04 (energy in units
of 10 Wh: 100 raw units per kWh) and of 0x2B (power in W: 1000 raw units per kW). -/
theorem vif_depends_on_low_seven_bits (v : Fin 128) :
    vifScale ((v.val ||| 0x80 : Nat) : Int) = vifScale v.val ∧
    vifKey ((v.val ||| 0x80 : Nat) : Int) = vifKey v.val ∧
    vifUnit ((v.val ||| 0x80 : Nat) : Int) = vifUnit v.val ∧
    vifScale 0x84 = vifScale 0x04 ∧ vifScale 0x84 = 100 ∧
    vifKey 0x84 = vifKey 0x04 ∧ vifKey 0x84 = "energy" ∧
    vifUnit 0x84 = vifUnit 0x04 ∧ vifUnit 0x84 = "kwh" ∧
    vifScale 0xAB = vifScale 0x2B ∧ vifScale 0xAB = 1000 ∧
    vifKey 0xAB = vifKey 0x2B ∧ vifKey 0xAB = "power" ∧
    vifUnit 0xAB = vifUnit 0x2B ∧ vifUnit 0xAB = "kw" := by
  have h84 : vifScale 0x84 = vifScale 0x04 := vifScale_or_0x80 4
  have hAB : vifScale 0xAB = vifScale 0x2B := vifScale_or_0x80 43
  have h04 : vifScale 0x04 = (10 : ℚ) ^ ((6 : ℤ) - 4) := vifScale_energy 4
  refine ⟨vifScale_or_0x80 v, vifKey_or_0x80 v, vifUnit_or_0x80 v, h84, ?_, by decide,
    by decide, by decide, by decide, hAB, ?_, by decide, by decide, by decide, by decide⟩
  · rw [h84, h04]; norm_num
  · rw [hAB, vifScale_0x2B]

/-- The scales of the extended volume flow codes. -/
theorem vifScale_flow_ext (n : Fin 8) :
    vifScale ((0x40 + n.val : Nat) : Int) = (10 : ℚ) ^ ((7 : ℤ) - (n.val : ℤ)) * 60 ∧
    vifScale ((0x48 + n.val : Nat) : Int) = (10 : ℚ) ^ ((9 : ℤ) - (n.val : ℤ)) * 3600 := by
  rw [vifScale_low (0x40 + n.val) (by omega), vifScale_low (0x48 + n.val) (by omega)]
  fin_cases n <;> simp [vifScaleTable, List.lookup] <;> norm_num

/-- C36, the code at the failing input. For the VIF 0x47 (raw unit m3/min) and the raw value
1, dividing by `vifScale` as for the volume codes gives 1/60 and not 60; for the VIF 0x4E (raw
unit l/s) it gives 1/3600000 and not 3.6. In general the scale of the code 0x40+n is
`10^(7-n) * 60` and that of 0x48+n is `10^(9-n) * 3600`, so the quotient is
`r * 10^(n-7) / 60` and `r * 10^(n-9) / 3600`. -/
theorem vifScale_flow_ext_divides_by_minutes :
    (1 : ℚ) / vifScale 0x47 = 1 / 60 ∧ (1 : ℚ) / vifScale 0x47 ≠ 1 * 10 ^ ((7 : ℤ) - 7) * 60 ∧
    (1 : ℚ) / vifScale 0x4E = 1 / 3600000 ∧
    (1 : ℚ) / vifScale 0x4E ≠ 1 * 10 ^ ((6 : ℤ) - 9) * 3600 ∧
    vifUnit 0x47 = "m3/h" ∧ vifUnit 0x4E = "m3/h" ∧
    (1 : ℚ) / vifScale 0x13 = 1 / 1000 ∧
    ∀ (n : Fin 8) (r : ℚ),
      r / vifScale ((0x40 + n.val : Nat) : Int) = r * (10 : ℚ) ^ ((n.val : ℤ) - 7) / 60 ∧
      r / vifScale ((0x48 + n.val : Nat) : Int) = r * (10 : ℚ) ^ ((n.val : ℤ) - 9) / 3600 := by
  have h47 : vifScale 0x47 = (10 : ℚ) ^ ((7 : ℤ) - 7) * 60 := (vifScale_flow_ext 7).1
  have h4E : vifScale 0x4E = (10 : ℚ) ^ ((9 : ℤ) - 6) * 3600 := (vifScale_flow_ext 6).2
  have h13 : vifScale 0x13 = 1000 := by
    show vifScale ((19 : Nat) : Int) = 1000
    rw [vifScale_low 19 (by decide)]
    simp [vifScaleTable, List.lookup]
    norm_num
  refine ⟨?_, ?_, ?_, ?_, by decide, by decide, ?_, ?_⟩
  · rw [h47]; norm_num
  · rw [h47]; norm_num
  · rw [h4E]; norm_num
  · rw [h4E]; norm_num
  · rw [h13]
  · intro n r
    obtain ⟨h1, h2⟩ := vifScale_flow_ext n
    rw [h1, h2]
    have e1 : (10 : ℚ) ^ ((7 : ℤ) - (n.val : ℤ)) = ((10 : ℚ) ^ ((n.val : ℤ) - 7))⁻¹ := by
      rw [← zpow_neg]; congr 1; ring
    have e2 : (10 : ℚ) ^ ((9 : ℤ) - (n.val : ℤ)) = ((10 : ℚ) ^ ((n.val : ℤ) - 9))⁻¹ := by
      rw [← zpow_neg]; congr 1; ring
    have p1 : (10 : ℚ) ^ ((n.val : ℤ) - 7) ≠ 0 := zpow_ne_zero _ (by norm_num)
    have p2 : (10 : ℚ) ^ ((n.val : ℤ) - 9) ≠ 0 := zpow_ne_zero _ (by norm_num)
    rw [e1, e2]
    constructor <;> field_simp

set_option maxHeartbeats 4000000 in
/-- The decades of the blocks of eight codes. -/
theorem vifScale_decade (base : Nat)
    (hb : base ∈ [0x00, 0x08, 0x10, 0x18, 0x28, 0x30, 0x38, 0x40, 0x48, 0x50]) (k : Fin 7) :
    vifScale ((base + k.val + 1 : Nat) : Int) * 10 = vifScale ((base + k.val : Nat) : Int) := by
  have hlt : base + k.val + 1 < 128 := by
    simp only [List.mem_cons, List.mem_singleton, List.not_mem_nil, or_false] at hb
    omega
  rw [vifScale_low _ hlt, vifScale_low _ (by omega)]
  simp only [List.mem_cons, List.mem_singleton, List.not_mem_nil, or_false] at hb
  rcases hb with rfl | rfl | rfl | rfl | rfl | rfl | rfl | rfl | rfl | rfl <;>
    fin_cases k <;> simp [vifScaleTable, List.lookup] <;> norm_num

/-- The blocks of four codes. -/
theorem vifScale_block_of_four (base : Nat) (hb : base ∈ [0x58, 0x5C, 0x60, 0x64, 0x68])
    (k : Fin 4) :
    vifScale ((base + k.val : Nat) : Int) = (10 : ℚ) ^ ((3 : ℤ) - (k.val : ℤ)) := by
  have hlt : base + k.val < 128 := by
    simp only [List.mem_cons, List.mem_singleton, List.not_mem_nil, or_false] at hb
    omega
  rw [vifScale_low _ hlt]
  simp only [List.mem_cons, List.mem_singleton, List.not_mem_nil, or_false] at hb
  rcases hb with rfl | rfl | rfl | rfl | rfl <;>
    fin_cases k <;> simp [vifScaleTable, List.lookup] <;> norm_num

/-- The unit codes of the blocks have the scale 1. -/
theorem vifScale_unit_codes (c : Nat)
    (hc : c ∈ [0x06, 0x0E, 0x16, 0x1B, 0x2E, 0x36, 0x3E, 0x53, 0x5B, 0x5F, 0x63, 0x67, 0x6B]) :
    vifScale (c : Int) = 1 := by
  have hlt : c < 128 := by
    simp only [List.mem_cons, List.mem_singleton, List.not_mem_nil, or_false] at hc
    omega
  rw [vifScale_low _ hlt]
  simp only [List.mem_cons, List.mem_singleton, List.not_mem_nil, or_false] at hc
  rcases hc with rfl | rfl | rfl | rfl | rfl | rfl | rfl | rfl | rfl | rfl | rfl | rfl | rfl <;>
    simp [vifScaleTable, List.lookup] <;> norm_num

/-- C37. The VIF scale table is decade-consistent: within each block of eight consecutive
codes starting at 0x00, 0x08, 0x10, 0x18, 0x28, 0x30, 0x38, 0x40, 0x48, 0x50,
`vifScale (base + k + 1) * 10 = vifScale (base + k)` for every k in 0..6; within each block of
four starting at 0x58, 0x5C, 0x60, 0x64, 0x68, `vifScale (base + k) = 10^(3-k)` for k in 0..3;
and the unit code of every block (0x06, 0x0E, 0x16, 0x1B, 0x2E, 0x36, 0x3E, 0x53, 0x5B, 0x5F,
0x63, 0x67, 0x6B) has the scale 1. The values are exact rationals. -/
theorem vifScale_decade_consistent :
    (∀ base ∈ [0x00, 0x08, 0x10, 0x18, 0x28, 0x30, 0x38, 0x40, 0x48, 0x50], ∀ k : Fin 7,
      vifScale ((base + k.val + 1 : Nat) : Int) * 10
        = vifScale ((base + k.val : Nat) : Int)) ∧
    (∀ base ∈ [0x58, 0x5C, 0x60, 0x64, 0x68], ∀ k : Fin 4,
      vifScale ((base + k.val : Nat) : Int) = (10 : ℚ) ^ ((3 : ℤ) - (k.val : ℤ))) ∧
    (∀ c ∈ [0x06, 0x0E, 0x16, 0x1B, 0x2E, 0x36, 0x3E, 0x53, 0x5B, 0x5F, 0x63, 0x67, 0x6B],
      vifScale ((c : Nat) : Int) = 1) :=
  ⟨fun base hb k => vifScale_decade base hb k,
    fun base hb k => vifScale_block_of_four base hb k,
    fun c hc => vifScale_unit_codes c hc⟩

set_option maxRecDepth 1000000 in
/-- The codes 0x00..0x79 have a description. -/
theorem vifType_described : ∀ t : Fin 0x7A, vifType t.val ≠ "?" := by
  decide

/-- C32, the code at the failing input. `vifType` has no case for the codes 0x7A and 0x7B and
returns the default text `?` for them; every code in 0x00..0x79 has a description. -/
theorem vifType_0x7A_undescribed :
    vifType 0x7A = "?" ∧ vifType 0x7B = "?" ∧ ∀ t : Fin 0x7A, vifType t.val ≠ "?" :=
  ⟨by decide, by decide, vifType_described⟩

/-! ## The frame of scenario 1 -/

set_option maxRecDepth 100000 in
/-- C31, counterexample. The literal frame of scenario 1 has 39 bytes and its length byte 0x2E
announces 46; `parseDLL` returns false for it without consuming a byte, and so does `parse`. -/
theorem parseDLL_rejects_scenario_1_frame :
    ([0x2E, 0x44, 0x2D, 0x2C, 0x78, 0x56, 0x34, 0x12, 0x30, 0x03, 0x72, 0x78, 0x56, 0x34,
      0x12, 0x2D, 0x2C, 0x30, 0x03, 0x00, 0x00, 0x00, 0x00, 0x00, 0x00, 0x2F, 0x2F, 0x04,
      0x04, 0x39, 0x30, 0x00, 0x00, 0x04, 0x2B, 0x1A, 0x00, 0x00, 0x00] : List uchar).length
      = 39 ∧
    (parseDLL { frame := [0x2E, 0x44, 0x2D, 0x2C, 0x78, 0x56, 0x34, 0x12, 0x30, 0x03, 0x72,
      0x78, 0x56, 0x34, 0x12, 0x2D, 0x2C, 0x30, 0x03, 0x00, 0x00, 0x00, 0x00, 0x00, 0x00,
      0x2F, 0x2F, 0x04, 0x04, 0x39, 0x30, 0x00, 0x00, 0x04, 0x2B, 0x1A, 0x00, 0x00, 0x00] }
      0).map (fun r => (r.1, r.2.2)) = some (false, 0) ∧
    (parse stubCrypto stubLinkOps exampleAFLAuthTypes stubDVOps [] {}
      [0x2E, 0x44, 0x2D, 0x2C, 0x78, 0x56, 0x34, 0x12, 0x30, 0x03, 0x72,
      0x78, 0x56, 0x34, 0x12, 0x2D, 0x2C, 0x30, 0x03, 0x00, 0x00, 0x00, 0x00, 0x00, 0x00,
      0x2F, 0x2F, 0x04, 0x04, 0x39, 0x30, 0x00, 0x00, 0x04, 0x2B, 0x1A, 0x00, 0x00, 0x00]
      {}).map (fun r => r.1) = some false := by
  decide

set_option maxRecDepth 100000 in
/-- C31, amended. For the literal 39 byte frame of scenario 1, whose length byte 0x2E
announces 46 bytes, `parseDLL` returns false with the cursor at the frame start: the frame is
rejected as truncated. For the same frame with the length byte 0x26, which fits its 39 bytes,
`parseDLL` returns true with the cursor at the CI field 0x72 of the long TPL header and decodes
the manufacturer 0x2C2D (flag `KAM`), the id string `12345678`, the version 0x30 and the device
type 0x03. -/
theorem parseDLL_scenario_1_frame :
    (parseDLL { frame := [0x2E, 0x44, 0x2D, 0x2C, 0x78, 0x56, 0x34, 0x12, 0x30, 0x03, 0x72,
      0x78, 0x56, 0x34, 0x12, 0x2D, 0x2C, 0x30, 0x03, 0x00, 0x00, 0x00, 0x00, 0x00, 0x00,
      0x2F, 0x2F, 0x04, 0x04, 0x39, 0x30, 0x00, 0x00, 0x04, 0x2B, 0x1A, 0x00, 0x00, 0x00] }
      0).map (fun r => (r.1, r.2.2)) = some (false, 0) ∧
    ∃ t', parseDLL { frame := [0x26, 0x44, 0x2D, 0x2C, 0x78, 0x56, 0x34, 0x12, 0x30, 0x03,
        0x72, 0x78, 0x56, 0x34, 0x12, 0x2D, 0x2C, 0x30, 0x03, 0x00, 0x00, 0x00, 0x00, 0x00,
        0x00, 0x2F, 0x2F, 0x04, 0x04, 0x39, 0x30, 0x00, 0x00, 0x04, 0x2B, 0x1A, 0x00, 0x00,
        0x00] } 0 = some (true, t', 10) ∧
      t'.dll_mfct = 0x2C2D ∧ manufacturerFlag 0x2C2D = "KAM" ∧ t'.id = "12345678" ∧
      t'.dll_version = 0x30 ∧ t'.dll_type = 0x03 ∧ t'.frame[10]? = some 0x72 := by
  refine ⟨by decide, ?_⟩
  obtain ⟨t', hrun, hf, _, _, hm, _, _, hid, hv, hty⟩ := parseDLL_cons
    { frame := [0x26, 0x44, 0x2D, 0x2C, 0x78, 0x56, 0x34, 0x12, 0x30, 0x03,
        0x72, 0x78, 0x56, 0x34, 0x12, 0x2D, 0x2C, 0x30, 0x03, 0x00, 0x00, 0x00, 0x00, 0x00,
        0x00, 0x2F, 0x2F, 0x04, 0x04, 0x39, 0x30, 0x00, 0x00, 0x04, 0x2B, 0x1A, 0x00, 0x00,
        0x00] }
    0x26 0x44 0x2D 0x2C 0x78 0x56 0x34 0x12 0x30 0x03
    [0x72, 0x78, 0x56, 0x34, 0x12, 0x2D, 0x2C, 0x30, 0x03, 0x00, 0x00, 0x00, 0x00, 0x00,
        0x00, 0x2F, 0x2F, 0x04, 0x04, 0x39, 0x30, 0x00, 0x00, 0x04, 0x2B, 0x1A, 0x00, 0x00,
        0x00] rfl (by decide)
  refine ⟨t', hrun, hm.trans (by decide), by decide, hid.trans (by decide), hv, hty, ?_⟩
  rw [hf]
  rfl

/-! ## Security modes without decryption -/

/-- C40. For every TPL security mode other than AES_CBC_IV (5) and AES_CBC_NO_IV (7), the
mode 0 included, `potentiallyDecrypt` returns true and leaves the telegram (its frame bytes
and its explanation trail) and the cursor as they are; `parse_TPL_7A` then hands the telegram
with the same frame to `parseDV`, at the cursor behind the TPL header. -/
theorem potentiallyDecrypt_other_modes (cr : Crypto) (dv : DVOps) (cache : FormatCache)
    (t : Telegram) (pos : Nat)
    (hmode : t.tpl_sec_mode ≠ .AES_CBC_IV ∧ t.tpl_sec_mode ≠ .AES_CBC_NO_IV) :
    potentiallyDecrypt cr t pos = some (true, t, pos) ∧
    (∀ (t0 : Telegram) (p0 : Nat), parseShortTPL cr t0 p0 = some (true, t, pos) →
      parse_TPL_7A cr dv cache t0 p0
        = some (true,
            (dv.parseDV cache { t with header_size := pos, suffix_size := 0 } pos
              ((t.frame.length : Int) - (pos : Int)) none).1,
            pos,
            (dv.parseDV cache { t with header_size := pos, suffix_size := 0 } pos
              ((t.frame.length : Int) - (pos : Int)) none).2)) := by
  have h1 : potentiallyDecrypt cr t pos = some (true, t, pos) := by
    simp only [potentiallyDecrypt, if_neg hmode.1, if_neg hmode.2]
  refine ⟨h1, ?_⟩
  intro t0 p0 hs
  simp only [parse_TPL_7A, hs, h1, Bool.not_true, Bool.false_eq_true, if_false,
    parseDVAndReturn]

/-- Witness for C40: a telegram with the security mode 0 and the payload `2F 2F` at the
cursor. -/
theorem potentiallyDecrypt_other_modes_witness :
    potentiallyDecrypt stubCrypto { frame := [0x2F, 0x2F, 0x04] } 0
      = some (true, { frame := [0x2F, 0x2F, 0x04] }, 0) :=
  (potentiallyDecrypt_other_modes stubCrypto stubDVOps [] { frame := [0x2F, 0x2F, 0x04] } 0
    ⟨by decide, by decide⟩).1

/-! ## The link modes of the Amber dongle -/

set_option maxRecDepth 100000 in
/-- C39, the code at the failing input. For the set of the two supported modes S1 and C1,
`canSetLinkModes` returns true, and so it does for S1 together with a mode the dongle does not
support; it returns true for C1 with T1 and for S1 with S1m, false for the empty set, false
for three modes, and true for each single supported mode. -/
theorem canSetLinkModes_accepts_S1_with_C1 :
    canSetLinkModes exampleLinkModes { set_ := 0x2 ||| 0x1 } = some true ∧
    canSetLinkModes exampleLinkModes { set_ := 0x2 ||| 0x10 } = some true ∧
    canSetLinkModes exampleLinkModes { set_ := 0x1 ||| 0x8 } = some true ∧
    canSetLinkModes exampleLinkModes { set_ := 0x2 ||| 0x4 } = some true ∧
    canSetLinkModes exampleLinkModes { set_ := 0 } = some false ∧
    canSetLinkModes exampleLinkModes { set_ := 0x1 ||| 0x2 ||| 0x4 } = some false ∧
    canSetLinkModes exampleLinkModes { set_ := 0x1 } = some true ∧
    canSetLinkModes exampleLinkModes { set_ := 0x2 } = some true ∧
    canSetLinkModes exampleLinkModes { set_ := 0x4 } = some true ∧
    canSetLinkModes exampleLinkModes { set_ := 0x8 } = some true ∧
    canSetLinkModes exampleLinkModes { set_ := 0x10 } = some false := by
  decide

/-! ## Reads outside the frame -/

set_option maxRecDepth 100000 in
/-- C38, the code at the failing input. On the one byte frame `00` `parseDLL` passes its
length check (1 is not below 0) and reads the C field at index 1, outside the frame; on a
frame that ends with the AFL CI field 0x90 `parseAFL` reads the AFL length at the index behind
the last byte. In the model a read outside the frame is the result `none`. -/
theorem parseDLL_parseAFL_read_outside_frame :
    parseDLL { frame := [0x00] } 0 = none ∧
    ({ frame := [0x00] } : Telegram).frame[1]? = none ∧
    parseAFL exampleAFLAuthTypes { frame := [0x90] } 0 = none ∧
    parseAFL exampleAFLAuthTypes { frame := [0x90, 0x0F, 0x00] } 0 = none ∧
    parseDLL { frame := [0x09, 0x44, 0x2D, 0x2C, 0x78, 0x56, 0x34, 0x12, 0x30] } 0 = none := by
  decide

/-! ## The cursor after the extended link layer -/

/-- C34. For each CI in 0x8C, 0x8D, 0x8E, 0x8F, a run of `parseELL` that returns true has
advanced the cursor by exactly 1 + ciFieldLength(CI) bytes, which is 3, 9, 11 and 17: the CI
field, CC and ACC, for 0x8E and 0x8F the 8 bytes of manufacturer, id, version and device type
(the device type consumed as one byte), for 0x8D and 0x8F the 6 bytes of session number and
payload CRC. The parser returns a result on every such frame when the decryption keeps the
length of the frame. -/
theorem parseELL_advances_by_header_length (ops : LinkOps) (t : Telegram) (pos : Nat)
    (ci : uchar) (h0 : t.frame[pos]? = some ci)
    (hci : ci = 0x8C ∨ ci = 0x8D ∨ ci = 0x8E ∨ ci = 0x8F) :
    (∀ t' pos', parseELL ops t pos = some (true, t', pos') →
      pos' = pos + 1 + (ciFieldLength ci.val).toNat) ∧
    (1 + (ciFieldLength ci.val).toNat
      = if ci = 0x8C then 3 else if ci = 0x8D then 9 else if ci = 0x8E then 11 else 17) ∧
    ((∀ (u : Telegram) (p : Nat) (k : List uchar),
        (ops.decrypt_ELL_AES_CTR u p k).2.length = u.frame.length) →
      ∃ ok t' pos', parseELL ops t pos = some (ok, t', pos')) := by
  refine ⟨?_, ?_, ?_⟩
  · intro t' pos' h
    rcases hci with hc | hc | hc | hc
    · exact (parseELL_plain_true ops t pos ci h0 (Or.inl hc) t' pos' h).1
    · obtain ⟨t2, _, _, hs⟩ := parseELL_true_session ops t pos ci h0 (Or.inl hc) t' pos' h
      have hp := (session_number_true _ _ _ _ _ hs).1
      subst hc
      have hL : (ciFieldLength ((0x8D : uchar).val : Int)).toNat = 8 := by decide
      rw [hL] at hp ⊢
      omega
    · exact (parseELL_plain_true ops t pos ci h0 (Or.inr hc) t' pos' h).1
    · obtain ⟨t2, _, _, hs⟩ := parseELL_true_session ops t pos ci h0 (Or.inr hc) t' pos' h
      have hp := (session_number_true _ _ _ _ _ hs).1
      subst hc
      have hL : (ciFieldLength ((0x8F : uchar).val : Int)).toNat = 16 := by decide
      rw [hL] at hp ⊢
      omega
  · rcases hci with hc | hc | hc | hc <;> subst hc <;> decide
  · intro hdec
    rcases hci with hc | hc | hc | hc
    · exact parseELL_plain_returns ops t pos ci h0 (Or.inl hc)
        (fun h86 => absurd (hc.symm.trans h86) (by decide))
    · exact parseELL_session_returns ops t pos ci h0 (Or.inl hc) hdec
    · exact parseELL_plain_returns ops t pos ci h0 (Or.inr (Or.inl hc))
        (fun h86 => absurd (hc.symm.trans h86) (by decide))
    · exact parseELL_session_returns ops t pos ci h0 (Or.inr hc) hdec

set_option maxRecDepth 100000 in
/-- Witness for C34: a frame with the ELL of CI 0x8E (type III) followed by the CI field of a
TPL; the run returns true with the cursor behind the 11 bytes of the layer. -/
theorem parseELL_advances_by_header_length_witness :
    (parseELL stubLinkOps
      { frame := [0x8E, 0x20, 0x01, 0x2D, 0x2C, 0x78, 0x56, 0x34, 0x12, 0x30, 0x03, 0x78] }
      0).map (fun r => (r.1, r.2.2)) = some (true, 11) ∧
    (∀ t' pos', parseELL stubLinkOps
        { frame := [0x8E, 0x20, 0x01, 0x2D, 0x2C, 0x78, 0x56, 0x34, 0x12, 0x30, 0x03, 0x78] }
        0 = some (true, t', pos') →
      pos' = 0 + 1 + (ciFieldLength (0x8E : uchar).val).toNat) :=
  ⟨by decide,
    (parseELL_advances_by_header_length stubLinkOps
      { frame := [0x8E, 0x20, 0x01, 0x2D, 0x2C, 0x78, 0x56, 0x34, 0x12, 0x30, 0x03, 0x78] }
      0 0x8E rfl (Or.inr (Or.inr (Or.inl rfl)))).1⟩

/-! ## The truncation check of the transport layer -/

set_option maxRecDepth 100000 in
/-- C33, the code at the failing input. The TPL section `78 2F 2F` (a TPL without header and
two payload bytes) is accepted by `parseTPL` when no ELL preceded it (`ell_ci` is 0) and
rejected as truncated when the telegram has the ELL of type IV (`ell_ci` is 0x8F): the length
that the check compares with is `ciFieldLength(ell_ci)`. The same holds for the whole `parse`
of a frame with and without the 17 bytes of an ELL of type IV in front of this TPL section;
in the second frame `parseELL` returns true with the cursor at the CI field 0x78. -/
theorem parseTPL_truncation_check_uses_ell_ci :
    (parseTPL stubCrypto stubDVOps [] { frame := [0x78, 0x2F, 0x2F] } 0).map
      (fun r => (r.1, r.2.2.1)) = some (true, 1) ∧
    (parseTPL stubCrypto stubDVOps [] { frame := [0x78, 0x2F, 0x2F], ell_ci := 0x8F } 0).map
      (fun r => (r.1, r.2.2.1)) = some (false, 1) ∧
    (parse stubCrypto stubLinkOps exampleAFLAuthTypes stubDVOps [] {}
      [0x0C, 0x44, 0x2D, 0x2C, 0x78, 0x56, 0x34, 0x12, 0x30, 0x03, 0x78, 0x2F, 0x2F]
      {}).map (fun r => r.1) = some true ∧
    (parse stubCrypto stubLinkOps exampleAFLAuthTypes stubDVOps [] {}
      [0x1D, 0x44, 0x2D, 0x2C, 0x78, 0x56, 0x34, 0x12, 0x30, 0x03,
       0x8F, 0x20, 0x01, 0x2D, 0x2C, 0x78, 0x56, 0x34, 0x12, 0x30, 0x03, 0x00, 0x00, 0x00,
       0x00, 0x00, 0x00, 0x78, 0x2F, 0x2F]
      {}).map (fun r => r.1) = some false ∧
    (parseELL stubLinkOps
      { frame := [0x1D, 0x44, 0x2D, 0x2C, 0x78, 0x56, 0x34, 0x12, 0x30, 0x03,
       0x8F, 0x20, 0x01, 0x2D, 0x2C, 0x78, 0x56, 0x34, 0x12, 0x30, 0x03, 0x00, 0x00, 0x00,
       0x00, 0x00, 0x00, 0x78, 0x2F, 0x2F] } 10).map (fun r => (r.1, r.2.2))
      = some (true, 27) ∧
    ciFieldLength 0x8F = 16 ∧ ciFieldLength 0x78 = 0 := by
  decide

end Wmbus
